import Mathlib

/-!
# nat46-core: a shallow embedding of the stateless IPv4/IPv6 translation engine

Source: `release/src-qca-ipq807x/ipq807x/nat46/source/nat46/modules/nat46-core.c`.

Conventions of the embedding

* A C pointer to bytes is a `Mem`: the memory seen from that pointer, byte `i`
  of it being `p i`.  A function that writes through a pointer returns the new
  memory.  Bytes are natural numbers below 256 (`IsBytes`).
* C `int` fields are `Int`; unsigned machine words are `Nat` with an explicit
  `% 2 ^ w` wherever the C type truncates.
* The host is little-endian (the ipq807x target), so `ntohs`/`htons` and
  `ntohl`/`htonl` swap bytes and a `u16`/`u32` load reads the low byte first.
-/

namespace Nat46

/-! ## Memory -/

/-- Memory seen from a pointer: byte `i` past the pointer. -/
abbrev Mem := Nat → Nat

/-- Every cell of the memory holds a byte. -/
def IsBytes (m : Mem) : Prop := ∀ i, m i < 256

/-- The assignment `p[i] = v`. -/
def store (m : Mem) (i v : Nat) : Mem := fun k => if k = i then v else m k

/-- The call `memset(&p[off], val, n)`. -/
def memset (m : Mem) (off val n : Nat) : Mem :=
  fun k => if off ≤ k ∧ k < off + n then val else m k

/-- The call `memcpy(&dst[doff], &src[soff], n)` for buffers that do not overlap. -/
def memcpy (dst : Mem) (doff : Nat) (src : Mem) (soff n : Nat) : Mem :=
  fun k => if doff ≤ k ∧ k < doff + n then src (soff + (k - doff)) else dst k

/-- The test `memcmp(a, b, n) != 0` is `memcmp_ne a b n = true`: some byte among the first
`n` differs.  The loop runs over the bytes from the last to the first; only whether a
difference exists is used by the callers. -/
def memcmp_ne (a b : Mem) : Nat → Bool
  | 0 => false
  | n + 1 => memcmp_ne a b n || decide (a n ≠ b n)

/-- The memory whose first bytes are the given list and whose other bytes are zero. -/
def ofBytes (l : List Nat) : Mem := fun i => l.getD i 0

/-! ## Data model -/

/-- Modelled from the spec: the translation styles `nat46_xlate_style_t` of the header
`nat46-core.h`, which is not among the sources. -/
inductive nat46_xlate_style_t where
  | NAT46_XLATE_NONE
  | NAT46_XLATE_MAP
  | NAT46_XLATE_MAP0
  | NAT46_XLATE_RFC6052
  deriving DecidableEq, Repr

open nat46_xlate_style_t

/-- Modelled from the spec: one direction of a rule pair, `nat46_xlate_rule_t` of the missing
header, with the fields the code uses.  `v6_pref` is the memory of the `struct in6_addr`
field, `v4_pref` the `u32` holding the IPv4 prefix in network byte order; the lengths are
C `int`s. -/
structure nat46_xlate_rule_t where
  style : nat46_xlate_style_t
  v6_pref : Mem
  v6_pref_len : Int
  v4_pref : Nat
  v4_pref_len : Int
  ea_len : Int
  psid_offset : Int

/-- Modelled from the spec: a rule pair, `nat46_xlate_rulepair_t` of the missing header. -/
structure nat46_xlate_rulepair_t where
  «local» : nat46_xlate_rule_t
  remote : nat46_xlate_rule_t

/-! ## RFC6052 address codec -/

/-- `xlate_v4_to_nat64(nat46, rule, pipv4, pipv6)`: the new contents of `pipv6`. -/
def xlate_v4_to_nat64 (rule : nat46_xlate_rule_t) (ipv4 ipv6 : Mem) : Mem :=
  let ipv6 := memset ipv6 8 0 8
  if rule.v6_pref_len = 32 then
    memcpy (memcpy ipv6 0 rule.v6_pref 0 4) 4 ipv4 0 4
  else if rule.v6_pref_len = 40 then
    store (memcpy (memcpy ipv6 0 rule.v6_pref 0 5) 5 ipv4 0 3) 9 (ipv4 3)
  else if rule.v6_pref_len = 48 then
    let m := memcpy ipv6 0 rule.v6_pref 0 6
    store (store (store (store m 6 (ipv4 0)) 7 (ipv4 1)) 9 (ipv4 2)) 10 (ipv4 3)
  else if rule.v6_pref_len = 56 then
    let m := memcpy ipv6 0 rule.v6_pref 0 7
    store (store (store (store m 7 (ipv4 0)) 9 (ipv4 1)) 10 (ipv4 2)) 11 (ipv4 3)
  else if rule.v6_pref_len = 64 then
    memcpy (memcpy ipv6 0 rule.v6_pref 0 8) 9 ipv4 0 4
  else if rule.v6_pref_len = 96 then
    memcpy (memcpy ipv6 0 rule.v6_pref 0 12) 12 ipv4 0 4
  else ipv6

/-- `xlate_nat64_to_v4(nat46, rule, pipv6, pipv4)`: the return value and the new contents of
`pipv4`.  `cmp` starts at `-1`, so a prefix length outside the switch gives "not in prefix". -/
def xlate_nat64_to_v4 (rule : nat46_xlate_rule_t) (ipv6 ipv4 : Mem) : Int × Mem :=
  let v6_pref_len := rule.v6_pref_len
  let cmp : Bool :=
    if v6_pref_len = 32 then memcmp_ne ipv6 rule.v6_pref 4
    else if v6_pref_len = 40 then memcmp_ne ipv6 rule.v6_pref 5
    else if v6_pref_len = 48 then memcmp_ne ipv6 rule.v6_pref 6
    else if v6_pref_len = 56 then memcmp_ne ipv6 rule.v6_pref 7
    else if v6_pref_len = 64 then memcmp_ne ipv6 rule.v6_pref 8
    else if v6_pref_len = 96 then memcmp_ne ipv6 rule.v6_pref 12
    else true
  if cmp then (0, ipv4)
  else if v6_pref_len = 32 then (1, memcpy ipv4 0 ipv6 4 4)
  else if v6_pref_len = 40 then (1, store (memcpy ipv4 0 ipv6 5 3) 3 (ipv6 9))
  else if v6_pref_len = 48 then
    (1, store (store (store (store ipv4 0 (ipv6 6)) 1 (ipv6 7)) 2 (ipv6 9)) 3 (ipv6 10))
  else if v6_pref_len = 56 then
    (1, store (store (store (store ipv4 0 (ipv6 7)) 1 (ipv6 9)) 2 (ipv6 10)) 3 (ipv6 11))
  else if v6_pref_len = 64 then (1, memcpy ipv4 0 ipv6 9 4)
  else if v6_pref_len = 96 then (1, memcpy ipv4 0 ipv6 12 4)
  else (1, ipv4)

/-! ## Unaligned bit copy -/

/-- The table `reverse_mask` of `bitarray_copy`; entry 0 is `0x55` in the source. -/
def reverse_mask (i : Nat) : Nat :=
  [0x55, 0x80, 0xc0, 0xe0, 0xf0, 0xf8, 0xfc, 0xfe, 0xff].getD i 0

/-- The table `reverse_mask_xor` of `bitarray_copy`. -/
def reverse_mask_xor (i : Nat) : Nat :=
  [0xff, 0x7f, 0x3f, 0x1f, 0x0f, 0x07, 0x03, 0x01, 0x00].getD i 0

/-- The macro `PREPARE_FIRST_COPY()`: from the byte `*dst`, the byte `c` and `src_len` to their
values after the macro. -/
def PREPARE_FIRST_COPY (dstb c src_len dst_offset_modulo : Nat) : Nat × Nat × Nat :=
  if src_len ≥ 8 - dst_offset_modulo then
    (dstb &&& reverse_mask dst_offset_modulo, c, src_len - (8 - dst_offset_modulo))
  else
    (dstb &&& (reverse_mask dst_offset_modulo |||
        reverse_mask_xor (dst_offset_modulo + src_len + 1)),
      c &&& reverse_mask (dst_offset_modulo + src_len), 0)

/-- The middle loop of the unaligned branch, `while (--byte_len >= 0)`: `byte_len` rounds of
`c = *src++ << bit_diff_ls; c |= *src >> bit_diff_rs; *dst++ = c;`. -/
def bitarray_copy_middle (src_org : Mem) (bit_diff_ls bit_diff_rs : Nat) :
    Nat → Nat → Nat → Mem → Mem
  | 0, _, _, m => m
  | byte_len + 1, src, dst, m =>
    bitarray_copy_middle src_org bit_diff_ls bit_diff_rs byte_len (src + 1) (dst + 1)
      (store m dst (((src_org src <<< bit_diff_ls) % 256) ||| (src_org (src + 1) >>> bit_diff_rs)))

/-- `bitarray_copy(src_org, src_offset, src_len, dst_org, dst_offset)`: the new contents of
`dst_org`.  `src` and `dst` are the byte indices of the running pointers; `c` is an
`unsigned char`, so a left shift stored in it is taken modulo 256.  The offsets and the
length are `int`s in the source; the callers pass non-negative values, and a negative value
(memory before the pointer) is outside the model. -/
def bitarray_copy (src_org : Mem) (src_offset src_len : Nat) (dst_org : Mem)
    (dst_offset : Nat) : Mem :=
  if src_len = 0 then dst_org
  else
    let src := src_offset / 8
    let dst := dst_offset / 8
    let src_offset_modulo := src_offset % 8
    let dst_offset_modulo := dst_offset % 8
    if src_offset_modulo = dst_offset_modulo then
      let st : Mem × Nat × Nat × Nat :=
        if src_offset_modulo ≠ 0 then
          let c := reverse_mask_xor dst_offset_modulo &&& src_org src
          let p := PREPARE_FIRST_COPY (dst_org dst) c src_len dst_offset_modulo
          (store dst_org dst (p.1 ||| p.2.1), src + 1, dst + 1, p.2.2)
        else (dst_org, src, dst, src_len)
      let m := st.1
      let src := st.2.1
      let dst := st.2.2.1
      let src_len := st.2.2.2
      let byte_len := src_len / 8
      let src_len_modulo := src_len % 8
      let m := if byte_len ≠ 0 then memcpy m dst src_org src byte_len else m
      let src := src + byte_len
      let dst := dst + byte_len
      if src_len_modulo ≠ 0 then
        store m dst ((m dst &&& reverse_mask_xor src_len_modulo) |||
          (reverse_mask src_len_modulo &&& src_org src))
      else m
    else
      let st : Nat × Nat × Nat × Nat :=
        if src_offset_modulo > dst_offset_modulo then
          let bit_diff_ls := src_offset_modulo - dst_offset_modulo
          let bit_diff_rs := 8 - bit_diff_ls
          let c := (src_org src <<< bit_diff_ls) % 256
          let c := c ||| (src_org (src + 1) >>> bit_diff_rs)
          (bit_diff_ls, bit_diff_rs, c &&& reverse_mask_xor dst_offset_modulo, src + 1)
        else
          let bit_diff_rs := dst_offset_modulo - src_offset_modulo
          let bit_diff_ls := 8 - bit_diff_rs
          (bit_diff_ls, bit_diff_rs,
            (src_org src >>> bit_diff_rs) &&& reverse_mask_xor dst_offset_modulo, src)
      let bit_diff_ls := st.1
      let bit_diff_rs := st.2.1
      let src := st.2.2.2
      let p := PREPARE_FIRST_COPY (dst_org dst) st.2.2.1 src_len dst_offset_modulo
      let m := store dst_org dst (p.1 ||| p.2.1)
      let dst := dst + 1
      let src_len := p.2.2
      let byte_len := src_len / 8
      let m := bitarray_copy_middle src_org bit_diff_ls bit_diff_rs byte_len src dst m
      let src := src + byte_len
      let dst := dst + byte_len
      let src_len_modulo := src_len % 8
      if src_len_modulo ≠ 0 then
        let c := (src_org src <<< bit_diff_ls) % 256
        let c := c ||| (src_org (src + 1) >>> bit_diff_rs)
        let c := c &&& reverse_mask src_len_modulo
        store m dst ((m dst &&& reverse_mask_xor src_len_modulo) ||| c)
      else m

/-- Bit `k` of a buffer, bits numbered from the most significant bit of byte 0. -/
def getBit (m : Mem) (k : Nat) : Bool := (m (k / 8)).testBit (7 - k % 8)

/-! ## Byte order and machine words -/

/-- `ntohs` and `htons` on the little-endian host: swap the two bytes of a `u16`. -/
def ntohs (x : Nat) : Nat := (x % 256) * 256 + (x / 256) % 256

/-- `ntohl` and `htonl` on the little-endian host: reverse the four bytes of a `u32`. -/
def ntohl (x : Nat) : Nat :=
  (x % 256) * 2 ^ 24 + (x / 2 ^ 8 % 256) * 2 ^ 16 + (x / 2 ^ 16 % 256) * 2 ^ 8 + x / 2 ^ 24 % 256

/-- The load `*(u32 *)p` on the little-endian host. -/
def ld32 (p : Mem) : Nat := p 0 + p 1 * 2 ^ 8 + p 2 * 2 ^ 16 + p 3 * 2 ^ 24

/-- The four bytes of a `u32` object in memory (`&x` seen as bytes) on the little-endian
host.  Only these four bytes are ever read through it. -/
def u32_bytes (x : Nat) : Mem := fun i => if i < 4 then x / 2 ^ (8 * i) % 256 else 0

/-- The bytes of a `u16` object in memory on the little-endian host; the memory after the
object is `rest`. -/
def u16_bytes (x : Nat) (rest : Mem) : Mem :=
  fun i => if i < 2 then x / 2 ^ (8 * i) % 256 else rest i

/-- The conversion of an `int` to `uint8_t`. -/
def to_u8 (x : Int) : Nat := (x % 256).toNat

/-- The value of an `int` expression whose mathematical value is `x`: a result outside the
range of `int` wraps around modulo `2 ^ 32` (the kernel is compiled with
`-fno-strict-overflow`, which makes signed overflow wrap). -/
def to_int (x : Int) : Int := (x + 2 ^ 31) % 2 ^ 32 - 2 ^ 31

/-- Left shift of a `u32` by an `int` count.  C defines it for counts 0..31 only; the compiled
code takes the count modulo 32 (the shift instruction reads the low five bits of the count),
and so does the model: a count of 32 shifts by 0. -/
def shl32 (x : Nat) (n : Int) : Nat := (x <<< (n % 32).toNat) % 2 ^ 32

/-- Right shift of a non-negative value by an `int` count; a negative count, which C leaves
undefined, is taken as 0. -/
def shr (x : Nat) (n : Int) : Nat := x >>> n.toNat

/-! ## MAP address codec -/

/-- `xlate_map_v4_to_v6(nat46, rule, pipv4, pipv6, pl4id, map_version)`: the return value and
the new contents of `pipv6`.  `pl4id` is `none` for a NULL pointer.  `stk` is the memory that
follows the local variable `l4id`, whose address is handed to `bitarray_copy`. -/
def xlate_map_v4_to_v6 (rule : nat46_xlate_rule_t) (pipv4 pipv6 : Mem) (pl4id : Option Nat)
    (map_version : Int) (stk : Mem) : Int × Mem :=
  let l4id : Nat := match pl4id with
    | some v => v
    | none => 0
  let psid_bits_len : Nat := to_u8 (rule.ea_len - (32 - rule.v4_pref_len))
  let v4_lsb_bits_len : Nat := to_u8 (32 - rule.v4_pref_len)
  if ntohl (ld32 pipv4) &&& shl32 0xffffffff v4_lsb_bits_len ≠ ntohl rule.v4_pref then (0, pipv6)
  else if rule.ea_len < 32 - rule.v4_pref_len then (0, pipv6)
  else if pl4id.isNone ∧ psid_bits_len ≠ 0 then (0, pipv6)
  else
    let p6 := memset pipv6 0 0 16
    let psid : Nat := (shr (ntohs l4id) (16 - (psid_bits_len : Int) - rule.psid_offset) &&&
      shr 0xffff (16 - (psid_bits_len : Int))) % 2 ^ 16
    let a := ntohl (ld32 pipv4)
    let p6 :=
      if map_version ≠ 0 then
        let p6 := store (store p6 9 0) 8 0
        let p6 := store p6 10 (0xff &&& (a >>> 24))
        let p6 := store p6 11 (0xff &&& (a >>> 16))
        let p6 := store p6 12 (0xff &&& (a >>> 8))
        let p6 := store p6 13 (0xff &&& a)
        let p6 := store p6 14 (0xff &&& (psid >>> 8))
        store p6 15 (0xff &&& psid)
      else
        let p6 := store p6 8 0
        let p6 := store p6 9 (0xff &&& (a >>> 24))
        let p6 := store p6 10 (0xff &&& (a >>> 16))
        let p6 := store p6 11 (0xff &&& (a >>> 8))
        let p6 := store p6 12 (0xff &&& a)
        let p6 := store p6 13 (0xff &&& (psid >>> 8))
        let p6 := store p6 14 (0xff &&& psid)
        store p6 15 0
    let p6 := bitarray_copy rule.v6_pref 0 rule.v6_pref_len.toNat p6 0
    let p6 :=
      if v4_lsb_bits_len ≠ 0 then
        bitarray_copy pipv4 rule.v4_pref_len.toNat v4_lsb_bits_len p6 rule.v6_pref_len.toNat
      else p6
    let p6 :=
      if psid_bits_len ≠ 0 then
        bitarray_copy (u16_bytes l4id stk) rule.psid_offset.toNat psid_bits_len p6
          (rule.v6_pref_len + v4_lsb_bits_len).toNat
      else p6
    (1, p6)

/-- `xlate_map_v6_to_v4(nat46, rule, pipv6, pipv4, version)`: the return value and the new
contents of `pipv4` (`version` is not used by the function). -/
def xlate_map_v6_to_v4 (rule : nat46_xlate_rule_t) (pipv6 pipv4 : Mem) : Int × Mem :=
  let v4_lsb_bits_len : Nat := to_u8 (32 - rule.v4_pref_len)
  if memcmp_ne pipv6 rule.v6_pref (Int.tdiv rule.v6_pref_len 8).toNat then (0, pipv4)
  else
    let bad : Bool :=
      if Int.tmod rule.v6_pref_len 8 ≠ 0 then
        let mask := (0xff <<< (8 - Int.tmod rule.v6_pref_len 8).toNat) % 256
        let pa1 := pipv6 (Int.tdiv rule.v6_pref_len 8).toNat
        let pa2 := rule.v6_pref (Int.tdiv rule.v6_pref_len 8).toNat
        decide (pa1 &&& mask ≠ pa2 &&& mask)
      else false
    if bad then (0, pipv4)
    else if rule.ea_len < 32 - rule.v4_pref_len then (0, pipv4)
    else
      let p4 := memcpy pipv4 0 (u32_bytes rule.v4_pref) 0 4
      let p4 :=
        if v4_lsb_bits_len ≠ 0 then
          bitarray_copy pipv6 rule.v6_pref_len.toNat v4_lsb_bits_len p4 rule.v4_pref_len.toNat
        else p4
      (1, p4)

/-! ## Instance, sorted views and longest-prefix match -/

/-- Modelled from the spec: the constant `IPV4_BITS_MAX` of the header `nat46-core.h`, which
is not among the sources; an IPv4 prefix length is 0..32. -/
def IPV4_BITS_MAX : Int := 32

/-- Modelled from the spec: the constant `BITS_PER_BYTE` of the missing header. -/
def BITS_PER_BYTE : Int := 8

/-- Modelled from the spec: the constant `U32_MASK` of the missing header, the all-ones
32-bit word. -/
def U32_MASK : Nat := 0xffffffff

/-- Modelled from the spec: the constant `U8_MASK` of the missing header, the all-ones byte. -/
def U8_MASK : Nat := 0xff

/-- Modelled from the spec: the instance `nat46_instance_t` of the missing header, as the spec
describes it: the ordered rule pairs (`npairs` is their number) and the four sorted views.
Each array holds its `npairs` live elements. -/
structure nat46_instance_t where
  debug : Int
  pairs : List nat46_xlate_rulepair_t
  sorted_ipv4_local_pairs : List nat46_xlate_rulepair_t
  sorted_ipv4_remote_pairs : List nat46_xlate_rulepair_t
  sorted_ipv6_local_pairs : List nat46_xlate_rulepair_t
  sorted_ipv6_remote_pairs : List nat46_xlate_rulepair_t

/-- The field `nat46->npairs`. -/
def nat46_instance_t.npairs (nat46 : nat46_instance_t) : Int := nat46.pairs.length

/-- `nat46_swap(&array[j], &array[j+1])`. -/
def nat46_swap (array : List nat46_xlate_rulepair_t) (j : Nat) : List nat46_xlate_rulepair_t :=
  match array[j]?, array[j + 1]? with
  | some a, some b => (array.set j b).set (j + 1) a
  | _, _ => array

/-- The test `array[j].key < array[j+1].key` of the sort. -/
def sort_less (key : nat46_xlate_rulepair_t → Int) (array : List nat46_xlate_rulepair_t)
    (j : Nat) : Bool :=
  match array[j]?, array[j + 1]? with
  | some a, some b => decide (key a < key b)
  | _, _ => false

/-- The inner loop of `nat46_sort_rule_array`, `for (j = ...; j < nelem - i - 1; j++)`:
`count` iterations from index `j` on. -/
def sort_inner (key : nat46_xlate_rulepair_t → Int) :
    Nat → Nat → List nat46_xlate_rulepair_t → List nat46_xlate_rulepair_t
  | 0, _, array => array
  | count + 1, j, array =>
    sort_inner key count (j + 1) (if sort_less key array j then nat46_swap array j else array)

/-- The outer loop of `nat46_sort_rule_array`, `for (i = ...; i < nelem - 1; i++)`: `count`
iterations from `i` on, each running the inner loop for `j < nelem - i - 1`. -/
def sort_outer (key : nat46_xlate_rulepair_t → Int) (nelem : Nat) :
    Nat → Nat → List nat46_xlate_rulepair_t → List nat46_xlate_rulepair_t
  | 0, _, array => array
  | count + 1, i, array =>
    sort_outer key nelem count (i + 1) (sort_inner key (nelem - i - 1) 0 array)

/-- One of the four sorts of `nat46_sort_rule_array`: the copy of `pairs` sorted by `key`. -/
def sort_by (key : nat46_xlate_rulepair_t → Int) (pairs : List nat46_xlate_rulepair_t) :
    List nat46_xlate_rulepair_t :=
  sort_outer key pairs.length (pairs.length - 1) 0 pairs

/-- `nat46_sort_rule_array(nat46)`: copy `pairs` into the four views and sort each of them by
its prefix length, longest first. -/
def nat46_sort_rule_array (nat46 : nat46_instance_t) : nat46_instance_t :=
  { nat46 with
    sorted_ipv4_local_pairs := sort_by (fun p => p.local.v4_pref_len) nat46.pairs
    sorted_ipv4_remote_pairs := sort_by (fun p => p.remote.v4_pref_len) nat46.pairs
    sorted_ipv6_local_pairs := sort_by (fun p => p.local.v6_pref_len) nat46.pairs
    sorted_ipv6_remote_pairs := sort_by (fun p => p.remote.v6_pref_len) nat46.pairs }

/-- Modelled from the spec: the lookup kinds `nat46_rule_type_t` of the missing header. -/
inductive nat46_rule_type_t where
  | NAT46_IPV4_LOCAL
  | NAT46_IPV4_REMOTE
  | NAT46_IPV6_LOCAL
  | NAT46_IPV6_REMOTE
  deriving DecidableEq, Repr

open nat46_rule_type_t

/-- The IPv4 loops of `nat46_lpm` over a sorted view, `sel` choosing the local or the remote
rule.  `mask` is the local variable of that name: it is assigned only when the prefix length
is non-zero and otherwise keeps the value left by the previous iteration. -/
def nat46_lpm_v4 (sel : nat46_xlate_rulepair_t → nat46_xlate_rule_t) (addr : Nat) :
    Nat → List nat46_xlate_rulepair_t → Option nat46_xlate_rulepair_t
  | _, [] => none
  | mask, apair :: rest =>
    let mask :=
      if (sel apair).v4_pref_len ≠ 0 then
        ntohl (shl32 U32_MASK (IPV4_BITS_MAX - (sel apair).v4_pref_len))
      else mask
    if addr &&& mask = (sel apair).v4_pref &&& mask then some apair
    else nat46_lpm_v4 sel addr mask rest

/-- The IPv6 loops of `nat46_lpm` over a sorted view, `sel` choosing the local or the remote
rule. -/
def nat46_lpm_v6 (sel : nat46_xlate_rulepair_t → nat46_xlate_rule_t) (paddr : Mem) :
    List nat46_xlate_rulepair_t → Option nat46_xlate_rulepair_t
  | [] => none
  | apair :: rest =>
    let len := (sel apair).v6_pref_len
    if memcmp_ne paddr (sel apair).v6_pref (Int.tdiv len BITS_PER_BYTE).toNat then
      nat46_lpm_v6 sel paddr rest
    else if Int.tmod len BITS_PER_BYTE ≠ 0 then
      let mask := shl32 U8_MASK (BITS_PER_BYTE - Int.tmod len BITS_PER_BYTE)
      let pa1 := paddr (Int.tdiv len BITS_PER_BYTE).toNat
      let pa2 := (sel apair).v6_pref (Int.tdiv len BITS_PER_BYTE).toNat
      if pa1 &&& mask = pa2 &&& mask then some apair
      else nat46_lpm_v6 sel paddr rest
    else some apair

/-- `nat46_lpm(nat46, type, paddr)`: the rule pair found, `none` for NULL.  A NULL `nat46` or
`paddr` is `none`. -/
def nat46_lpm (nat46 : Option nat46_instance_t) (type : nat46_rule_type_t)
    (paddr : Option Mem) : Option nat46_xlate_rulepair_t :=
  match nat46, paddr with
  | some nat46, some paddr =>
    match type with
    | NAT46_IPV4_LOCAL => nat46_lpm_v4 (fun p => p.local) (ld32 paddr) 0
        nat46.sorted_ipv4_local_pairs
    | NAT46_IPV4_REMOTE => nat46_lpm_v4 (fun p => p.remote) (ld32 paddr) 0
        nat46.sorted_ipv4_remote_pairs
    | NAT46_IPV6_LOCAL => nat46_lpm_v6 (fun p => p.local) paddr nat46.sorted_ipv6_local_pairs
    | NAT46_IPV6_REMOTE => nat46_lpm_v6 (fun p => p.remote) paddr nat46.sorted_ipv6_remote_pairs
  | _, _ => none

/-- The IPv4 prefix of the rule covers the address held in `paddr`: the first `v4_pref_len`
bits (most significant first) of the address and of `v4_pref` agree. -/
def covers_v4 (rule : nat46_xlate_rule_t) (paddr : Mem) : Prop :=
  ntohl (ld32 paddr) / 2 ^ (32 - rule.v4_pref_len).toNat =
    ntohl rule.v4_pref / 2 ^ (32 - rule.v4_pref_len).toNat

/-- The IPv6 prefix of the rule covers the address held in `paddr`: the first `v6_pref_len`
bits (most significant first) of the address and of `v6_pref` agree.  For byte buffers this
is: the whole bytes of the prefix are equal and the trailing partial byte is equal under the
big-endian mask (`lpm_v6_test_iff`). -/
def covers_v6 (rule : nat46_xlate_rule_t) (paddr : Mem) : Prop :=
  ∀ k : Nat, (k : Int) < rule.v6_pref_len → getBit paddr k = getBit rule.v6_pref k

/-- A structural reading of the inner loop of the sort, used to reason about it (see
`sort_inner_eq_sweep`): `count` compare-and-swap steps walking down the list. -/
def sweep (key : nat46_xlate_rulepair_t → Int) :
    Nat → List nat46_xlate_rulepair_t → List nat46_xlate_rulepair_t
  | 0, l => l
  | _ + 1, [] => []
  | _ + 1, [a] => [a]
  | n + 1, a :: b :: t =>
    if key a < key b then b :: sweep key n (a :: t) else a :: sweep key n (b :: t)

/-- The rule of a pair that a lookup kind consults: the local rule for the `_LOCAL` kinds and
the remote rule for the `_REMOTE` kinds. -/
def rule_of (type : nat46_rule_type_t) (p : nat46_xlate_rulepair_t) : nat46_xlate_rule_t :=
  match type with
  | NAT46_IPV4_LOCAL => p.local
  | NAT46_IPV6_LOCAL => p.local
  | NAT46_IPV4_REMOTE => p.remote
  | NAT46_IPV6_REMOTE => p.remote

/-! ## Checksum transform -/

/-- The 16-bit complement `(u16)~x`. -/
def not16 (x : Nat) : Nat := 0xffff - x % 2 ^ 16

/-- The load `((u16 *)p)[i]` on the little-endian host. -/
def ld16 (p : Mem) (i : Nat) : Nat := p (2 * i) + p (2 * i + 1) * 256

/-- `csum16_upd(csum, old, new)`; `s` is a `u32`. -/
def csum16_upd (csum old new : Nat) : Nat :=
  let csum := ntohs (not16 csum)
  let s := (csum + ntohs (not16 old) + ntohs new) % 2 ^ 32
  let s := (((s >>> 16) &&& 0xffff) + (s &&& 0xffff)) % 2 ^ 32
  let s := (s + ((s >>> 16) &&& 0xffff)) % 2 ^ 32
  ntohs ((0xffffffff - s) % 2 ^ 16)

/-- `csum_tcpudp_remagic(saddr, daddr, len, proto, csum)`: `len` is an `unsigned short`,
`proto` an `unsigned char`, and `(u16 *)&saddr` reads the low half of the word first. -/
def csum_tcpudp_remagic (saddr daddr len proto csum : Nat) : Nat :=
  let len := len % 2 ^ 16
  let proto := proto % 2 ^ 8
  let csum := csum16_upd csum 0 (saddr % 2 ^ 16)
  let csum := csum16_upd csum 0 (saddr / 2 ^ 16 % 2 ^ 16)
  let csum := csum16_upd csum 0 (daddr % 2 ^ 16)
  let csum := csum16_upd csum 0 (daddr / 2 ^ 16 % 2 ^ 16)
  let csum := csum16_upd csum 0 (ntohs proto)
  let len1 := ntohs ((len >>> 16) &&& 0xffff)
  let len0 := ntohs (len &&& 0xffff)
  let csum := csum16_upd csum 0 len1
  csum16_upd csum 0 len0

/-- The loops `for(i=0;i<8;i++) { csum = csum16_upd(csum, *pdata, 0); pdata++; }` of
`csum_ipv6_unmagic`: `count` rounds from word `i` on. -/
def csum_unmagic_words (pdata : Mem) : Nat → Nat → Nat → Nat
  | 0, _, csum => csum
  | count + 1, i, csum => csum_unmagic_words pdata count (i + 1) (csum16_upd csum (ld16 pdata i) 0)

/-- `csum_ipv6_unmagic(nat46, saddr, daddr, len, proto, csum)`: `len` is a `__u32`, `proto`
an `unsigned short`. -/
def csum_ipv6_unmagic (saddr daddr : Mem) (len proto csum : Nat) : Nat :=
  let len := len % 2 ^ 32
  let proto := proto % 2 ^ 16
  let csum := csum_unmagic_words saddr 8 0 csum
  let csum := csum_unmagic_words daddr 8 0 csum
  let csum := csum16_upd csum (ntohs proto) 0
  let len1 := ntohs ((len >>> 16) &&& 0xffff)
  let len0 := ntohs (len &&& 0xffff)
  let csum := csum16_upd csum len1 0
  csum16_upd csum len0 0

/-- The sum of the 16-bit words, as loaded from memory, of the IPv6 pseudo-header
(RFC 8200, 8.1): the two addresses, the 32-bit upper-layer length and the next-header value. -/
def pseudo6_sum (saddr daddr : Mem) (len proto : Nat) : Nat :=
  ((List.range 8).map (ld16 saddr)).sum + ((List.range 8).map (ld16 daddr)).sum +
    ntohs (len / 2 ^ 16 % 2 ^ 16) + ntohs (len % 2 ^ 16) + ntohs proto

/-- The sum of the 16-bit words, as loaded from memory, of the IPv4 pseudo-header (RFC 793):
the two addresses, the protocol and the 16-bit length. -/
def pseudo4_sum (saddr daddr len proto : Nat) : Nat :=
  saddr % 2 ^ 16 + saddr / 2 ^ 16 % 2 ^ 16 + daddr % 2 ^ 16 + daddr / 2 ^ 16 % 2 ^ 16 +
    ntohs proto + ntohs len

/-- The checksum `csum` is valid for data whose other 16-bit words add up to `words`: the
one's-complement sum of everything is zero, i.e. the total is a multiple of `0xFFFF`. -/
def csum_valid (csum words : Nat) : Prop := (csum + words) % 0xffff = 0

/-! ## Configuration -/

/-- Modelled from the spec: the constant `IPV6_BITS_MAX` of the missing header; an IPv6 prefix
length is 0..128. -/
def IPV6_BITS_MAX : Int := 128

/-- Modelled from the spec: the constant `EA_LEN_MAX` of the missing header (`ea_len ≤ 48`). -/
def EA_LEN_MAX : Int := 48

/-- Modelled from the spec: the constant `PSID_LEN_MAX` of the missing header
(`psid_len + psid_offset ≤ 16`). -/
def PSID_LEN_MAX : Int := 16

/-- The Linux kernel helpers that the parser calls.  They are not part of nat46-core.c and are
parameters of the model: `simple_strtol(s, NULL, 10)` as stored into an `int`, and
`in6_pton`/`in4_pton` giving their return value and the new contents of the destination. -/
structure kernel_api where
  simple_strtol : List Char → Int
  in6_pton : List Char → Mem → Int × Mem
  in4_pton : List Char → Nat → Int × Nat

/-- The test `(c == ' ') || (c == '\n')` of `get_next_arg`. -/
def is_blank (c : Char) : Bool := c = Char.ofNat 32 || c = Char.ofNat 10

/-- The loops of `get_next_arg` that step over blanks (overwriting them with NUL). -/
def skip_blanks : List Char → List Char
  | [] => []
  | c :: t => if is_blank c then skip_blanks t else c :: t

/-- The loop of `get_next_arg` that steps over the word: the word and what follows it. -/
def take_word : List Char → List Char × List Char
  | [] => ([], [])
  | c :: t => if is_blank c then ([], c :: t) else ((take_word t).1.cons c, (take_word t).2)

/-- `get_next_arg(ptail)` on the NUL-terminated text `tail`: the word returned (`none` for
NULL, when the text holds no further word) and the new tail. -/
def get_next_arg (tail : List Char) : Option (List Char) × List Char :=
  let w := take_word (skip_blanks tail)
  (if w.1 = [] then none else some w.1, skip_blanks w.2)

/-- `strchr(arg, '/')` followed by `*arg_plen++ = 0`: the text before the first slash and the
text after it, `none` if there is no slash. -/
def split_slash : List Char → Option (List Char × List Char)
  | [] => none
  | c :: t =>
    if c = Char.ofNat 47 then some ([], t)
    else match split_slash t with
      | some (a, b) => some (c :: a, b)
      | none => none

/-- `try_parse_ipv6_prefix(pref, pref_len, arg)`: the return value and the new `*pref` and
`*pref_len` (`pref_len` is `none` for a NULL pointer). -/
def try_parse_ipv6_prefix (K : kernel_api) (pref : Mem) (pref_len : Option Int)
    (arg : List Char) : Int × Mem × Option Int :=
  let parse (addr : List Char) (pref_len : Option Int) : Int × Mem × Option Int :=
    let r := K.in6_pton addr pref
    (if r.1 ≠ 1 then 1 else 0, r.2, pref_len)
  match split_slash arg with
  | some (addr, arg_plen) =>
    match pref_len with
    | some _ =>
      let len := K.simple_strtol arg_plen
      if len > IPV6_BITS_MAX then (-1, pref, some len) else parse addr (some len)
    | none => parse addr none
  | none => parse arg pref_len

/-- `try_parse_ipv4_prefix(v4addr, pref_len, arg)`: the return value and the new `*v4addr` and
`*pref_len`. -/
def try_parse_ipv4_prefix (K : kernel_api) (v4addr : Nat) (pref_len : Option Int)
    (arg : List Char) : Int × Nat × Option Int :=
  let parse (addr : List Char) (pref_len : Option Int) : Int × Nat × Option Int :=
    let r := K.in4_pton addr v4addr
    (if r.1 ≠ 1 then 1 else 0, r.2, pref_len)
  match split_slash arg with
  | some (addr, arg_plen) =>
    match pref_len with
    | some _ =>
      let len := K.simple_strtol arg_plen
      if len > IPV4_BITS_MAX then (-1, v4addr, some len) else parse addr (some len)
    | none => parse addr none
  | none => parse arg pref_len

/-- `try_parse_rule_arg(rule, arg_name, ptail)`: the return value, the new rule and the new
tail. -/
def try_parse_rule_arg (K : kernel_api) (rule : nat46_xlate_rule_t) (arg_name : List Char)
    (tail : List Char) : Int × nat46_xlate_rule_t × List Char :=
  let a := get_next_arg tail
  match a.1 with
  | none => (-1, rule, a.2)
  | some val =>
    if arg_name = "v6".toList then
      let r := try_parse_ipv6_prefix K rule.v6_pref (some rule.v6_pref_len) val
      (r.1, { rule with v6_pref := r.2.1, v6_pref_len := r.2.2.getD rule.v6_pref_len }, a.2)
    else if arg_name = "v4".toList then
      let r := try_parse_ipv4_prefix K rule.v4_pref (some rule.v4_pref_len) val
      (r.1, { rule with v4_pref := r.2.1, v4_pref_len := r.2.2.getD rule.v4_pref_len }, a.2)
    else if arg_name = "ea-len".toList then
      (0, { rule with ea_len := K.simple_strtol val }, a.2)
    else if arg_name = "psid-offset".toList then
      (0, { rule with psid_offset := K.simple_strtol val }, a.2)
    else if arg_name = "style".toList then
      if val = "MAP".toList then (0, { rule with style := NAT46_XLATE_MAP }, a.2)
      else if val = "MAP0".toList then (0, { rule with style := NAT46_XLATE_MAP0 }, a.2)
      else if val = "RFC6052".toList then (0, { rule with style := NAT46_XLATE_RFC6052 }, a.2)
      else if val = "NONE".toList then (0, { rule with style := NAT46_XLATE_NONE }, a.2)
      else (1, rule, a.2)
    else (0, rule, a.2)

/-- `nat46_validate_RFC6052_style(nat46, rule)`. -/
def nat46_validate_RFC6052_style (rule : nat46_xlate_rule_t) : Bool :=
  if rule.style = NAT46_XLATE_RFC6052 then
    if ¬ (rule.v6_pref_len = 32 ∨ rule.v6_pref_len = 40 ∨ rule.v6_pref_len = 48 ∨
        rule.v6_pref_len = 56 ∨ rule.v6_pref_len = 64 ∨ rule.v6_pref_len = 96) then false
    else true
  else true

/-- `nat46_validate_MAP_style(nat46, rule)`.  The fields and `psid_len` are `int`s, so every
sum and difference is `int` arithmetic (`to_int`). -/
def nat46_validate_MAP_style (rule : nat46_xlate_rule_t) : Bool :=
  if rule.style = NAT46_XLATE_MAP then
    if rule.ea_len > EA_LEN_MAX then false
    else
      let psid_len : Int :=
        if to_int (rule.v4_pref_len + rule.ea_len) > IPV4_BITS_MAX then
          to_int (rule.ea_len - to_int (IPV4_BITS_MAX - rule.v4_pref_len))
        else 0
      if to_int (psid_len + rule.psid_offset) > PSID_LEN_MAX then false else true
  else true

/-- `nat46_validate_ipair_config(nat46, apair)`. -/
def nat46_validate_ipair_config (apair : nat46_xlate_rulepair_t) : Int :=
  if ¬ nat46_validate_RFC6052_style apair.local = true then -1
  else if ¬ nat46_validate_RFC6052_style apair.remote = true then -1
  else if ¬ nat46_validate_MAP_style apair.local = true then -1
  else if ¬ nat46_validate_MAP_style apair.remote = true then -1
  else 0

/-- The state of the parsing loop of `nat46_set_ipair_config`: `nat46->debug`, the pair
`*apair` being edited in place, the tail of the text and `err`. -/
structure config_state where
  debug : Int
  apair : nat46_xlate_rulepair_t
  tail : List Char
  err : Int

/-- The loop `while ((0 == err) && (NULL != (arg_name = get_next_arg(&tail))))` of
`nat46_set_ipair_config`.  Every round consumes at least one character of the text, so
`fuel` rounds with `fuel` above the length of the text run the loop to its end
(`config_loop_fuel`). -/
def config_loop (K : kernel_api) : Nat → config_state → config_state
  | 0, st => st
  | fuel + 1, st =>
    if st.err ≠ 0 then st
    else
      let a := get_next_arg st.tail
      match a.1 with
      | none => { st with tail := a.2 }
      | some arg_name =>
        if arg_name = "debug".toList then
          let v := get_next_arg a.2
          match v.1 with
          | some val =>
            config_loop K fuel { st with debug := K.simple_strtol val, tail := v.2 }
          | none => config_loop K fuel { st with tail := v.2 }
        else if "local.".toList.isPrefixOf arg_name then
          let r := try_parse_rule_arg K st.apair.local (arg_name.drop 6) a.2
          config_loop K fuel
            { st with apair := { st.apair with «local» := r.2.1 }, tail := r.2.2, err := r.1 }
        else if "remote.".toList.isPrefixOf arg_name then
          let r := try_parse_rule_arg K st.apair.remote (arg_name.drop 7) a.2
          config_loop K fuel
            { st with apair := { st.apair with remote := r.2.1 }, tail := r.2.2, err := r.1 }
        else config_loop K fuel { st with tail := a.2 }

/-- `nat46_set_ipair_config(nat46, ipair, buf, count)`: the return value and the instance
after the call.  `buf` is the NUL-terminated text; `count` is not used by the function. -/
def nat46_set_ipair_config (K : kernel_api) (nat46 : nat46_instance_t) (ipair : Int)
    (buf : List Char) : Int × nat46_instance_t :=
  if ipair < 0 ∨ ipair ≥ nat46.npairs then (-1, nat46)
  else
    match nat46.pairs[ipair.toNat]? with
    | none => (-1, nat46)
    | some apair =>
      let st := config_loop K (buf.length + 1)
        { debug := nat46.debug, apair := apair, tail := buf, err := 0 }
      let nat46 : nat46_instance_t :=
        { nat46 with debug := st.debug, pairs := nat46.pairs.set ipair.toNat st.apair }
      let err := nat46_validate_ipair_config st.apair
      if err ≠ 0 then (err, nat46)
      else (0, nat46_sort_rule_array nat46)

/-! ## Style dispatch -/

/-- `xlate_v4_to_v6(nat46, rule, pipv4, pipv6, pl4id)`: the return value and the new contents
of `pipv6`.  `stk` is the memory after the local `l4id` of `xlate_map_v4_to_v6`. -/
def xlate_v4_to_v6 (rule : nat46_xlate_rule_t) (pipv4 pipv6 : Mem) (pl4id : Option Nat)
    (stk : Mem) : Int × Mem :=
  match rule.style with
  | NAT46_XLATE_NONE =>
    if rule.v6_pref_len = 128 ∧ rule.v4_pref_len = 32 ∧
        memcmp_ne pipv4 (u32_bytes rule.v4_pref) 4 = false then
      (1, memcpy pipv6 0 rule.v6_pref 0 16)
    else (0, pipv6)
  | NAT46_XLATE_MAP0 => xlate_map_v4_to_v6 rule pipv4 pipv6 pl4id 0 stk
  | NAT46_XLATE_MAP => xlate_map_v4_to_v6 rule pipv4 pipv6 pl4id 1 stk
  | NAT46_XLATE_RFC6052 => (1, xlate_v4_to_nat64 rule pipv4 pipv6)

/-- `xlate_v6_to_v4(nat46, rule, pipv6, pipv4)`: the return value and the new contents of
`pipv4`. -/
def xlate_v6_to_v4 (rule : nat46_xlate_rule_t) (pipv6 pipv4 : Mem) : Int × Mem :=
  match rule.style with
  | NAT46_XLATE_NONE =>
    if rule.v6_pref_len = 128 ∧ rule.v4_pref_len = 32 ∧
        memcmp_ne pipv6 rule.v6_pref 16 = false then
      (1, memcpy pipv4 0 (u32_bytes rule.v4_pref) 0 4)
    else (0, pipv4)
  | NAT46_XLATE_MAP0 => xlate_map_v6_to_v4 rule pipv6 pipv4
  | NAT46_XLATE_MAP => xlate_map_v6_to_v4 rule pipv6 pipv4
  | NAT46_XLATE_RFC6052 => xlate_nat64_to_v4 rule pipv6 pipv4

/-! ## Packet headers -/

/-- The Linux constant `NEXTHDR_TCP`. -/
def NEXTHDR_TCP : Nat := 6

/-- The Linux constant `NEXTHDR_UDP`. -/
def NEXTHDR_UDP : Nat := 17

/-- The Linux constant `NEXTHDR_FRAGMENT`. -/
def NEXTHDR_FRAGMENT : Nat := 44

/-- The Linux constant `NEXTHDR_ICMP` (ICMP for IPv6). -/
def NEXTHDR_ICMP : Nat := 58

/-- The Linux constant `NEXTHDR_NONE`. -/
def NEXTHDR_NONE : Nat := 59

/-- The Linux constant `IPPROTO_ICMP`. -/
def IPPROTO_ICMP : Nat := 1

/-- The Linux constant `IPPROTO_TCP`. -/
def IPPROTO_TCP : Nat := 6

/-- The Linux constant `IPPROTO_UDP`. -/
def IPPROTO_UDP : Nat := 17

/-- The Linux constant `IP_DF`. -/
def IP_DF : Nat := 0x4000

/-- The Linux constant `ICMPV6_DEST_UNREACH`. -/
def ICMPV6_DEST_UNREACH : Nat := 1

/-- The Linux constant `ICMPV6_PKT_TOOBIG`. -/
def ICMPV6_PKT_TOOBIG : Nat := 2

/-- The Linux constant `ICMPV6_TIME_EXCEED`. -/
def ICMPV6_TIME_EXCEED : Nat := 3

/-- The Linux constant `ICMPV6_PARAMPROB`. -/
def ICMPV6_PARAMPROB : Nat := 4

/-- The Linux constant `ICMPV6_ECHO_REQUEST`. -/
def ICMPV6_ECHO_REQUEST : Nat := 128

/-- The Linux constant `ICMPV6_ECHO_REPLY`. -/
def ICMPV6_ECHO_REPLY : Nat := 129

/-- The Linux constant `ICMP_ECHOREPLY`. -/
def ICMP_ECHOREPLY : Nat := 0

/-- The Linux constant `ICMP_DEST_UNREACH`. -/
def ICMP_DEST_UNREACH : Nat := 3

/-- The Linux constant `ICMP_ECHO`. -/
def ICMP_ECHO : Nat := 8

/-- The Linux constant `ICMP_TIME_EXCEEDED`. -/
def ICMP_TIME_EXCEEDED : Nat := 11

/-- The Linux constant `ICMP_PARAMETERPROB`. -/
def ICMP_PARAMETERPROB : Nat := 12

/-- Modelled from the spec: the constant `IPV4HDRSIZE` of the missing header, the size of an
IPv4 header without options. -/
def IPV4HDRSIZE : Nat := 20

/-- Modelled from the spec: the constant `IPV6HDRSIZE` of the missing header, the size of the
fixed IPv6 header. -/
def IPV6HDRSIZE : Nat := 40

/-- Modelled from the spec: the constant `IPV6V4HDRDELTA` of the missing header, the fixed
20-byte difference between the IPv6 and the IPv4 header size. -/
def IPV6V4HDRDELTA : Nat := 20

/-- The load of a `u16` at byte offset `off` on the little-endian host. -/
def rd16 (m : Mem) (off : Nat) : Nat := m off + m (off + 1) * 256

/-- The store of a `u16` at byte offset `off` on the little-endian host. -/
def wr16 (m : Mem) (off v : Nat) : Mem := store (store m off (v % 256)) (off + 1) (v / 256 % 256)

/-- The load of a `u32` at byte offset `off` on the little-endian host. -/
def rd32 (m : Mem) (off : Nat) : Nat :=
  m off + m (off + 1) * 2 ^ 8 + m (off + 2) * 2 ^ 16 + m (off + 3) * 2 ^ 24

/-- The store of a `u32` at byte offset `off` on the little-endian host. -/
def wr32 (m : Mem) (off v : Nat) : Mem :=
  store (store (store (store m off (v % 256)) (off + 1) (v / 2 ^ 8 % 256))
    (off + 2) (v / 2 ^ 16 % 256)) (off + 3) (v / 2 ^ 24 % 256)

/-- The memory seen from the pointer `p + off`. -/
def ptr_add (p : Mem) (off : Nat) : Mem := fun i => p (off + i)

/-- The memory `p` after a callee has turned the memory seen from `p + off` into `q`. -/
def ptr_merge (p : Mem) (off : Nat) (q : Mem) : Mem := fun i => if i < off then p i else q (i - off)

/-- The conversion of an `int` to a `u32`. -/
def to_u32 (x : Int) : Nat := (x % 2 ^ 32).toNat

/-- The conversion of an `int` to a `u16`. -/
def to_u16 (x : Int) : Nat := (x % 2 ^ 16).toNat

/-- The conversion of a length to `size_t`, taken 64 bits wide; the width matters only for a
negative length. -/
def to_size_t (x : Int) : Nat := (x % 2 ^ 64).toNat

/-- What the packet path takes from outside nat46-core.c: the kernel helper `ip_fast_csum`
(header memory and `ihl` to the checksum) and the indeterminate initial values of the locals
`v4saddr`, `v4daddr` of `xlate_payload6_to4`, which stay as they are when no rule matches. -/
structure packet_env where
  ip_fast_csum : Mem → Nat → Nat
  v4saddr : Nat
  v4daddr : Nat

/-- The argument of `htons` in the statement
`fh->frag_off = htons(((ntohs(frag_off) >> 13) & 7) + ((ntohs(frag_off) & 0x1FFF) << 3))` of
`nat46_ipv4_input`, as a function of `f = ntohs(frag_off)`; `htons` takes a `u16`. -/
def frag_off_v4_to_v6 (f : Nat) : Nat := (((f >>> 13) &&& 7) + ((f &&& 0x1FFF) <<< 3)) % 2 ^ 16

/-- The argument of `htons` in the statement
`frag_off = htons(((ntohs(fh->frag_off) & 7) << 13) + (((ntohs(fh->frag_off) >> 3) & 0x1FFF)))`
of `nat46_ipv6_input`, as a function of `g = ntohs(fh->frag_off)`. -/
def frag_off_v6_to_v4 (g : Nat) : Nat := (((g &&& 7) <<< 13) + ((g >>> 3) &&& 0x1FFF)) % 2 ^ 16

/-! ## ICMPv6 to ICMPv4 -/

/-- `update_icmp6_type_code(nat46, icmp6h, type, code)`: the new contents of the ICMP header;
`type` and `code` are `u8`, the checksum is the `u16` at bytes 2 and 3. -/
def update_icmp6_type_code (icmp6h : Mem) (type code : Nat) : Mem :=
  let old_tc := rd16 icmp6h 0
  let old_csum := rd16 icmp6h 2
  let icmp6h := store icmp6h 0 (type % 256)
  let icmp6h := store icmp6h 1 (code % 256)
  let new_tc := rd16 icmp6h 0
  let new_csum := csum16_upd old_csum old_tc new_tc
  wr16 icmp6h 2 new_csum

/-- `fold_ipv6_frag_id(v6id)`. -/
def fold_ipv6_frag_id (v6id : Nat) : Nat := (0xffff &&& (v6id >>> 16)) ^^^ (v6id &&& 0xffff)

/-- `get_next_header_ptr6(pv6, v6_len)`: the offset of the returned pointer from `pv6`. -/
def get_next_header_ptr6 (pv6 : Mem) : Nat :=
  if pv6 6 = NEXTHDR_FRAGMENT then
    if rd16 pv6 (IPV6HDRSIZE + 2) = 0 then IPV6HDRSIZE + 8 else IPV6HDRSIZE
  else IPV6HDRSIZE

/-- `fill_v4hdr_from_v6hdr(iph, ...)`: the twenty bytes of `*iph`.  Every byte of the header
is assigned, so the prior contents of the local `new_ipv4` do not matter. -/
def fill_v4hdr_from_v6hdr (E : packet_env) (ver_class_flow hop_limit v4saddr v4daddr id
    frag_off proto : Nat) (l3_payload_len : Int) : Mem :=
  let iph : Mem := fun _ => 0
  let iph := store iph 8 (hop_limit % 256)
  let iph := wr32 iph 12 v4saddr
  let iph := wr32 iph 16 v4daddr
  let iph := store iph 9 (proto % 256)
  let iph := wr16 iph 0 (ntohs ((4 <<< 12) ||| (5 <<< 8) ||| ((ver_class_flow >>> 20) &&& 0xff)))
  let iph := wr16 iph 6 frag_off
  let iph := wr16 iph 4 id
  let iph := wr16 iph 2 (ntohs (to_u16 (l3_payload_len + IPV4HDRSIZE)))
  let iph := wr16 iph 10 0
  wr16 iph 10 (E.ip_fast_csum iph (iph 0 % 16))

/-- `unchecksum16(p, count, csum)`. -/
def unchecksum16 (p : Mem) : Nat → Nat → Nat → Nat
  | 0, _, csum => csum
  | count + 1, i, csum => unchecksum16 p count (i + 1) (csum16_upd csum (ld16 p i) 0)

/-- `rechecksum16(p, count, csum)`. -/
def rechecksum16 (p : Mem) : Nat → Nat → Nat → Nat
  | 0, _, csum => csum
  | count + 1, i, csum => rechecksum16 p count (i + 1) (csum16_upd csum 0 (ld16 p i))

/-- `pairs_xlate_v6_to_v4_inner(nat46, ip6h, pv4saddr, pv4daddr)`: the new `*pv4saddr` and
`*pv4daddr`; the destination is decoded with the remote rule and the source with the local
rule of the pair found for the destination. -/
def pairs_xlate_v6_to_v4_inner (nat46 : nat46_instance_t) (ip6h : Mem) (v4saddr v4daddr : Nat) :
    Nat × Nat :=
  match nat46_lpm (some nat46) NAT46_IPV6_REMOTE (some (ptr_add ip6h 24)) with
  | none => (v4saddr, v4daddr)
  | some apair =>
    let d := xlate_v6_to_v4 apair.remote (ptr_add ip6h 24) (u32_bytes v4daddr)
    let s := xlate_v6_to_v4 apair.local (ptr_add ip6h 8) (u32_bytes v4saddr)
    (ld32 s.2, ld32 d.2)

/-- The result of `xlate_payload6_to4`: the return value, the memory seen from `pv6`, the
value behind `ul_sum` and `*ptailTruncSize`. -/
structure payload6_result where
  ret : Int
  pv6 : Mem
  ul_sum : Option Nat
  tailTruncSize : Int

/-- `xlate_payload6_to4(nat46, pv6, ptrans_hdr, v6_len, ul_sum, ptailTruncSize)`.  `pv6` is
the memory seen from the embedded IPv6 header, `trans` the offset of `ptrans_hdr` from `pv6`
(the callers pass `get_next_header_ptr6(pv6, len)`), `ul_sum` the value behind the pointer
(`none` for NULL). -/
def xlate_payload6_to4 (E : packet_env) (nat46 : nat46_instance_t) (pv6 : Mem) (trans : Nat)
    (v6_len : Int) (ul_sum : Option Nat) (tailTruncSize : Int) : payload6_result :=
  let proto : Nat := pv6 6
  let infrag_payload_len : Int := ntohs (rd16 pv6 4)
  let v4 := pairs_xlate_v6_to_v4_inner nat46 pv6 E.v4saddr E.v4daddr
  let v4saddr := v4.1
  let v4daddr := v4.2
  let atomic : Bool := decide (proto = NEXTHDR_FRAGMENT ∧ rd16 pv6 (IPV6HDRSIZE + 2) = 0)
  let proto := if atomic then pv6 IPV6HDRSIZE else proto
  let ipid := if atomic then fold_ipv6_frag_id (rd32 pv6 (IPV6HDRSIZE + 4)) else 0
  let v6_len := if atomic then v6_len - 8 else v6_len
  let infrag_payload_len := if atomic then infrag_payload_len - 8 else infrag_payload_len
  let tailTruncSize := if atomic then tailTruncSize + 8 else tailTruncSize
  let ipflags := if atomic then 0 else ntohs IP_DF
  let saddr := ptr_add pv6 8
  let daddr := ptr_add pv6 24
  let st : Mem × Option Nat × Nat :=
    if proto = NEXTHDR_TCP then
      let check := rd16 pv6 (trans + 16)
      let sum1 := csum_ipv6_unmagic saddr daddr (to_u32 infrag_payload_len) NEXTHDR_TCP check
      let sum2 := csum_tcpudp_remagic v4saddr v4daddr (to_u32 infrag_payload_len) NEXTHDR_TCP sum1
      (wr16 pv6 (trans + 16) sum2, ul_sum.map (fun u => csum16_upd u check sum2), proto)
    else if proto = NEXTHDR_UDP then
      let check := rd16 pv6 (trans + 6)
      let sum1 := csum_ipv6_unmagic saddr daddr (to_u32 infrag_payload_len) NEXTHDR_UDP check
      let sum2 := csum_tcpudp_remagic v4saddr v4daddr (to_u32 infrag_payload_len) NEXTHDR_UDP sum1
      (wr16 pv6 (trans + 6) sum2, ul_sum.map (fun u => csum16_upd u check sum2), proto)
    else if proto = NEXTHDR_ICMP then
      let sum0 := rd16 pv6 (trans + 2)
      let sum1 := csum_ipv6_unmagic saddr daddr (to_u32 infrag_payload_len) NEXTHDR_ICMP sum0
      let m := wr16 pv6 (trans + 2) sum1
      let icmp6h := ptr_add m trans
      let m :=
        if icmp6h 0 = ICMPV6_ECHO_REQUEST then
          ptr_merge m trans (update_icmp6_type_code icmp6h ICMP_ECHO (icmp6h 1))
        else if icmp6h 0 = ICMPV6_ECHO_REPLY then
          ptr_merge m trans (update_icmp6_type_code icmp6h ICMP_ECHOREPLY (icmp6h 1))
        else m
      (m, ul_sum.map (fun u => csum16_upd u sum0 sum1), IPPROTO_ICMP)
    else (pv6, ul_sum, proto)
  let pv6 := st.1
  let ul_sum := st.2.1
  let proto := st.2.2
  let ver_class_flow := ntohl (rd32 pv6 0)
  let hop_limit := pv6 7
  let iph := fill_v4hdr_from_v6hdr E ver_class_flow hop_limit v4saddr v4daddr ipid ipflags proto
    infrag_payload_len
  let ul_sum := ul_sum.map (fun u => rechecksum16 iph 10 0 (unchecksum16 pv6 (trans / 2) 0 u))
  let pv6 := memcpy pv6 IPV4HDRSIZE pv6 (get_next_header_ptr6 pv6) (to_size_t (v6_len - IPV4HDRSIZE))
  let pv6 := memcpy pv6 0 iph 0 IPV4HDRSIZE
  { ret := v6_len - IPV6V4HDRDELTA, pv6 := pv6, ul_sum := ul_sum,
    tailTruncSize := tailTruncSize + IPV6V4HDRDELTA }

/-- The state the ICMPv6 fixups work on: the memory seen from the outer IPv6 header `ip6h`,
the memory seen from the ICMPv6 header `icmp6h`, and `*ptailTruncSize`.  The ICMPv6 header
lies behind the forty bytes of the outer header, so `ip6h` stands for the fields of that
header only and a store through one pointer does not reach what is read through the other. -/
structure icmp6_state where
  ip6h : Mem
  icmp6h : Mem
  tailTruncSize : Int

/-- The statements `len = ntohs(ip6h->payload_len)-sizeof(*icmp6h); len = xlate_payload6_to4(
nat46, (icmp6h + 1), get_next_header_ptr6((icmp6h + 1), len), len, &icmp6h->icmp6_cksum,
ptailTruncSize);` that the error fixups share: the embedded packet is the memory from byte 8
of the ICMP header on and `ul_sum` points at its checksum field. -/
def xlate_embedded6 (E : packet_env) (nat46 : nat46_instance_t) (st : icmp6_state) :
    icmp6_state :=
  let len : Int := (ntohs (rd16 st.ip6h 4) : Int) - 8
  let pv6 := ptr_add st.icmp6h 8
  let r := xlate_payload6_to4 E nat46 pv6 (get_next_header_ptr6 pv6) len
    (some (rd16 st.icmp6h 2)) st.tailTruncSize
  { st with
    icmp6h := ptr_merge (wr16 st.icmp6h 2 (r.ul_sum.getD (rd16 st.icmp6h 2))) 8 r.pv6
    tailTruncSize := r.tailTruncSize }

/-- `nat46_fixup_icmp6_dest_unreach(nat46, ip6h, icmp6h, old_skb, ptailTruncSize)`. -/
def nat46_fixup_icmp6_dest_unreach (E : packet_env) (nat46 : nat46_instance_t)
    (st : icmp6_state) : icmp6_state :=
  let code := st.icmp6h 1
  let st : icmp6_state :=
    if code = 0 ∨ code = 2 ∨ code = 3 then
      { st with icmp6h := update_icmp6_type_code st.icmp6h 3 1 }
    else if code = 1 then { st with icmp6h := update_icmp6_type_code st.icmp6h 3 10 }
    else if code = 4 then { st with icmp6h := update_icmp6_type_code st.icmp6h 3 3 }
    else { st with ip6h := store st.ip6h 6 NEXTHDR_NONE }
  xlate_embedded6 E nat46 st

/-- `nat46_fixup_icmp6_pkt_toobig(nat46, ip6h, icmp6h, old_skb, ptailTruncSize)`; `pmtu` is
the `u16` at bytes 6 and 7 of the ICMP header. -/
def nat46_fixup_icmp6_pkt_toobig (E : packet_env) (nat46 : nat46_instance_t)
    (st : icmp6_state) : icmp6_state :=
  let pmtu := rd16 st.icmp6h 6
  let old_csum := rd16 st.icmp6h 2
  let st : icmp6_state :=
    if ntohs pmtu > IPV6V4HDRDELTA then
      let m := wr16 st.icmp6h 2 (csum16_upd old_csum pmtu (ntohs (ntohs pmtu - IPV6V4HDRDELTA)))
      { st with icmp6h := wr16 m 6 (ntohs (ntohs pmtu - IPV6V4HDRDELTA)) }
    else st
  let st := xlate_embedded6 E nat46 st
  { st with icmp6h := update_icmp6_type_code st.icmp6h 3 4 }

/-- `nat46_fixup_icmp6_time_exceed(nat46, ip6h, icmp6h, old_skb, ptailTruncSize)`. -/
def nat46_fixup_icmp6_time_exceed (E : packet_env) (nat46 : nat46_instance_t)
    (st : icmp6_state) : icmp6_state :=
  let st := xlate_embedded6 E nat46 st
  { st with icmp6h := update_icmp6_type_code st.icmp6h 11 (st.icmp6h 1) }

/-- The table `ptr6_4` of `nat46_fixup_icmp6_paramprob`, 41 entries. -/
def ptr6_4 : List Int :=
  [0, 1, -1, -1, 2, 2, 9, 8,
   12, 12, 12, 12, 12, 12, 12, 12, 12, 12, 12, 12, 12, 12, 12, 12,
   16, 16, 16, 16, 16, 16, 16, 16, 16, 16, 16, 16, 16, 16, 16, 16, -1]

/-- `nat46_fixup_icmp6_paramprob(nat46, ip6h, icmp6h, old_skb, ptailTruncSize)`.  `*pptr6` is
the `u32` at bytes 4..7 of the ICMP header as the host loads it, `*pptr4` is byte 4. -/
def nat46_fixup_icmp6_paramprob (E : packet_env) (nat46 : nat46_instance_t)
    (st : icmp6_state) : icmp6_state :=
  let pptr6 := rd32 st.icmp6h 4
  let code := st.icmp6h 1
  let drop : icmp6_state := { st with ip6h := store st.ip6h 6 NEXTHDR_NONE }
  if code = 1 then
    xlate_embedded6 E nat46 { st with icmp6h := update_icmp6_type_code st.icmp6h 3 2 }
  else if code = 0 then
    if pptr6 < ptr6_4.length then
      let new_pptr : Int := ptr6_4.getD pptr6 (-1)
      if new_pptr ≥ 0 then
        let m := wr16 st.icmp6h 2
          (csum16_upd (rd16 st.icmp6h 2) (pptr6 &&& 0xffff) (to_u16 (new_pptr * 2 ^ 8)))
        let m := store m 4 (0xff &&& new_pptr.toNat)
        let m := update_icmp6_type_code m 12 0
        xlate_embedded6 E nat46 { st with icmp6h := m }
      else drop
    else drop
  else drop

/-- `nat46_fixup_icmp6(nat46, ip6h, icmp6h, old_skb, ptailTruncSize)`. -/
def nat46_fixup_icmp6 (E : packet_env) (nat46 : nat46_instance_t) (st : icmp6_state) :
    icmp6_state :=
  let type := st.icmp6h 0
  if type &&& 128 ≠ 0 then
    if type = ICMPV6_ECHO_REQUEST then
      { st with icmp6h := update_icmp6_type_code st.icmp6h ICMP_ECHO (st.icmp6h 1) }
    else if type = ICMPV6_ECHO_REPLY then
      { st with icmp6h := update_icmp6_type_code st.icmp6h ICMP_ECHOREPLY (st.icmp6h 1) }
    else { st with ip6h := store st.ip6h 6 NEXTHDR_NONE }
  else
    if type = ICMPV6_DEST_UNREACH then nat46_fixup_icmp6_dest_unreach E nat46 st
    else if type = ICMPV6_PKT_TOOBIG then nat46_fixup_icmp6_pkt_toobig E nat46 st
    else if type = ICMPV6_TIME_EXCEED then nat46_fixup_icmp6_time_exceed E nat46 st
    else if type = ICMPV6_PARAMPROB then nat46_fixup_icmp6_paramprob E nat46 st
    else { st with ip6h := store st.ip6h 6 NEXTHDR_NONE }

/-! ## ICMPv4 to ICMPv6 -/

/-- What the error path from IPv4 to IPv6 takes from outside nat46-core.c: the value of
`skb_tailroom(old_skb)`, the return value of `pskb_expand_head`, the offset of
`icmp_hdr(old_skb)` from `iph` once the head was expanded, the indeterminate initial contents
of the locals `v6saddr` and `v6daddr`, and the stack memory `stk` of `xlate_map_v4_to_v6`.
An expanded head is taken to hold the packet bytes at the same offsets from `iph`. -/
structure skb_env where
  skb_tailroom : Int
  pskb_expand_head : Int
  icmp_hdr : Nat
  v6saddr : Mem
  v6daddr : Mem
  stk : Mem

/-- The state the ICMPv4 fixups work on: the memory seen from the outer IPv4 header `iph`
(the ICMP header follows at offset 20, the embedded packet at offset 28) and the values
behind `sport` and `dport`. -/
structure icmp4_state where
  pkt : Mem
  sport : Nat
  dport : Nat

/-- `fill_v6hdr_from_v4hdr(iph, ip6h)`: the first eight bytes of `*ip6h`; the caller fills the
addresses, so the prior contents of the local `ip6h` do not matter. -/
def fill_v6hdr_from_v4hdr (iph : Mem) : Mem :=
  let ip6h : Mem := fun _ => 0
  let ip6h := wr16 ip6h 0 (ntohs (((6 <<< 12) ||| (iph 1 <<< 4)) % 2 ^ 16))
  let ip6h := memset ip6h 1 0 3
  let ip6h := wr16 ip6h 4 (ntohs (to_u16 ((ntohs (rd16 iph 2) : Int) - IPV4HDRSIZE)))
  let ip6h := store ip6h 6 (iph 9)
  store ip6h 7 (iph 8)

/-- `pairs_xlate_v4_to_v6_inner(nat46, iph, sport, dport, v6saddr, v6daddr)`: the return value
and the new contents of `v6saddr` and `v6daddr`; the destination is encoded with the local
rule and the source with the remote rule of the pair found for the source. -/
def pairs_xlate_v4_to_v6_inner (S : skb_env) (nat46 : nat46_instance_t) (iph : Mem)
    (sport dport : Nat) (v6saddr v6daddr : Mem) : Int × Mem × Mem :=
  match nat46_lpm (some nat46) NAT46_IPV4_REMOTE (some (ptr_add iph 12)) with
  | none => (0, v6saddr, v6daddr)
  | some apair =>
    let d := xlate_v4_to_v6 apair.local (ptr_add iph 16) v6daddr (some dport) S.stk
    let s := xlate_v4_to_v6 apair.remote (ptr_add iph 12) v6saddr (some sport) S.stk
    (if s.1 ≠ 0 ∧ d.1 ≠ 0 then 1 else 0, s.2, d.2)

/-- The tail of `xlate_pkt_in_err_v4_to_v6` once the ports are known: the address
translation, the new embedded header written at offset `iiph` and the longer `tot_len`. -/
def xlate_pkt_in_err_tail (S : skb_env) (nat46 : nat46_instance_t) (st : icmp4_state) :
    Nat × icmp4_state :=
  let iiph := IPV4HDRSIZE + 8
  let x := pairs_xlate_v4_to_v6_inner S nat46 (ptr_add st.pkt iiph) st.sport st.dport
    S.v6saddr S.v6daddr
  if x.1 = 0 then (0, { st with sport := 0, dport := 0 })
  else
    let ip6h := fill_v6hdr_from_v4hdr (ptr_add st.pkt iiph)
    let ip6h := memcpy ip6h 8 x.2.1 0 16
    let ip6h := memcpy ip6h 24 x.2.2 0 16
    let n := to_size_t ((ntohs (rd16 st.pkt 2) : Int) - 2 * IPV4HDRSIZE - 8)
    if S.skb_tailroom < IPV6V4HDRDELTA ∧ S.pskb_expand_head ≠ 0 then
      (0, { st with sport := 0, dport := 0 })
    else
      let iiph := if S.skb_tailroom ≥ IPV6V4HDRDELTA then iiph else S.icmp_hdr + 8
      let pkt := memcpy st.pkt (iiph + IPV6HDRSIZE) st.pkt (iiph + IPV4HDRSIZE) n
      let pkt := memcpy pkt iiph ip6h 0 IPV6HDRSIZE
      let pkt := wr16 pkt 2 (ntohs (to_u16 ((ntohs (rd16 pkt 2) : Int) + IPV6V4HDRDELTA)))
      (1, { pkt := pkt, sport := st.dport, dport := st.sport })

/-- `xlate_pkt_in_err_v4_to_v6(nat46, iph, old_skb, sport, dport)`: the return value and the
new state.  The embedded IPv4 header `iiph` is at offset 28, its transport header at 48. -/
def xlate_pkt_in_err_v4_to_v6 (S : skb_env) (nat46 : nat46_instance_t) (st : icmp4_state) :
    Nat × icmp4_state :=
  let iiph := IPV4HDRSIZE + 8
  let l4 := iiph + IPV4HDRSIZE
  let proto := st.pkt (iiph + 9)
  if proto = IPPROTO_TCP then
    xlate_pkt_in_err_tail S nat46
      { pkt := store st.pkt (iiph + 9) NEXTHDR_TCP, sport := rd16 st.pkt l4,
        dport := rd16 st.pkt (l4 + 2) }
  else if proto = IPPROTO_UDP then
    xlate_pkt_in_err_tail S nat46
      { pkt := store st.pkt (iiph + 9) NEXTHDR_UDP, sport := rd16 st.pkt l4,
        dport := rd16 st.pkt (l4 + 2) }
  else if proto = IPPROTO_ICMP then
    let pkt := store st.pkt (iiph + 9) NEXTHDR_ICMP
    if pkt l4 = ICMP_ECHO then
      let pkt := store pkt l4 ICMPV6_ECHO_REQUEST
      xlate_pkt_in_err_tail S nat46
        { pkt := pkt, sport := rd16 pkt (l4 + 4), dport := rd16 pkt (l4 + 4) }
    else if pkt l4 = ICMP_ECHOREPLY then
      let pkt := store pkt l4 ICMPV6_ECHO_REPLY
      xlate_pkt_in_err_tail S nat46
        { pkt := pkt, sport := rd16 pkt (l4 + 4), dport := rd16 pkt (l4 + 4) }
    else (0, { pkt := pkt, sport := 0, dport := 0 })
  else (0, { st with sport := 0, dport := 0 })

/-- `nat46_fixup_icmp_dest_unreach(nat46, iph, icmph, old_skb, sport, dport)`: the return
value and the new state.  `icmph` is at offset 20: type at 20, code at 21, the 32-bit word of
`icmp6_parameter_ptr` at 24..27 and `pmtu` at 26 and 27. -/
def nat46_fixup_icmp_dest_unreach (S : skb_env) (nat46 : nat46_instance_t) (st : icmp4_state) :
    Nat × icmp4_state :=
  let icmph := IPV4HDRSIZE
  let pkt := store st.pkt icmph 1
  let code := pkt (icmph + 1)
  let set_code := fun (c : Nat) =>
    xlate_pkt_in_err_v4_to_v6 S nat46 { st with pkt := store pkt (icmph + 1) c }
  if code = 0 ∨ code = 1 then set_code 0
  else if code = 2 then
    let pkt := wr32 pkt (icmph + 4) 6
    let pkt := store pkt icmph 4
    xlate_pkt_in_err_v4_to_v6 S nat46 { st with pkt := store pkt (icmph + 1) 1 }
  else if code = 3 then set_code 4
  else if code = 4 then
    let pkt := store pkt icmph 2
    let pkt := store pkt (icmph + 1) 0
    let pkt :=
      if ntohs (rd16 pkt (icmph + 6)) < 1280 then wr16 pkt (icmph + 6) (ntohs 1280) else pkt
    xlate_pkt_in_err_v4_to_v6 S nat46 { st with pkt := pkt }
  else if code = 5 ∨ code = 6 ∨ code = 7 ∨ code = 8 then set_code 0
  else if code = 9 ∨ code = 10 then set_code 1
  else if code = 11 ∨ code = 12 then set_code 0
  else if code = 13 ∨ code = 15 then set_code 1
  else (0, { st with pkt := store pkt 9 NEXTHDR_NONE })

/-! ## IPv6 input -/

/-- The Linux constant `ETH_P_IP`. -/
def ETH_P_IP : Nat := 0x0800

/-- The Linux constant `ETH_P_IPV6`. -/
def ETH_P_IPV6 : Nat := 0x86DD

/-- The Linux constant `IPV6_ADDR_UNICAST`. -/
def IPV6_ADDR_UNICAST : Nat := 0x0001

/-- The Linux constant `IP6_OFFSET`. -/
def IP6_OFFSET : Nat := 0xFFF8

/-- The Linux constant `EINPROGRESS`. -/
def EINPROGRESS : Int := 115

/-- The result of `pairs_xlate_v6_to_v4_outer`: the return value, `*papair`, `*pv4saddr` and
`*pv4daddr`. -/
structure outer6_result where
  ret : Int
  apair : Option nat46_xlate_rulepair_t
  v4saddr : Nat
  v4daddr : Nat

/-- `pairs_xlate_v6_to_v4_outer(nat46, papair, ip6h, proto, pv4saddr, pv4daddr)`; the last
three arguments are the values behind `papair`, `pv4saddr` and `pv4daddr` at entry.  The pair
is looked up for the source address; the destination is decoded with its local rule and the
source with its remote rule. -/
def pairs_xlate_v6_to_v4_outer (nat46 : nat46_instance_t) (ip6h : Mem) (proto : Nat)
    (papair : Option nat46_xlate_rulepair_t) (v4saddr v4daddr : Nat) : outer6_result :=
  match nat46_lpm (some nat46) NAT46_IPV6_REMOTE (some (ptr_add ip6h 8)) with
  | none => { ret := 0, apair := papair, v4saddr := v4saddr, v4daddr := v4daddr }
  | some apair =>
    let d := xlate_v6_to_v4 apair.local (ptr_add ip6h 24) (u32_bytes v4daddr)
    let s := xlate_v6_to_v4 apair.remote (ptr_add ip6h 8) (u32_bytes v4saddr)
    let v4daddr := ld32 d.2
    let v4saddr := ld32 s.2
    if d.1 ≠ 0 then
      if s.1 = 0 then
        if proto = NEXTHDR_ICMP then
          { ret := 1, apair := some apair, v4saddr := v4daddr, v4daddr := v4daddr }
        else { ret := 0, apair := some apair, v4saddr := v4saddr, v4daddr := v4daddr }
      else { ret := 1, apair := some apair, v4saddr := v4saddr, v4daddr := v4daddr }
    else { ret := 0, apair := some apair, v4saddr := v4saddr, v4daddr := v4daddr }

/-- What `nat46_ipv6_input` takes from outside nat46-core.c: the fields `protocol` and `len`
of the skb, the kernel function `ipv6_addr_type`, the static counter of `get_next_ip_id`,
whether `skb_get` returns an skb, the return value of `nf_ct_frag6_gather` and the packet of
the reassembled skb seen from its IPv6 header, the indeterminate initial values of the locals
`v4saddr`, `v4daddr` and `hdr6`, and the environment of the embedded-packet translation. -/
structure ipv6_input_env where
  skb_protocol : Nat
  skb_len : Nat
  ipv6_addr_type : Mem → Nat
  ip_id : Nat
  skb_get : Bool
  nf_ct_frag6_gather : Int
  reasm : Mem
  v4saddr : Nat
  v4daddr : Nat
  hdr6 : Mem
  P : packet_env

/-- What `nat46_ipv6_input` does with the skb: the packet handed to `netif_rx` seen from its
network header (`none` when `netif_rx` is not called), whether `old_skb` was freed, and the
static counter of `get_next_ip_id` afterwards. -/
structure ipv6_input_result where
  netif_rx : Option Mem
  kfree_skb : Bool
  ip_id : Nat

/-- `ip6_input_not_interested(nat46, ip6h, old_skb)`; `version` is the high nibble of the
first byte. -/
def ip6_input_not_interested (E : ipv6_input_env) (ip6h : Mem) : Bool :=
  if E.skb_protocol ≠ ntohs ETH_P_IPV6 then true
  else if E.skb_len < IPV6HDRSIZE ∨ ip6h 0 / 16 ≠ 6 then true
  else if E.ipv6_addr_type (ptr_add ip6h 8) &&& IPV6_ADDR_UNICAST = 0 then true
  else false

/-- The locals of `nat46_ipv6_input` after its fragment handling (the `if (proto ==
NEXTHDR_FRAGMENT)` statement): the packet seen from `ip6h`, `proto`, `frag_off`, `frag_id`,
`v6packet_l3size`, `l3_infrag_payload_len`, `check_for_l4` and the counter of
`get_next_ip_id`. -/
structure ipv6_input_l3 where
  ip6h : Mem
  proto : Nat
  frag_off : Nat
  frag_id : Nat
  v6packet_l3size : Nat
  l3_infrag_payload_len : Int
  check_for_l4 : Bool
  ip_id : Nat

/-- The fragment handling of `nat46_ipv6_input`; `none` stands for `goto done`. -/
def ipv6_input_fragment (E : ipv6_input_env) (ip6h : Mem) : Option ipv6_input_l3 :=
  let l3_infrag_payload_len : Int := ntohs (rd16 ip6h 4)
  if ip6h 6 = NEXTHDR_FRAGMENT then
    let fh_frag_off := rd16 ip6h (IPV6HDRSIZE + 2)
    let frag_id := fold_ipv6_frag_id (rd32 ip6h (IPV6HDRSIZE + 4))
    if fh_frag_off = 0 then
      some { ip6h := ip6h, proto := ip6h IPV6HDRSIZE, frag_off := 0, frag_id := frag_id,
             v6packet_l3size := IPV6HDRSIZE + 8,
             l3_infrag_payload_len := l3_infrag_payload_len - 8, check_for_l4 := true,
             ip_id := E.ip_id }
    else
      let frag_off := ntohs (frag_off_v6_to_v4 (ntohs fh_frag_off))
      let check_for_l4 : Bool := decide (ntohs fh_frag_off &&& IP6_OFFSET = 0)
      let proto := ip6h IPV6HDRSIZE
      if proto = NEXTHDR_ICMP then
        if !E.skb_get then none
        else if E.nf_ct_frag6_gather = -EINPROGRESS then none
        else if E.nf_ct_frag6_gather ≠ 0 then none
        else
          some { ip6h := E.reasm, proto := E.reasm 6, frag_off := 0, frag_id := frag_id,
                 v6packet_l3size := IPV6HDRSIZE,
                 l3_infrag_payload_len := ntohs (rd16 E.reasm 4), check_for_l4 := true,
                 ip_id := E.ip_id }
      else
        some { ip6h := ip6h, proto := proto, frag_off := frag_off, frag_id := frag_id,
               v6packet_l3size := IPV6HDRSIZE + 8,
               l3_infrag_payload_len := l3_infrag_payload_len - 8,
               check_for_l4 := check_for_l4, ip_id := E.ip_id }
  else
    some { ip6h := ip6h, proto := ip6h 6, frag_off := ntohs IP_DF, frag_id := E.ip_id,
           v6packet_l3size := IPV6HDRSIZE, l3_infrag_payload_len := l3_infrag_payload_len,
           check_for_l4 := true, ip_id := (E.ip_id + 1) % 2 ^ 16 }

/-- The address translation of `nat46_ipv6_input` (the `if (!pairs_xlate_v6_to_v4_outer(...))`
statement): `v4saddr` and `v4daddr`, or `none` for `goto done`.  For an ICMPv6 error whose
own addresses do not translate, the addresses of the embedded packet are tried, swapped, and
the source becomes the IPv4 prefix of the local rule. -/
def ipv6_input_addresses (E : ipv6_input_env) (nat46 : nat46_instance_t) (l3 : ipv6_input_l3) :
    Option (Nat × Nat) :=
  let r := pairs_xlate_v6_to_v4_outer nat46 l3.ip6h l3.proto none E.v4saddr E.v4daddr
  if r.ret ≠ 0 then some (r.v4saddr, r.v4daddr)
  else if l3.proto = NEXTHDR_ICMP then
    let icmp6h := ptr_add l3.ip6h l3.v6packet_l3size
    let ip6h_inner := ptr_add icmp6h 8
    if icmp6h 0 = ICMPV6_DEST_UNREACH ∨ icmp6h 0 = ICMPV6_PKT_TOOBIG ∨
        icmp6h 0 = ICMPV6_TIME_EXCEED ∨ icmp6h 0 = ICMPV6_PARAMPROB then
      let hdr6 := memcpy E.hdr6 8 ip6h_inner 24 16
      let hdr6 := memcpy hdr6 24 ip6h_inner 8 16
      let r2 := pairs_xlate_v6_to_v4_outer nat46 hdr6 l3.proto r.apair r.v4saddr r.v4daddr
      if r2.ret = 0 then none
      else
        match r2.apair with
        | some apair => some (apair.local.v4_pref, r2.v4daddr)
        | none => none
    else none
  else none

/-- The checksum step of `nat46_ipv6_input` (the `if (check_for_l4)` statement): the packet
seen from `ip6h`, `proto` and `tailTruncSize` afterwards. -/
def ipv6_input_l4 (E : ipv6_input_env) (nat46 : nat46_instance_t) (l3 : ipv6_input_l3)
    (v4saddr v4daddr : Nat) : Mem × Nat × Int :=
  let ip6h := l3.ip6h
  let l4 := l3.v6packet_l3size
  let saddr := ptr_add ip6h 8
  let daddr := ptr_add ip6h 24
  if l3.check_for_l4 then
    if l3.proto = NEXTHDR_TCP then
      let sum1 := csum_ipv6_unmagic saddr daddr 0 NEXTHDR_TCP (rd16 ip6h (l4 + 16))
      let sum2 := csum_tcpudp_remagic v4saddr v4daddr 0 NEXTHDR_TCP sum1
      (wr16 ip6h (l4 + 16) sum2, l3.proto, 0)
    else if l3.proto = NEXTHDR_UDP then
      if rd16 ip6h (l4 + 6) ≠ 0 then
        let sum1 := csum_ipv6_unmagic saddr daddr 0 NEXTHDR_UDP (rd16 ip6h (l4 + 6))
        let sum2 := csum_tcpudp_remagic v4saddr v4daddr 0 NEXTHDR_UDP sum1
        (wr16 ip6h (l4 + 6) sum2, l3.proto, 0)
      else (ip6h, l3.proto, 0)
    else if l3.proto = NEXTHDR_ICMP then
      let sum1 := csum_ipv6_unmagic saddr daddr (to_u32 l3.l3_infrag_payload_len) NEXTHDR_ICMP
        (rd16 ip6h (l4 + 2))
      let ip6h := wr16 ip6h (l4 + 2) sum1
      let st := nat46_fixup_icmp6 E.P nat46
        { ip6h := ip6h, icmp6h := ptr_add ip6h l4, tailTruncSize := 0 }
      (ptr_merge st.ip6h l4 st.icmp6h, IPPROTO_ICMP, st.tailTruncSize)
    else (ip6h, l3.proto, 0)
  else (ip6h, if l3.proto = NEXTHDR_ICMP then IPPROTO_ICMP else l3.proto, 0)

/-- `nat46_ipv6_input(old_skb)`: `nat46` is what `get_nat46_instance` returns (`none` for
NULL) and `pkt` the packet seen from `ipv6_hdr(old_skb)`.  After `skb_pull` by the size of an
IPv4 header the network header is 20 bytes into the packet, and the IPv4 header is built
there. -/
def nat46_ipv6_input (E : ipv6_input_env) (nat46 : Option nat46_instance_t) (pkt : Mem) :
    ipv6_input_result :=
  match nat46 with
  | none => { netif_rx := none, kfree_skb := true, ip_id := E.ip_id }
  | some nat46 =>
    if ip6_input_not_interested E pkt then
      { netif_rx := none, kfree_skb := true, ip_id := E.ip_id }
    else
      match ipv6_input_fragment E pkt with
      | none => { netif_rx := none, kfree_skb := true, ip_id := E.ip_id }
      | some l3 =>
        match ipv6_input_addresses E nat46 l3 with
        | none => { netif_rx := none, kfree_skb := true, ip_id := l3.ip_id }
        | some v4 =>
          let r := ipv6_input_l4 E nat46 l3 v4.1 v4.2
          let ip6h := r.1
          let ver_class_flow := ntohl (rd32 ip6h 0)
          let hop_limit := ip6h 7
          let l3_infrag_payload_len := l3.l3_infrag_payload_len - r.2.2
          let iph := fill_v4hdr_from_v6hdr E.P ver_class_flow hop_limit v4.1 v4.2 l3.frag_id
            l3.frag_off r.2.1 l3_infrag_payload_len
          { netif_rx := some (memcpy (ptr_add ip6h IPV4HDRSIZE) 0 iph 0 IPV4HDRSIZE),
            kfree_skb := false, ip_id := l3.ip_id }

/-! ## CE port set -/

/-- Left shift of an `int` by an `int` count, taken mathematically; the callers keep the
result below `2 ^ 31`, and a negative count, which C leaves undefined, is taken as 0. -/
def shl (x : Nat) (n : Int) : Nat := x <<< n.toNat

/-- `nat46_get_ce_port(pair, sport)`: the return value and the new value of the static
`port_num`, whose value at entry is the last argument.  `psid_bits_len`, `offset` and
`port_set_bitmask` are `uint8_t`, the other locals and `port_num` are `uint16_t`. -/
def nat46_get_ce_port (pair : nat46_xlate_rulepair_t) (sport port_num : Nat) : Nat × Nat :=
  let rule := pair.local
  let offset : Nat := to_u8 rule.psid_offset
  if rule.ea_len + rule.v4_pref_len > IPV4_BITS_MAX then
    let psid_bits_len : Nat := to_u8 (rule.ea_len - (IPV4_BITS_MAX - rule.v4_pref_len))
    let a : Nat := to_u16 (PSID_LEN_MAX - offset - psid_bits_len)
    let psid16 : Nat := (shr (ntohs sport) a &&& shr 0xffff (PSID_LEN_MAX - psid_bits_len)) % 2 ^ 16
    if port_num = 0 then
      let m : Nat := if offset ≠ 0 then 1 else 0
      let port_num := (shl m (PSID_LEN_MAX - offset) ||| shl psid16 a) % 2 ^ 16
      (port_num, port_num)
    else
      let port_set_bitmask : Nat := (shl 1 a - 1) % 2 ^ 8
      let value := port_num &&& port_set_bitmask
      if value ^^^ port_set_bitmask = 0 then
        let m := (shr port_num (PSID_LEN_MAX - offset) + 1) % 2 ^ 16
        let m := if m ≥ shl 1 offset then (if offset ≠ 0 then 1 else 0) else m
        let port_num := (shl m (PSID_LEN_MAX - offset) ||| shl psid16 a) % 2 ^ 16
        (port_num, port_num)
      else
        let port_num := (port_num + 1) % 2 ^ 16
        (port_num, port_num)
  else (0, port_num)

/-! ## IPv4 input -/

/-- The kernel checksum functions that `ip6_update_csum` calls: `csum_partial(buff, len, sum)`
and `csum_ipv6_magic(saddr, daddr, len, proto, sum)`. -/
structure csum_api where
  csum_partial : Mem → Nat → Nat → Nat
  csum_ipv6_magic : Mem → Mem → Nat → Nat → Nat → Nat

/-- `csum_ipv6_udp_remagic(ip6hdr, csum)`; `csum` and `sum` are `u32`. -/
def csum_ipv6_udp_remagic (K : csum_api) (ip6hdr : Mem) (csum : Nat) : Nat :=
  let sum := K.csum_partial (ptr_add ip6hdr 8) 32 (0xffffffff - csum % 2 ^ 32) % 2 ^ 32
  let sum := (((sum >>> 16) &&& 0xffff) + (sum &&& 0xffff)) % 2 ^ 32
  let sum := (sum + ((sum >>> 16) &&& 0xffff)) % 2 ^ 32
  not16 sum

/-- `csum_ipv4_unmagic(saddr, daddr, csum)`; `csum`, `s` and `addr_csum` are `u32`. -/
def csum_ipv4_unmagic (saddr daddr csum : Nat) : Nat :=
  let csum := ntohs (not16 csum)
  let addr_csum := ((saddr &&& 0xffff) + (saddr >>> 16) + (daddr &&& 0xffff) + (daddr >>> 16))
    % 2 ^ 32
  let s := (csum + ntohs (not16 addr_csum)) % 2 ^ 32
  let s := (((s >>> 16) &&& 0xffff) + (s &&& 0xffff)) % 2 ^ 32
  let s := (s + ((s >>> 16) &&& 0xffff)) % 2 ^ 32
  ntohs (not16 s)

/-- `ip6_update_csum(skb, ip6hdr, v4saddr, v4daddr, do_atomic_frag)`: the packet seen from
`ip6hdr` afterwards.  `l4` is the offset of the transport header of the skb (`tcp_hdr`,
`udp_hdr`, `icmp6_hdr`) from `ip6hdr`. -/
def ip6_update_csum (K : csum_api) (pkt : Mem) (l4 : Nat) (v4saddr v4daddr : Nat)
    (do_atomic_frag : Bool) : Mem :=
  let len := to_u32 ((ntohs (rd16 pkt 4) : Int) - (if do_atomic_frag then 8 else 0))
  if pkt 6 = IPPROTO_TCP then
    let pkt := wr16 pkt (l4 + 16) 0
    let sum1 := K.csum_partial (ptr_add pkt l4) len 0 % 2 ^ 32
    let sum2 := K.csum_ipv6_magic (ptr_add pkt 8) (ptr_add pkt 24) len (pkt 6) sum1 % 2 ^ 16
    wr16 pkt (l4 + 16) sum2
  else if pkt 6 = IPPROTO_UDP then
    let sum2 :=
      if rd16 pkt (l4 + 6) = 0 then
        let sum1 := K.csum_partial (ptr_add pkt l4) len 0 % 2 ^ 32
        K.csum_ipv6_magic (ptr_add pkt 8) (ptr_add pkt 24) len (pkt 6) sum1 % 2 ^ 16
      else
        let sum1 := csum_ipv4_unmagic v4saddr v4daddr (rd16 pkt (l4 + 6))
        csum_ipv6_udp_remagic K pkt sum1
    wr16 pkt (l4 + 6) sum2
  else if pkt 6 = NEXTHDR_ICMP then
    let pkt := wr16 pkt (l4 + 2) 0
    let sum1 := K.csum_partial (ptr_add pkt l4) len 0 % 2 ^ 32
    let sum2 := K.csum_ipv6_magic (ptr_add pkt 8) (ptr_add pkt 24) len (pkt 6) sum1 % 2 ^ 16
    wr16 pkt (l4 + 2) sum2
  else pkt

/-- `pairs_xlate_v4_to_v6_outer(nat46, apair, hdr4, sport, dport, v6saddr, v6daddr)`: the
return value and the new contents of `v6saddr` and `v6daddr`.  The parameter `apair` is
assigned inside the function only, so the pair of the caller is not written.  The pair is
looked up for the destination address; the source is encoded with its local rule and the
destination with its remote rule. -/
def pairs_xlate_v4_to_v6_outer (S : skb_env) (nat46 : nat46_instance_t) (hdr4 : Mem)
    (sport dport : Option Nat) (v6saddr v6daddr : Mem) : Int × Mem × Mem :=
  match nat46_lpm (some nat46) NAT46_IPV4_REMOTE (some (ptr_add hdr4 16)) with
  | none => (0, v6saddr, v6daddr)
  | some apair =>
    let s := xlate_v4_to_v6 apair.local (ptr_add hdr4 12) v6saddr sport S.stk
    let d := xlate_v4_to_v6 apair.remote (ptr_add hdr4 16) v6daddr dport S.stk
    (if s.1 ≠ 0 ∧ d.1 ≠ 0 then 1 else 0, s.2, d.2)

/-- `nat46_fixup_icmp_time_exceeded(nat46, iph, icmph, old_skb, sport, dport)`. -/
def nat46_fixup_icmp_time_exceeded (S : skb_env) (nat46 : nat46_instance_t)
    (st : icmp4_state) : Nat × icmp4_state :=
  xlate_pkt_in_err_v4_to_v6 S nat46 { st with pkt := store st.pkt IPV4HDRSIZE 3 }

/-- The table `ptr4_6` of `nat46_fixup_icmp_parameterprob`, 21 entries. -/
def ptr4_6 : List Int :=
  [0, 1, 4, 4, -1, -1, -1, -1, 7, 6, -1, -1, 8, 8, 8, 8, 24, 24, 24, 24, -1]

/-- `nat46_fixup_icmp_parameterprob(nat46, iph, icmph, old_skb, sport, dport)`; `*icmp_pptr`
is byte 4 of the ICMP header and `*icmp6_pptr` the 32-bit word at its bytes 4..7. -/
def nat46_fixup_icmp_parameterprob (S : skb_env) (nat46 : nat46_instance_t)
    (st : icmp4_state) : Nat × icmp4_state :=
  let icmph := IPV4HDRSIZE
  let pkt := store st.pkt icmph 4
  let code := pkt (icmph + 1)
  if code = 0 ∨ code = 2 then
    if pkt (icmph + 4) < ptr4_6.length then
      let pkt2 := store pkt (icmph + 1) 0
      let new_pptr : Int := ptr4_6.getD (pkt (icmph + 4)) (-1)
      if new_pptr ≥ 0 then
        xlate_pkt_in_err_v4_to_v6 S nat46 { st with pkt := wr32 pkt2 (icmph + 4) new_pptr.toNat }
      else (0, { st with pkt := store pkt2 9 NEXTHDR_NONE })
    else (0, { st with pkt := store pkt 9 NEXTHDR_NONE })
  else (0, { st with pkt := store pkt 9 NEXTHDR_NONE })

/-- `nat46_fixup_icmp(nat46, iph, old_skb, sport, dport)`; `icmph` is `iph + 1`. -/
def nat46_fixup_icmp (S : skb_env) (nat46 : nat46_instance_t) (st : icmp4_state) :
    Nat × icmp4_state :=
  let icmph := IPV4HDRSIZE
  let pkt := store st.pkt 9 NEXTHDR_ICMP
  let type := pkt icmph
  if type = ICMP_ECHO then
    (0, { pkt := store pkt icmph ICMPV6_ECHO_REQUEST, sport := rd16 pkt (icmph + 4),
          dport := rd16 pkt (icmph + 4) })
  else if type = ICMP_ECHOREPLY then
    (0, { pkt := store pkt icmph ICMPV6_ECHO_REPLY, sport := rd16 pkt (icmph + 4),
          dport := rd16 pkt (icmph + 4) })
  else if type = ICMP_TIME_EXCEEDED then
    nat46_fixup_icmp_time_exceeded S nat46 { st with pkt := pkt }
  else if type = ICMP_PARAMETERPROB then
    nat46_fixup_icmp_parameterprob S nat46 { st with pkt := pkt }
  else if type = ICMP_DEST_UNREACH then
    nat46_fixup_icmp_dest_unreach S nat46 { st with pkt := pkt }
  else (0, { st with pkt := store pkt 9 NEXTHDR_NONE })

/-- What `nat46_ipv4_input` takes from outside nat46-core.c: the field `protocol` of the skb,
the global flag `add_dummy_header`, the offset of the transport header of the incoming skb
from `hdr4` (`tcp_hdr`, `udp_hdr`), the indeterminate contents of the local `apair`, the value
of `skb_headroom`, the return value of `pskb_expand_head`, the static `port_num` of
`nat46_get_ce_port`, the skb environment of the ICMP error path and the checksum functions. -/
structure ipv4_input_env where
  skb_protocol : Nat
  add_dummy_header : Bool
  transport_header : Nat
  apair : nat46_xlate_rulepair_t
  skb_headroom : Int
  pskb_expand_head : Int
  port_num : Nat
  S : skb_env
  K : csum_api

/-- What `nat46_ipv4_input` does with the skb: the packet handed to `netif_rx` seen from its
network header (`none` when `netif_rx` is not called), whether `old_skb` was freed, and the
static `port_num` afterwards. -/
structure ipv4_input_result where
  netif_rx : Option Mem
  kfree_skb : Bool
  port_num : Nat

/-- `ip4_input_not_interested(nat46, iph, old_skb)`. -/
def ip4_input_not_interested (E : ipv4_input_env) : Bool :=
  decide (E.skb_protocol ≠ ntohs ETH_P_IP)

/-- The fragment test at the start of `nat46_ipv4_input` (the `if(0 == (ntohs(hdr4->frag_off)
& 0x3FFF))` statement): `check_for_l4` and `add_frag_header`. -/
def ipv4_frag_flags (frag_off : Nat) (add_dummy_header : Bool) : Bool × Bool :=
  if ntohs frag_off &&& 0x3FFF = 0 then
    (true, if ntohs frag_off &&& IP_DF = 0 then add_dummy_header else false)
  else (decide (ntohs frag_off &&& 0x1FFF = 0), true)

/-- The locals of `nat46_ipv4_input` once the addresses are translated: the packet seen from
`hdr4`, `sport`, `add_frag_header`, `v6saddr` and `v6daddr`. -/
structure ipv4_input_l3 where
  hdr4 : Mem
  sport : Nat
  add_frag_header : Bool
  v6saddr : Mem
  v6daddr : Mem

/-- The first part of `nat46_ipv4_input`, up to the expansion of the skb head: `none` stands
for `goto done`. -/
def ipv4_input_translate (E : ipv4_input_env) (nat46 : nat46_instance_t) (hdr4 : Mem) :
    Option ipv4_input_l3 :=
  let v6saddr := memset (fun _ => 0) 0 1 16
  let v6daddr := memset (fun _ => 0) 0 2 16
  if ip4_input_not_interested E then none
  else
    let flags := ipv4_frag_flags (rd16 hdr4 6) E.add_dummy_header
    let th := E.transport_header
    let st : icmp4_state × Bool :=
      if flags.1 then
        if hdr4 9 = IPPROTO_TCP then
          ({ pkt := hdr4, sport := rd16 hdr4 th, dport := rd16 hdr4 (th + 2) }, true)
        else if hdr4 9 = IPPROTO_UDP then
          ({ pkt := hdr4, sport := rd16 hdr4 th, dport := rd16 hdr4 (th + 2) }, true)
        else if hdr4 9 = IPPROTO_ICMP then
          ((nat46_fixup_icmp E.S nat46 { pkt := hdr4, sport := 0, dport := 0 }).2, true)
        else ({ pkt := hdr4, sport := 0, dport := 0 }, false)
      else
        ({ pkt := if hdr4 9 = IPPROTO_ICMP then store hdr4 9 NEXTHDR_ICMP else hdr4,
           sport := 0, dport := 0 }, true)
    let o := pairs_xlate_v4_to_v6_outer E.S nat46 st.1.pkt
      (if st.2 then some st.1.sport else none) (if st.2 then some st.1.dport else none)
      v6saddr v6daddr
    if o.1 = 0 then none
    else if E.skb_headroom < IPV6V4HDRDELTA ∧ E.pskb_expand_head ≠ 0 then none
    else
      some { hdr4 := st.1.pkt, sport := st.1.sport, add_frag_header := flags.2,
             v6saddr := o.2.1, v6daddr := o.2.2 }

/-- The choice of the fragment identification in `nat46_ipv4_input` (the statements from
`is_psid = ...` on): the value stored in `fh->identification` and the static `port_num`
afterwards.  `apair` is the local of that name and `pairs` is `nat46->pairs`, the first pair
of the instance. -/
def frag_identification (apair pairs : nat46_xlate_rulepair_t) (sport id port_num : Nat) :
    Nat × Nat :=
  if apair.local.style = NAT46_XLATE_MAP ∧ apair.local.ea_len ≠ 0 then
    let r := nat46_get_ce_port pairs sport port_num
    if r.1 ≠ 0 then (ntohl r.1, r.2) else (ntohl (ntohs id), r.2)
  else (ntohl (ntohs id), port_num)

/-- The second part of `nat46_ipv4_input`, from `skb_push` on: the packet handed to `netif_rx`
seen from `hdr6` and the static `port_num` afterwards.  The new network header is 20 or 28
bytes before `hdr4`, and 40 or 48 bytes from it on are zeroed.  For an instance without pairs
`nat46->pairs` points at no live pair; the indeterminate pair stands for it. -/
def ipv4_input_emit (E : ipv4_input_env) (nat46 : nat46_instance_t) (l3 : ipv4_input_l3) :
    Mem × Nat :=
  let hdr4 := l3.hdr4
  let tclass := hdr4 1
  let v4saddr := rd32 hdr4 12
  let v4daddr := rd32 hdr4 16
  let protocol := hdr4 9
  let tot_len := rd16 hdr4 2
  let ttl := hdr4 8
  let frag_off := rd16 hdr4 6
  let id := rd16 hdr4 4
  let f : Nat := if l3.add_frag_header then 8 else 0
  let hdr6 : Mem := fun i => if i < IPV6HDRSIZE + f then 0 else hdr4 (i - (IPV6V4HDRDELTA + f))
  let hdr6 := wr32 hdr6 0 (ntohl ((0x60000000 ||| (tclass <<< 20)) % 2 ^ 32))
  let hdr6 := wr16 hdr6 4 (ntohs (to_u16 ((ntohs tot_len : Int) - 20 + f)))
  let hdr6 := store hdr6 6 protocol
  let hdr6 := store hdr6 7 ttl
  let hdr6 := memcpy hdr6 8 l3.v6saddr 0 16
  let hdr6 := memcpy hdr6 24 l3.v6daddr 0 16
  let fr : Mem × Nat :=
    if l3.add_frag_header then
      let fh := IPV6HDRSIZE
      let hdr6 := wr16 hdr6 (fh + 2) (ntohs (frag_off_v4_to_v6 (ntohs frag_off)))
      let hdr6 := store hdr6 fh protocol
      let r := frag_identification E.apair (nat46.pairs.headD E.apair) l3.sport id E.port_num
      (wr32 hdr6 (fh + 4) r.1, r.2)
    else (hdr6, E.port_num)
  let hdr6 := ip6_update_csum E.K fr.1 (IPV6HDRSIZE + f) v4saddr v4daddr l3.add_frag_header
  (store hdr6 6 (if l3.add_frag_header then NEXTHDR_FRAGMENT else protocol), fr.2)

/-- `nat46_ipv4_input(old_skb)`: `nat46` is what `get_nat46_instance` returns (`none` for
NULL) and `hdr4` the packet seen from `ip_hdr(old_skb)`. -/
def nat46_ipv4_input (E : ipv4_input_env) (nat46 : Option nat46_instance_t) (hdr4 : Mem) :
    ipv4_input_result :=
  match nat46 with
  | none => { netif_rx := none, kfree_skb := true, port_num := E.port_num }
  | some nat46 =>
    match ipv4_input_translate E nat46 hdr4 with
    | none => { netif_rx := none, kfree_skb := true, port_num := E.port_num }
    | some l3 =>
      { netif_rx := some (ipv4_input_emit E nat46 l3).1, kfree_skb := false,
        port_num := (ipv4_input_emit E nat46 l3).2 }

/-! ## Statements of the specification -/

/-- The invariant of one rule as the specification words it: for RFC6052 the IPv6 prefix
length is one of 32, 40, 48, 56, 64, 96; for MAP `ea_len ≤ 48` and
`psid_len + psid_offset ≤ 16` with `psid_len = max(0, ea_len − (32 − v4_pref_len))`. -/
def rule_invariant (rule : nat46_xlate_rule_t) : Prop :=
  (rule.style = NAT46_XLATE_RFC6052 →
    rule.v6_pref_len = 32 ∨ rule.v6_pref_len = 40 ∨ rule.v6_pref_len = 48 ∨
    rule.v6_pref_len = 56 ∨ rule.v6_pref_len = 64 ∨ rule.v6_pref_len = 96) ∧
  (rule.style = NAT46_XLATE_MAP →
    rule.ea_len ≤ 48 ∧
    max 0 (rule.ea_len - (32 - rule.v4_pref_len)) + rule.psid_offset ≤ 16)

/-- The sixteen bytes of an RFC6052 address as RFC 6052, 2.2 lays them out for the prefix
length `len`: `p` holds the prefix bytes, `a` the four address bytes; byte 8 is the zero
`u` byte for lengths up to 64 and the suffix is zero. -/
def rfc6052_layout (len : Int) (p a : Mem) : List Nat :=
  if len = 32 then
    [p 0, p 1, p 2, p 3, a 0, a 1, a 2, a 3, 0, 0, 0, 0, 0, 0, 0, 0]
  else if len = 40 then
    [p 0, p 1, p 2, p 3, p 4, a 0, a 1, a 2, 0, a 3, 0, 0, 0, 0, 0, 0]
  else if len = 48 then
    [p 0, p 1, p 2, p 3, p 4, p 5, a 0, a 1, 0, a 2, a 3, 0, 0, 0, 0, 0]
  else if len = 56 then
    [p 0, p 1, p 2, p 3, p 4, p 5, p 6, a 0, 0, a 1, a 2, a 3, 0, 0, 0, 0]
  else if len = 64 then
    [p 0, p 1, p 2, p 3, p 4, p 5, p 6, p 7, 0, a 0, a 1, a 2, a 3, 0, 0, 0]
  else
    [p 0, p 1, p 2, p 3, p 4, p 5, p 6, p 7, p 8, p 9, p 10, p 11, a 0, a 1, a 2, a 3]

/-- The checksum field that the embedded-packet translation leaves in the ICMP header when the
field holds `c` on entry; the translation reads nothing else of the first eight bytes. -/
def embedded6_cksum (E : packet_env) (nat46 : nat46_instance_t) (st : icmp6_state) (c : Nat) :
    Nat :=
  rd16 (xlate_embedded6 E nat46 { st with icmp6h := wr16 st.icmp6h 2 c }).icmp6h 2

/-- The pointer table of the specification: the ICMPv4 pointer for the ICMPv6 pointer values
0, 1, 4, 5, 6, 7, 8..23, 24..39. -/
def paramprob_pointer (p : Nat) : Nat :=
  if p = 0 then 0 else if p = 1 then 1 else if p = 4 ∨ p = 5 then 2 else if p = 6 then 9
  else if p = 7 then 8 else if 8 ≤ p ∧ p ≤ 23 then 12 else 16

/-- A sorted view as the specification describes it: a permutation of the pair list, in
non-increasing order of the key, and stable, that is, for every key value the pairs with that
key come in the order they have in the pair list. -/
def sorted_view (key : nat46_xlate_rulepair_t → Int)
    (view pairs : List nat46_xlate_rulepair_t) : Prop :=
  view.Perm pairs ∧ view.Pairwise (fun x y => key y ≤ key x) ∧
  ∀ k : Int, view.filter (fun p => decide (key p = k)) =
    pairs.filter (fun p => decide (key p = k))

/-- The prefix of the kind `type` of the pair covers the address held in `paddr`. -/
def covers (type : nat46_rule_type_t) (p : nat46_xlate_rulepair_t) (paddr : Mem) : Prop :=
  match type with
  | NAT46_IPV4_LOCAL => covers_v4 p.local paddr
  | NAT46_IPV4_REMOTE => covers_v4 p.remote paddr
  | NAT46_IPV6_LOCAL => covers_v6 p.local paddr
  | NAT46_IPV6_REMOTE => covers_v6 p.remote paddr

/-- The prefix of the kind `type` of the pair has a length in its range, 0..32 for IPv4 and
0..128 for IPv6, and an IPv6 prefix is held in bytes. -/
def prefix_in_range (type : nat46_rule_type_t) (p : nat46_xlate_rulepair_t) : Prop :=
  match type with
  | NAT46_IPV4_LOCAL => 0 ≤ p.local.v4_pref_len ∧ p.local.v4_pref_len ≤ 32
  | NAT46_IPV4_REMOTE => 0 ≤ p.remote.v4_pref_len ∧ p.remote.v4_pref_len ≤ 32
  | NAT46_IPV6_LOCAL =>
    IsBytes p.local.v6_pref ∧ 0 ≤ p.local.v6_pref_len ∧ p.local.v6_pref_len ≤ 128
  | NAT46_IPV6_REMOTE =>
    IsBytes p.remote.v6_pref ∧ 0 ≤ p.remote.v6_pref_len ∧ p.remote.v6_pref_len ≤ 128

/-- The values returned by `n` successive calls of `nat46_get_ce_port` with the same pair and
source port, the static cursor `port_num` starting at `cursor`. -/
def ce_port_calls (pair : nat46_xlate_rulepair_t) (sport : Nat) :
    Nat → Nat → List Nat
  | 0, _ => []
  | n + 1, cursor =>
    (nat46_get_ce_port pair sport cursor).1 ::
      ce_port_calls pair sport n (nat46_get_ce_port pair sport cursor).2

/-- The IPv4 packet is fragmented as the specification words it: the MF flag is set or the
fragment offset is non-zero. -/
def ipv4_fragmented (frag_off : Nat) : Prop :=
  ntohs frag_off &&& 0x2000 ≠ 0 ∨ ntohs frag_off &&& 0x1FFF ≠ 0


/-- Removing the IPv4 pseudo-header addresses as the specification words it: the four 16-bit
words of the two addresses are taken out one at a time with `csum16_upd(., w, 0)`. -/
def unmagic_wordwise (saddr daddr c : Nat) : Nat :=
  csum16_upd (csum16_upd (csum16_upd (csum16_upd c (saddr % 2 ^ 16) 0)
    (saddr / 2 ^ 16 % 2 ^ 16) 0) (daddr % 2 ^ 16) 0) (daddr / 2 ^ 16 % 2 ^ 16) 0


/-- The checksum field of an ICMP message is valid, as the specification words it: the message
is the `nwords` 16-bit words at `m` (type and code are word 0, the checksum field is word 1),
`pseudo` is the sum of the words of the pseudo-header (0 for ICMPv4), and the one's-complement
sum of all of them is zero, that is, their sum is a multiple of `0xFFFF`. -/
def icmp_csum_valid (m : Mem) (nwords pseudo : Nat) : Prop :=
  (pseudo + ((List.range nwords).map (ld16 m)).sum) % 0xffff = 0


/-- The PSID of a port as RFC 7597 defines it: the `psid_len` bits of the 16-bit port (host
order) that follow its first `psid_offset` bits. -/
def port_psid (psid_offset psid_len port : Nat) : Nat :=
  port / 2 ^ (16 - psid_offset - psid_len) % 2 ^ psid_len


/-- The three lengths of the rule that enter the validation are small: their absolute value
is below `2 ^ 29`, so that no sum or difference of the validation leaves the range of
`int`. -/
def small_fields (rule : nat46_xlate_rule_t) : Prop :=
  -2 ^ 29 < rule.v4_pref_len ∧ rule.v4_pref_len < 2 ^ 29 ∧
  -2 ^ 29 < rule.ea_len ∧ rule.ea_len < 2 ^ 29 ∧
  -2 ^ 29 < rule.psid_offset ∧ rule.psid_offset < 2 ^ 29

/-! ## Example data -/

/-- The MAP rule of the round-trip example: IPv6 prefix 2001:db8::/80, IPv4 prefix
192.0.0.0/20, `ea-len` 12 (all twelve EA bits are IPv4 suffix bits, no PSID), `psid-offset` 0. -/
def rule_map80 : nat46_xlate_rule_t :=
  { style := NAT46_XLATE_MAP, v6_pref := ofBytes [0x20, 0x01, 0x0d, 0xb8],
    v6_pref_len := 80, v4_pref := ld32 (ofBytes [192, 0, 0, 0]), v4_pref_len := 20,
    ea_len := 12, psid_offset := 0 }

/-- A rule with only the prefixes set (style NONE, no EA bits). -/
def prefix_rule (v6 : List Nat) (v6_len : Int) (v4 : List Nat) (v4_len : Int) :
    nat46_xlate_rule_t :=
  { style := NAT46_XLATE_NONE, v6_pref := ofBytes v6, v6_pref_len := v6_len,
    v4_pref := ld32 (ofBytes v4), v4_pref_len := v4_len, ea_len := 0, psid_offset := 0 }

/-- An instance holding the given pairs, its views not built yet. -/
def instance_of (pairs : List nat46_xlate_rulepair_t) : nat46_instance_t :=
  { debug := 0, pairs := pairs, sorted_ipv4_local_pairs := [], sorted_ipv4_remote_pairs := [],
    sorted_ipv6_local_pairs := [], sorted_ipv6_remote_pairs := [] }

/-- The pair with local prefixes 10.0.0.0/8 and 2001:db8:1::/48. -/
def pair_long : nat46_xlate_rulepair_t :=
  { «local» := prefix_rule [0x20, 0x01, 0x0d, 0xb8, 0x00, 0x01] 48 [10, 0, 0, 0] 8,
    remote := prefix_rule [0x20, 0x01, 0x0d, 0xb8, 0x00, 0x01] 48 [10, 0, 0, 0] 8 }

/-- The pair with the default prefixes 0.0.0.0/0 and ::/0. -/
def pair_default : nat46_xlate_rulepair_t :=
  { «local» := prefix_rule [] 0 [0, 0, 0, 0] 0, remote := prefix_rule [] 0 [0, 0, 0, 0] 0 }

/-- The MAP rule 2001:db8::/48, 192.0.2.0/24 with `ea-len` 4, fewer EA bits than the eight
IPv4 suffix bits. -/
def rule_map_short : nat46_xlate_rule_t :=
  { style := NAT46_XLATE_MAP, v6_pref := ofBytes [0x20, 0x01, 0x0d, 0xb8],
    v6_pref_len := 48, v4_pref := ld32 (ofBytes [192, 0, 2, 0]), v4_pref_len := 24,
    ea_len := 4, psid_offset := 0 }

/-- The host rule of style NONE: 2001:db8::1/128 and 192.0.2.1/32. -/
def rule_host : nat46_xlate_rule_t :=
  { style := NAT46_XLATE_NONE,
    v6_pref := ofBytes [0x20, 0x01, 0x0d, 0xb8, 0, 0, 0, 0, 0, 0, 0, 0, 0, 0, 0, 1],
    v6_pref_len := 128, v4_pref := ld32 (ofBytes [192, 0, 2, 1]), v4_pref_len := 32,
    ea_len := 0, psid_offset := 0 }

/-- The header checksum as `ip_fast_csum` computes it: the complement of the folded sum of
the `2 * ihl` 16-bit words of the header. -/
def ip_fast_csum_sum (iph : Mem) (ihl : Nat) : Nat :=
  let s := ((List.range (2 * ihl)).map (ld16 iph)).sum
  let s := s % 2 ^ 16 + s / 2 ^ 16
  let s := s % 2 ^ 16 + s / 2 ^ 16
  not16 s

/-- An environment of the packet path with that checksum and zeroed address locals. -/
def env_sum : packet_env := { ip_fast_csum := ip_fast_csum_sum, v4saddr := 0, v4daddr := 0 }

/-- The outer IPv6 header of the example messages: payload length 56, next header ICMPv6,
from 2001:db8::2 to 2001:db8::1. -/
def outer_ip6h : List Nat :=
  [0x60, 0, 0, 0, 0, 56, 58, 64,
   0x20, 0x01, 0x0d, 0xb8, 0, 0, 0, 0, 0, 0, 0, 0, 0, 0, 0, 2,
   0x20, 0x01, 0x0d, 0xb8, 0, 0, 0, 0, 0, 0, 0, 0, 0, 0, 0, 1]

/-- The embedded packet of the example messages: an IPv6 header (payload length 8, next header
UDP, from 2001:db8::1 to 2001:db8::2) and a UDP header. -/
def embedded_udp6 : List Nat :=
  [0x60, 0, 0, 0, 0, 8, 17, 63,
   0x20, 0x01, 0x0d, 0xb8, 0, 0, 0, 0, 0, 0, 0, 0, 0, 0, 0, 1,
   0x20, 0x01, 0x0d, 0xb8, 0, 0, 0, 0, 0, 0, 0, 0, 0, 0, 0, 2,
   0x30, 0x39, 0x00, 0x35, 0, 8, 0x12, 0x34]

/-- An ICMPv6 message with the given first eight bytes around the embedded example packet. -/
def icmp6_msg (hdr : List Nat) : icmp6_state :=
  { ip6h := ofBytes outer_ip6h, icmp6h := ofBytes (hdr ++ embedded_udp6), tailTruncSize := 0 }

/-- An skb without tailroom whose head can be expanded and whose transport header is the ICMP
header. -/
def skb_expand : skb_env :=
  { skb_tailroom := 0, pskb_expand_head := 0, icmp_hdr := 20, v6saddr := ofBytes [],
    v6daddr := ofBytes [], stk := ofBytes [] }

/-- An ICMPv4 Destination Unreachable message with the given code and MTU bytes: the outer
IPv4 header (total length 56, protocol ICMP, 192.0.2.2 to 192.0.2.1), the ICMP header, and an
embedded IPv4 header with a UDP header (192.0.2.1 to 192.0.2.2). -/
def icmp4_msg (code mtu_hi mtu_lo : Nat) : icmp4_state :=
  { pkt := ofBytes
      [0x45, 0, 0, 56, 0, 0, 0x40, 0, 64, 1, 0, 0, 192, 0, 2, 2, 192, 0, 2, 1,
       3, code, 0xab, 0xcd, 0, 0, mtu_hi, mtu_lo,
       0x45, 0, 0, 28, 0, 0, 0x40, 0, 63, 17, 0, 0, 192, 0, 2, 1, 192, 0, 2, 2,
       0x30, 0x39, 0x00, 0x35, 0, 8, 0x12, 0x34],
    sport := 0, dport := 0 }

/-- An ICMPv4 Time Exceeded message whose embedded packet is itself an ICMP error
(Destination Unreachable): embedded protocol 1, embedded ICMP type 3. -/
def icmp4_nested : icmp4_state :=
  { pkt := ofBytes
      [0x45, 0, 0, 56, 0, 0, 0x40, 0, 64, 1, 0, 0, 192, 0, 2, 2, 192, 0, 2, 1,
       11, 0, 0xab, 0xcd, 0, 0, 0, 0,
       0x45, 0, 0, 28, 0, 0, 0x40, 0, 63, 1, 0, 0, 192, 0, 2, 1, 192, 0, 2, 2,
       3, 1, 0x12, 0x34, 0, 0, 0, 0],
    sport := 7, dport := 9 }

/-- A pair whose local rule is MAP with 192.0.2.0/24 and `ea-len` 12, so a PSID of 4 bits,
at the given `psid-offset`; with offset 2 a port set has `a = 10` bits. -/
def pair_psid (psid_offset : Int) : nat46_xlate_rulepair_t :=
  { «local» :=
      { style := NAT46_XLATE_MAP, v6_pref := ofBytes [0x20, 0x01, 0x0d, 0xb8],
        v6_pref_len := 48, v4_pref := ld32 (ofBytes [192, 0, 2, 0]), v4_pref_len := 24,
        ea_len := 12, psid_offset := psid_offset },
    remote := prefix_rule [] 0 [0, 0, 0, 0] 0 }

/-- A kernel whose address parsers reject every text and whose `simple_strtol` yields 0; it
stands in where the configuration text never reaches a kernel helper. -/
def kernel_reject : kernel_api :=
  { simple_strtol := fun _ => 0, in6_pton := fun _ m => (0, m), in4_pton := fun _ a => (0, a) }

/-- The instance with the single pair `pair_default` (style NONE on both sides). -/
def instance_one : nat46_instance_t := nat46_sort_rule_array (instance_of [pair_default])

/-- The instance with the two pairs above, the default one last. -/
def instance_two : nat46_instance_t := instance_of [pair_long, pair_default]


/-- The example rule of the round-trip witnesses: prefix 2001:db8::/32. -/
def rule6052 : nat46_xlate_rule_t :=
  { style := NAT46_XLATE_RFC6052, v6_pref := ofBytes [0x20, 0x01, 0x0d, 0xb8],
    v6_pref_len := 32, v4_pref := 0, v4_pref_len := 0, ea_len := 0, psid_offset := 0 }

/-- The MAP rule 2001:db8::/120, 10.0.0.0/8 with `ea-len` 24: its 24 IPv4 suffix bits are the
bits 120..143 behind the address pointer, of which only the first eight lie in the address. -/
def rule_map120 : nat46_xlate_rule_t :=
  { style := NAT46_XLATE_MAP, v6_pref := ofBytes [0x20, 0x01, 0x0d, 0xb8],
    v6_pref_len := 120, v4_pref := ld32 (ofBytes [10, 0, 0, 0]), v4_pref_len := 8,
    ea_len := 24, psid_offset := 0 }

/-- The RFC6052 rule with the well-known prefix 64:ff9b::/96. -/
def rule_wkp : nat46_xlate_rule_t :=
  { style := NAT46_XLATE_RFC6052, v6_pref := ofBytes [0x00, 0x64, 0xff, 0x9b],
    v6_pref_len := 96, v4_pref := 0, v4_pref_len := 0, ea_len := 0, psid_offset := 0 }

/-- The pair of the two rules above. -/
def pair_120 : nat46_xlate_rulepair_t := { «local» := rule_map120, remote := rule_wkp }

/-- The instance with the single pair `pair_120`, its views built. -/
def instance_120 : nat46_instance_t := nat46_sort_rule_array (instance_of [pair_120])

/-- The address 2001:db8::7. -/
def addr_s : List Nat := [0x20, 0x01, 0x0d, 0xb8, 0, 0, 0, 0, 0, 0, 0, 0, 0, 0, 0, 7]

/-- The address 64:ff9b::c633:6407 (198.51.100.7). -/
def addr_d : List Nat := [0x00, 0x64, 0xff, 0x9b, 0, 0, 0, 0, 0, 0, 0, 0, 198, 51, 100, 7]

/-- An IPv6 packet with the given addresses: payload length 20, next header TCP, and a TCP
header with the ports 12345 and 80. -/
def tcp6_packet (saddr daddr : List Nat) : Mem :=
  ofBytes ([0x60, 0, 0, 0, 0, 20, 6, 64] ++ saddr ++ daddr ++
    [0x30, 0x39, 0x00, 0x50, 0, 0, 0, 1, 0, 0, 0, 0, 0x50, 0x02, 0xff, 0xff, 0x12, 0x34, 0, 0])

/-- The pair whose two rules are the RFC6052 rule 2001:db8::/32. -/
def pair_6052 : nat46_xlate_rulepair_t := { «local» := rule6052, remote := rule6052 }

/-- The instance with the single pair `pair_6052`, its views built. -/
def instance_6052 : nat46_instance_t := nat46_sort_rule_array (instance_of [pair_6052])

/-- An environment of `nat46_ipv6_input`: an IPv6 skb of 96 bytes with a unicast source, no
reassembly, zeroed locals. -/
def env6 : ipv6_input_env :=
  { skb_protocol := ntohs ETH_P_IPV6, skb_len := 96, ipv6_addr_type := fun _ => IPV6_ADDR_UNICAST,
    ip_id := 0, skb_get := true, nf_ct_frag6_gather := 0, reasm := ofBytes [], v4saddr := 0,
    v4daddr := 0, hdr6 := ofBytes [], P := env_sum }

/-- An ICMPv6 Destination Unreachable message with code 5 from 2001:db8:c633:6407:: to
2001:db8:c000:201::, around a UDP packet sent the other way. -/
def pkt6_unreach5 : Mem :=
  ofBytes
    [0x60, 0, 0, 0, 0, 56, 58, 64,
     0x20, 0x01, 0x0d, 0xb8, 198, 51, 100, 7, 0, 0, 0, 0, 0, 0, 0, 0,
     0x20, 0x01, 0x0d, 0xb8, 192, 0, 2, 1, 0, 0, 0, 0, 0, 0, 0, 0,
     1, 5, 0xab, 0xcd, 0, 0, 0, 0,
     0x60, 0, 0, 0, 0, 8, 17, 63,
     0x20, 0x01, 0x0d, 0xb8, 192, 0, 2, 1, 0, 0, 0, 0, 0, 0, 0, 0,
     0x20, 0x01, 0x0d, 0xb8, 198, 51, 100, 7, 0, 0, 0, 0, 0, 0, 0, 0,
     0x30, 0x39, 0x00, 0x35, 0, 8, 0x12, 0x34]

/-- The partial checksum as `csum_partial` computes it up to folding: the sum of the 16-bit
words of the buffer, a trailing odd byte, and the incoming sum, with the carry out of 32 bits
added back. -/
def csum_partial_sum (buff : Mem) (len sum : Nat) : Nat :=
  let t := sum + ((List.range (len / 2)).map (ld16 buff)).sum +
    (if len % 2 = 1 then buff (len - 1) else 0)
  t % 2 ^ 32 + t / 2 ^ 32

/-- The checksum as `csum_ipv6_magic` computes it: the complement of the folded sum of the
pseudo-header words and the incoming sum. -/
def csum_ipv6_magic_sum (saddr daddr : Mem) (len proto sum : Nat) : Nat :=
  let s := sum + pseudo6_sum saddr daddr len proto
  let s := s % 2 ^ 16 + s / 2 ^ 16
  let s := s % 2 ^ 16 + s / 2 ^ 16
  not16 s

/-- The two checksum functions above. -/
def csum_sum : csum_api :=
  { csum_partial := csum_partial_sum, csum_ipv6_magic := csum_ipv6_magic_sum }

/-- A pair that does not match the example packets: RFC6052 rules, remote IPv4 prefix
203.0.113.0/24; its local rule has no PSID. -/
def pair_A : nat46_xlate_rulepair_t :=
  { «local» :=
      { style := NAT46_XLATE_RFC6052, v6_pref := ofBytes [0x20, 0x01, 0x0d, 0xb8, 0, 0x0a],
        v6_pref_len := 96, v4_pref := 0, v4_pref_len := 0, ea_len := 0, psid_offset := 0 },
    remote :=
      { style := NAT46_XLATE_RFC6052, v6_pref := ofBytes [0x20, 0x01, 0x0d, 0xb8, 0xff, 0xff],
        v6_pref_len := 96, v4_pref := ld32 (ofBytes [203, 0, 113, 0]), v4_pref_len := 24,
        ea_len := 0, psid_offset := 0 } }

/-- The pair that matches the example packets: the local rule is MAP with 192.0.2.0/24,
`ea-len` 12 and `psid-offset` 2 (a PSID of 4 bits), the remote rule RFC6052 with 64:ff9b::/96
for 198.51.100.0/24. -/
def pair_B : nat46_xlate_rulepair_t :=
  { «local» := (pair_psid 2).local,
    remote :=
      { style := NAT46_XLATE_RFC6052, v6_pref := ofBytes [0x00, 0x64, 0xff, 0x9b],
        v6_pref_len := 96, v4_pref := ld32 (ofBytes [198, 51, 100, 0]), v4_pref_len := 24,
        ea_len := 0, psid_offset := 0 } }

/-- The instance with the pairs `pair_A` and `pair_B` in this order, its views built. -/
def instance_AB : nat46_instance_t := nat46_sort_rule_array (instance_of [pair_A, pair_B])

/-- An environment of `nat46_ipv4_input`: an IPv4 skb with enough headroom, the transport
header behind the 20-byte IPv4 header, the cursor of the CE ports at 0, and the given
`add_dummy_header` flag and contents of the local `apair`. -/
def env4 (add_dummy_header : Bool) (apair : nat46_xlate_rulepair_t) : ipv4_input_env :=
  { skb_protocol := ntohs ETH_P_IP, add_dummy_header := add_dummy_header, transport_header := 20,
    apair := apair, skb_headroom := 64, pskb_expand_head := 0, port_num := 0, S := skb_expand,
    K := csum_sum }

/-- An IPv4 UDP packet from 192.0.2.5 to 198.51.100.7 with ID 0xabcd, the given two bytes of
the flags and fragment offset field, the source port 0x5400 (PSID 5 under `pair_B`) and the
given two bytes of the UDP checksum. -/
def udp4_packet (frag_hi frag_lo check_hi check_lo : Nat) : Mem :=
  ofBytes
    [0x45, 0, 0, 28, 0xab, 0xcd, frag_hi, frag_lo, 64, 17, 0, 0, 192, 0, 2, 5, 198, 51, 100, 7,
     0x54, 0x00, 0x00, 0x35, 0, 8, check_hi, check_lo]

/-- The locals of `nat46_ipv6_input` for the unfragmented example UDP packet. -/
def l3_udp6 : ipv6_input_l3 :=
  { ip6h := ofBytes embedded_udp6, proto := NEXTHDR_UDP, frag_off := ntohs IP_DF, frag_id := 0,
    v6packet_l3size := IPV6HDRSIZE, l3_infrag_payload_len := 8, check_for_l4 := true,
    ip_id := 1 }


/-- The RFC6052 rule of the scenario: IPv6 prefix 2001:db8::/32, IPv4 prefix 192.0.2.0/24. -/
def rule_scenario6052 : nat46_xlate_rule_t :=
  { style := NAT46_XLATE_RFC6052, v6_pref := ofBytes [0x20, 0x01, 0x0d, 0xb8],
    v6_pref_len := 32, v4_pref := ld32 (ofBytes [192, 0, 2, 0]), v4_pref_len := 24,
    ea_len := 0, psid_offset := 0 }

/-- The address 2001:db8:c000:0200::1. -/
def addr_scenario6052 : List Nat :=
  [0x20, 0x01, 0x0d, 0xb8, 0xc0, 0x00, 0x02, 0x00, 0, 0, 0, 0, 0, 0, 0, 1]

/-- The digits of a decimal text, read from the left onto the accumulator. -/
def strtol_digits : List Char → Nat → Nat
  | [], acc => acc
  | c :: t, acc => if c.isDigit then strtol_digits t (acc * 10 + (c.toNat - 48)) else acc

/-- The value `simple_strtol(s, NULL, 10)` of a text that is an optional minus sign followed
by decimal digits. -/
def strtol_dec (s : List Char) : Int :=
  match s with
  | [] => 0
  | c :: t => if c = Char.ofNat 45 then -(strtol_digits t 0 : Int) else (strtol_digits s 0 : Int)

/-- A kernel whose `simple_strtol` reads decimal numbers and whose address parsers accept every
text and leave the destination as it is; it stands in where only the prefix length matters. -/
def kernel_dec : kernel_api :=
  { simple_strtol := strtol_dec, in6_pton := fun _ m => (1, m), in4_pton := fun _ a => (1, a) }


/-- The MAP rule of the interface-identifier scenario: 2001:db8::/48, 192.0.2.0/24, `ea-len`
16, `psid-offset` 6. -/
def rule_map_iid : nat46_xlate_rule_t :=
  { style := NAT46_XLATE_MAP, v6_pref := ofBytes [0x20, 0x01, 0x0d, 0xb8],
    v6_pref_len := 48, v4_pref := ld32 (ofBytes [192, 0, 2, 0]), v4_pref_len := 24,
    ea_len := 16, psid_offset := 6 }

/-- The MAP0 rule 2001:db8::/32, 192.0.2.0/24, `ea-len` 16, `psid-offset` 6. -/
def rule_map0_iid : nat46_xlate_rule_t :=
  { style := NAT46_XLATE_MAP0, v6_pref := ofBytes [0x20, 0x01, 0x0d, 0xb8],
    v6_pref_len := 32, v4_pref := ld32 (ofBytes [192, 0, 2, 0]), v4_pref_len := 24,
    ea_len := 16, psid_offset := 6 }


/-- The pair whose local rule is MAP with IPv4 prefix 192.0.2.0/24, `ea-len` 9 and
`psid-offset` 2147483647 (the largest `int`), and whose remote rule is the RFC6052 rule with
the well-known prefix. -/
def pair_overflow : nat46_xlate_rulepair_t :=
  { «local» := { style := NAT46_XLATE_MAP, v6_pref := ofBytes [0x20, 0x01, 0x0d, 0xb8],
                 v6_pref_len := 48, v4_pref := ld32 (ofBytes [192, 0, 2, 0]), v4_pref_len := 24,
                 ea_len := 9, psid_offset := 2147483647 },
    remote := rule_wkp }

/-! ## Theorems -/

/-- For a count in 0..31 the shift of a `u32` is the mathematical shift, truncated to 32
bits. -/
theorem shl32_eq (x : Nat) (n : Int) (h0 : 0 ≤ n) (h1 : n < 32) :
    shl32 x n = (x <<< n.toNat) % 2 ^ 32 := by
  unfold shl32
  rw [Int.emod_eq_of_lt h0 h1]

theorem memcmp_ne_eq_false (a b : Mem) (n : Nat) :
    memcmp_ne a b n = false ↔ ∀ i < n, a i = b i := by
  induction n with
  | zero => simp [memcmp_ne]
  | succ n ih =>
    simp only [memcmp_ne, Bool.or_eq_false_iff, ih, decide_eq_false_iff_not, not_not]
    constructor
    · rintro ⟨h1, h2⟩ i hi
      rcases Nat.lt_succ_iff_lt_or_eq.mp hi with h | h
      · exact h1 i h
      · subst h; exact h2
    · intro h
      exact ⟨fun i hi => h i (Nat.lt_succ_of_lt hi), h n (Nat.lt_succ_self n)⟩

theorem isBytes_ofBytes (l : List Nat) (h : ∀ b ∈ l, b < 256) : IsBytes (ofBytes l) := by
  intro i
  unfold ofBytes
  by_cases hi : i < l.length
  · rw [List.getD_eq_getElem _ _ hi]
    exact h _ (List.getElem_mem _)
  · rw [List.getD_eq_default _ _ (by omega)]
    decide

theorem xlate_v4_to_nat64_head (rule : nat46_xlate_rule_t) (a buf6 : Mem)
    (hlen : rule.v6_pref_len = 32 ∨ rule.v6_pref_len = 40 ∨ rule.v6_pref_len = 48 ∨
      rule.v6_pref_len = 56 ∨ rule.v6_pref_len = 64 ∨ rule.v6_pref_len = 96)
    (i : Nat) (hi : (i : Int) * 8 < rule.v6_pref_len) :
    xlate_v4_to_nat64 rule a buf6 i = rule.v6_pref i := by
  rcases hlen with h | h | h | h | h | h
  all_goals
    rw [h] at hi
    have hi' : i < 12 := by omega
    simp only [xlate_v4_to_nat64, h]
    interval_cases i <;> first | omega | simp [memcpy, memset, store]

/-- C1: RFC6052 round trip.  For every rule whose `v6_pref_len` is one of 32, 40, 48, 56, 64,
96 (any prefix bytes), every IPv4 address buffer `a` and any prior contents of the two output
buffers, decoding the sixteen bytes written by `xlate_v4_to_nat64` with `xlate_nat64_to_v4`
returns 1 and writes exactly the four bytes of `a` (bytes after the fourth are left alone). -/
theorem rfc6052_round_trip (rule : nat46_xlate_rule_t) (a buf6 buf4 : Mem)
    (hlen : rule.v6_pref_len = 32 ∨ rule.v6_pref_len = 40 ∨ rule.v6_pref_len = 48 ∨
      rule.v6_pref_len = 56 ∨ rule.v6_pref_len = 64 ∨ rule.v6_pref_len = 96) :
    (xlate_nat64_to_v4 rule (xlate_v4_to_nat64 rule a buf6) buf4).1 = 1 ∧
    (∀ i, i < 4 → (xlate_nat64_to_v4 rule (xlate_v4_to_nat64 rule a buf6) buf4).2 i = a i) ∧
    (∀ i, 4 ≤ i → (xlate_nat64_to_v4 rule (xlate_v4_to_nat64 rule a buf6) buf4).2 i = buf4 i) := by
  have hcmp : ∀ n : Nat, (n : Int) * 8 ≤ rule.v6_pref_len →
      memcmp_ne (xlate_v4_to_nat64 rule a buf6) rule.v6_pref n = false := by
    intro n hn
    rw [memcmp_ne_eq_false]
    intro i hi
    exact xlate_v4_to_nat64_head rule a buf6 hlen i (by omega)
  rcases hlen with h | h | h | h | h | h
  · have hc := hcmp 4 (by rw [h]; decide)
    refine ⟨by simp [xlate_nat64_to_v4, h, hc], fun i hi => ?_, fun i hi => ?_⟩
    · simp only [xlate_nat64_to_v4, h, hc]
      interval_cases i <;> simp [xlate_v4_to_nat64, h, memcpy, memset, store]
    · simp only [xlate_nat64_to_v4, h, hc]
      simp [memcpy, store]
      omega
  · have hc := hcmp 5 (by rw [h]; decide)
    refine ⟨by simp [xlate_nat64_to_v4, h, hc], fun i hi => ?_, fun i hi => ?_⟩
    · simp only [xlate_nat64_to_v4, h, hc]
      interval_cases i <;> simp [xlate_v4_to_nat64, h, memcpy, memset, store]
    · simp only [xlate_nat64_to_v4, h, hc]
      have h3 : i ≠ 3 := by omega
      simp [memcpy, store, h3]
      omega
  · have hc := hcmp 6 (by rw [h]; decide)
    refine ⟨by simp [xlate_nat64_to_v4, h, hc], fun i hi => ?_, fun i hi => ?_⟩
    · simp only [xlate_nat64_to_v4, h, hc]
      interval_cases i <;> simp [xlate_v4_to_nat64, h, memcpy, memset, store]
    · simp only [xlate_nat64_to_v4, h, hc]
      have h0 : i ≠ 0 := by omega
      have h1 : i ≠ 1 := by omega
      have h2 : i ≠ 2 := by omega
      have h3 : i ≠ 3 := by omega
      simp [store, h0, h1, h2, h3]
  · have hc := hcmp 7 (by rw [h]; decide)
    refine ⟨by simp [xlate_nat64_to_v4, h, hc], fun i hi => ?_, fun i hi => ?_⟩
    · simp only [xlate_nat64_to_v4, h, hc]
      interval_cases i <;> simp [xlate_v4_to_nat64, h, memcpy, memset, store]
    · simp only [xlate_nat64_to_v4, h, hc]
      have h0 : i ≠ 0 := by omega
      have h1 : i ≠ 1 := by omega
      have h2 : i ≠ 2 := by omega
      have h3 : i ≠ 3 := by omega
      simp [store, h0, h1, h2, h3]
  · have hc := hcmp 8 (by rw [h]; decide)
    refine ⟨by simp [xlate_nat64_to_v4, h, hc], fun i hi => ?_, fun i hi => ?_⟩
    · simp only [xlate_nat64_to_v4, h, hc]
      interval_cases i <;> simp [xlate_v4_to_nat64, h, memcpy, memset, store]
    · simp only [xlate_nat64_to_v4, h, hc]
      simp [memcpy, store]
      omega
  · have hc := hcmp 12 (by rw [h]; decide)
    refine ⟨by simp [xlate_nat64_to_v4, h, hc], fun i hi => ?_, fun i hi => ?_⟩
    · simp only [xlate_nat64_to_v4, h, hc]
      interval_cases i <;> simp [xlate_v4_to_nat64, h, memcpy, memset, store]
    · simp only [xlate_nat64_to_v4, h, hc]
      simp [memcpy, store]
      omega

/-- The RFC6052 round trip at the rule 2001:db8::/32 and the address 192.0.2.1. -/
theorem rfc6052_round_trip_witness :
    (xlate_nat64_to_v4 rule6052 (xlate_v4_to_nat64 rule6052 (ofBytes [192, 0, 2, 1])
      (ofBytes [])) (ofBytes [])).1 = 1 ∧
    (∀ i, i < 4 → (xlate_nat64_to_v4 rule6052 (xlate_v4_to_nat64 rule6052
      (ofBytes [192, 0, 2, 1]) (ofBytes [])) (ofBytes [])).2 i = ofBytes [192, 0, 2, 1] i) ∧
    (∀ i, 4 ≤ i → (xlate_nat64_to_v4 rule6052 (xlate_v4_to_nat64 rule6052
      (ofBytes [192, 0, 2, 1]) (ofBytes [])) (ofBytes [])).2 i = ofBytes [] i) :=
  rfc6052_round_trip rule6052 (ofBytes [192, 0, 2, 1]) (ofBytes []) (ofBytes [])
    (Or.inl rfl)

/-! ### The bit copy at concrete inputs -/

/-- C3 (the code at the failing input): copying the 8 zero bits at source offset 1 onto a
destination byte `0xff` at offset 0 leaves `0x55` in the destination: destination bit 1 is
still set although source bit 2 is clear.  The first destination byte is masked with
`reverse_mask[0] = 0x55` instead of being overwritten. -/
theorem bitarray_copy_leaks_old_bits :
    bitarray_copy (ofBytes [0, 0]) 1 8 (ofBytes [0xff]) 0 0 = 0x55 ∧
    getBit (bitarray_copy (ofBytes [0, 0]) 1 8 (ofBytes [0xff]) 0) (0 + 1) = true ∧
    getBit (ofBytes [0, 0]) (1 + 1) = false := by
  decide

/-- C4 (the code at the failing input): copying 3 bits from offset 2 to offset 2 of a
destination byte `0xff` gives `0xc3`: bit 5, the first bit after the copied range
`[2, 5)`, was set before the call and is clear after it. -/
theorem bitarray_copy_clears_next_bit :
    bitarray_copy (ofBytes [0]) 2 3 (ofBytes [0xff]) 2 0 = 0xc3 ∧
    getBit (ofBytes [0xff]) 5 = true ∧
    getBit (bitarray_copy (ofBytes [0]) 2 3 (ofBytes [0xff]) 2) 5 = false := by
  decide

/-! ### The MAP codec at a concrete input -/

/-- C2 (the code at the failing input): the MAP rule 2001:db8::/80, 192.0.0.0/20, `ea-len` 12,
`psid-offset` 0 meets the conditions of the claim (`ea_len <= 48`, `ea_len >= 32 - v4_pref_len`,
no PSID bits, `v6_pref_len + ea_len <= 128`, host bits of the IPv4 prefix zero).  For the
in-domain address 192.0.0.1 and port 0x1840, `xlate_map_v4_to_v6` succeeds and writes `40 10`
into bytes 10 and 11 (the EA bits `001` preceded by stale bits of the interface identifier),
and `xlate_map_v6_to_v4` of that output succeeds and returns 192.0.4.1. -/
theorem map_round_trip_fails :
    (rule_map80.ea_len ≤ 48 ∧ rule_map80.ea_len ≥ 32 - rule_map80.v4_pref_len ∧
      rule_map80.v6_pref_len + rule_map80.ea_len ≤ 128 ∧
      ntohl rule_map80.v4_pref % 2 ^ 12 = 0 ∧
      ntohl (ld32 (ofBytes [192, 0, 0, 1])) / 2 ^ 12 = ntohl rule_map80.v4_pref / 2 ^ 12) ∧
    (xlate_map_v4_to_v6 rule_map80 (ofBytes [192, 0, 0, 1]) (ofBytes []) (some 0x4018) 1
      (ofBytes [])).1 = 1 ∧
    (List.range 16).map (xlate_map_v4_to_v6 rule_map80 (ofBytes [192, 0, 0, 1]) (ofBytes [])
      (some 0x4018) 1 (ofBytes [])).2 =
      [0x20, 0x01, 0x0d, 0xb8, 0, 0, 0, 0, 0, 0, 0x40, 0x10, 0, 1, 0, 0] ∧
    (xlate_map_v6_to_v4 rule_map80 (xlate_map_v4_to_v6 rule_map80 (ofBytes [192, 0, 0, 1])
      (ofBytes []) (some 0x4018) 1 (ofBytes [])).2 (ofBytes [])).1 = 1 ∧
    (List.range 4).map (xlate_map_v6_to_v4 rule_map80 (xlate_map_v4_to_v6 rule_map80
      (ofBytes [192, 0, 0, 1]) (ofBytes []) (some 0x4018) 1 (ofBytes [])).2
      (ofBytes [])).2 = [192, 0, 4, 1] := by
  decide

/-! ### Checksums -/

theorem ntohs_lt (x : Nat) : ntohs x < 2 ^ 16 := by
  unfold ntohs
  omega

theorem ntohs_mul (x : Nat) (hx : x < 2 ^ 16) : 256 * x = ntohs x + 0xffff * (x / 256) := by
  unfold ntohs
  omega

theorem ntohs_not (x : Nat) (hx : x < 2 ^ 16) : 0xffff - ntohs (0xffff - x) = ntohs x := by
  unfold ntohs
  omega

theorem and_ffff (s : Nat) : s &&& 0xffff = s % 2 ^ 16 := by
  have h : (0xffff : Nat) = 2 ^ 16 - 1 := by decide
  rw [h, Nat.and_pow_two_sub_one_eq_mod]

theorem csum16_upd_lt (csum old new : Nat) : csum16_upd csum old new < 2 ^ 16 :=
  ntohs_lt _

theorem mod_eq_of_int_eq {x y : Nat} (k : Int) (h : (x : Int) = y + 0xffff * k) :
    x % 0xffff = y % 0xffff := by
  have h2 : (x : Int) % 0xffff = (y : Int) % 0xffff := by
    rw [h, Int.add_mul_emod_self_left]
  exact_mod_cast h2

/-- The update in arithmetic form: the new checksum plus the new word is congruent to the old
checksum plus the old word. -/
theorem csum16_upd_mod (csum old new : Nat) (hc : csum < 2 ^ 16) (ho : old < 2 ^ 16)
    (hn : new < 2 ^ 16) :
    (csum16_upd csum old new + new) % 0xffff = (csum + old) % 0xffff := by
  have n1 : not16 csum = 0xffff - csum := by unfold not16; omega
  have n2 : not16 old = 0xffff - old := by unfold not16; omega
  unfold csum16_upd
  simp only [and_ffff, Nat.shiftRight_eq_div_pow]
  rw [n1, n2]
  obtain ⟨A, a1, hA, hAb⟩ : ∃ A a1, 256 * (0xffff - csum) = A + 0xffff * a1 ∧
      ntohs (0xffff - csum) = A := ⟨_, _, ntohs_mul _ (by omega), rfl⟩
  obtain ⟨B, a2, hB, hBb⟩ : ∃ B a2, 256 * (0xffff - old) = B + 0xffff * a2 ∧
      ntohs (0xffff - old) = B := ⟨_, _, ntohs_mul _ (by omega), rfl⟩
  obtain ⟨C, a3, hC, hCb⟩ : ∃ C a3, 256 * new = C + 0xffff * a3 ∧ ntohs new = C :=
    ⟨_, _, ntohs_mul _ hn, rfl⟩
  have b1 : A < 2 ^ 16 := hAb ▸ ntohs_lt _
  have b2 : B < 2 ^ 16 := hBb ▸ ntohs_lt _
  have b3 : C < 2 ^ 16 := hCb ▸ ntohs_lt _
  rw [hAb, hBb, hCb]
  have hs0 : (A + B + C) % 2 ^ 32 = A + B + C := Nat.mod_eq_of_lt (by omega)
  rw [hs0]
  clear hAb hBb hCb hs0 n1 n2
  generalize hs : A + B + C = s at *
  have hsb : s < 196606 := by omega
  have hdm := Nat.div_add_mod s (2 ^ 16)
  have hr := Nat.mod_lt s (show 0 < 2 ^ 16 by decide)
  have hg : s / 2 ^ 16 ≤ 2 := by clear hA hB hC hs; omega
  generalize s / 2 ^ 16 = g at *
  generalize s % 2 ^ 16 = r at *
  rw [Nat.mod_eq_of_lt (show g < 2 ^ 16 by omega),
    Nat.mod_eq_of_lt (show g + r < 2 ^ 32 by omega)]
  have hdm2 := Nat.div_add_mod (g + r) (2 ^ 16)
  have hr2 := Nat.mod_lt (g + r) (show 0 < 2 ^ 16 by decide)
  have hg2 : (g + r) / 2 ^ 16 ≤ 1 := by clear hA hB hC hs hdm; omega
  generalize (g + r) / 2 ^ 16 = g2 at *
  generalize (g + r) % 2 ^ 16 = r2 at *
  rw [Nat.mod_eq_of_lt (show g2 < 2 ^ 16 by omega),
    Nat.mod_eq_of_lt (show g + r + g2 < 2 ^ 32 by omega)]
  obtain ⟨T, hT, hq2, hTb⟩ : ∃ T, (0xffffffff - (g + r + g2)) % 2 ^ 16 = 0xffff - T ∧
      g + r = T + 0xffff * g2 ∧ T < 2 ^ 16 := by
    have h01 : g2 = 0 ∨ g2 = 1 := by omega
    rcases h01 with h0 | h0
    · subst h0
      exact ⟨r2, by clear hA hB hC hs hdm; omega, by omega, by omega⟩
    · subst h0
      exact ⟨r2 + 1, by clear hA hB hC hs hdm; omega, by clear hA hB hC hs hdm; omega,
        by clear hA hB hC hs hdm; omega⟩
  rw [hT]
  have h4 := ntohs_not T hTb
  have h5 := ntohs_mul T hTb
  have b4 := ntohs_lt (0xffff - T)
  have b5 := ntohs_lt T
  generalize ntohs (0xffff - T) = R at *
  generalize ntohs T = U at *
  generalize T / 256 = t1 at *
  clear hT hdm2 hr2
  apply mod_eq_of_int_eq
    (1 - 131072 + csum + old - new + 256 * ((a1 : Int) + a2 + a3 + g + g2) + t1)
  omega

theorem ld16_lt (p : Mem) (hp : IsBytes p) (i : Nat) : ld16 p i < 2 ^ 16 := by
  have h0 := hp (2 * i)
  have h1 := hp (2 * i + 1)
  unfold ld16
  omega

theorem ntohs_zero : ntohs 0 = 0 := by decide

/-- Removing a word: `csum16_upd(csum, w, 0)` is congruent to `csum + w`. -/
theorem csum16_upd_remove (csum w : Nat) (hc : csum < 2 ^ 16) (hw : w < 2 ^ 16) :
    csum16_upd csum w 0 ≡ csum + w [MOD 0xffff] := by
  have h := csum16_upd_mod csum w 0 hc hw (by decide)
  simpa [Nat.ModEq] using h

/-- Adding a word: `csum16_upd(csum, 0, w) + w` is congruent to `csum`. -/
theorem csum16_upd_add (csum w : Nat) (hc : csum < 2 ^ 16) (hw : w < 2 ^ 16) :
    csum16_upd csum 0 w + w ≡ csum [MOD 0xffff] := by
  have h := csum16_upd_mod csum 0 w hc (by decide) hw
  simpa [Nat.ModEq] using h

theorem csum_unmagic_words_lt (p : Mem) (count : Nat) :
    ∀ i c, c < 2 ^ 16 → csum_unmagic_words p count i c < 2 ^ 16 := by
  induction count with
  | zero => intro i c hc; exact hc
  | succ n ih => intro i c _; exact ih _ _ (csum16_upd_lt _ _ _)

theorem csum_unmagic_words_mod (p : Mem) (hp : IsBytes p) (count : Nat) :
    ∀ i c, c < 2 ^ 16 →
      csum_unmagic_words p count i c ≡
        c + ((List.range count).map (fun k => ld16 p (i + k))).sum [MOD 0xffff] := by
  induction count with
  | zero => intro i c _; simp [csum_unmagic_words, Nat.ModEq]
  | succ n ih =>
    intro i c hc
    have h1 := ih (i + 1) (csum16_upd c (ld16 p i) 0) (csum16_upd_lt _ _ _)
    have h2 := csum16_upd_remove c (ld16 p i) hc (ld16_lt p hp i)
    have hsum : ((List.range (n + 1)).map (fun k => ld16 p (i + k))).sum =
        ld16 p i + ((List.range n).map (fun k => ld16 p (i + 1 + k))).sum := by
      have hf : ((fun k => ld16 p (i + k)) ∘ Nat.succ) = fun k => ld16 p (i + 1 + k) := by
        funext k
        simp only [Function.comp]
        congr 1
        omega
      rw [List.range_succ_eq_map, List.map_cons, List.sum_cons, List.map_map, hf, Nat.add_zero]
    rw [hsum, ← Nat.add_assoc]
    exact h1.trans (h2.add_right _)

/-- C8: incremental checksum update.  For all 16-bit `csum`, `old`, `new`, the result `r` of
`csum16_upd` is a 16-bit value whose complement is congruent modulo `0xFFFF` to
`~csum - old + new` (RFC 1624, eqn. 3); hence, if `csum` is a valid checksum of a message made
of the word `old` and other words adding up to `rest`, then `r` is a valid checksum of the
message with `old` replaced by `new`. -/
theorem csum16_upd_rfc1624 (csum old new : Nat) (hc : csum < 2 ^ 16) (ho : old < 2 ^ 16)
    (hn : new < 2 ^ 16) :
    csum16_upd csum old new < 2 ^ 16 ∧
    ((not16 (csum16_upd csum old new) : Int) - ((not16 csum : Int) - old + new)) % 0xffff = 0 ∧
    (∀ rest, csum_valid csum (old + rest) → csum_valid (csum16_upd csum old new) (new + rest)) := by
  have hlt := csum16_upd_lt csum old new
  have hmod := csum16_upd_mod csum old new hc ho hn
  refine ⟨hlt, ?_, ?_⟩
  · have h1 : not16 (csum16_upd csum old new) = 0xffff - csum16_upd csum old new := by
      unfold not16; omega
    have h2 : not16 csum = 0xffff - csum := by unfold not16; omega
    rw [h1, h2]
    generalize csum16_upd csum old new = r at *
    have h3 : ((csum + old : Nat) : Int) % 0xffff = ((r + new : Nat) : Int) % 0xffff := by
      exact_mod_cast hmod.symm
    have h4 := Int.emod_eq_emod_iff_emod_sub_eq_zero.mp h3
    have h5 : ((0xffff - r : Nat) : Int) - (((0xffff - csum : Nat) : Int) - old + new) =
        ((csum + old : Nat) : Int) - ((r + new : Nat) : Int) := by omega
    rw [h5]
    exact h4
  · intro rest hv
    unfold csum_valid at hv ⊢
    have h : csum16_upd csum old new + new + rest ≡ csum + old + rest [MOD 0xffff] :=
      Nat.ModEq.add_right rest hmod
    rw [← Nat.add_assoc, h, Nat.add_assoc]
    exact hv

/-- The checksum update at `csum = 0xb1e6`, replacing the word `0x0800` by `0x0000`. -/
theorem csum16_upd_rfc1624_witness :
    csum16_upd 0xb1e6 0x0800 0x0000 < 2 ^ 16 ∧
    ((not16 (csum16_upd 0xb1e6 0x0800 0x0000) : Int) -
      ((not16 0xb1e6 : Int) - (0x0800 : Nat) + (0x0000 : Nat))) % 0xffff = 0 ∧
    (∀ rest, csum_valid 0xb1e6 (0x0800 + rest) →
      csum_valid (csum16_upd 0xb1e6 0x0800 0x0000) (0x0000 + rest)) :=
  csum16_upd_rfc1624 0xb1e6 0x0800 0x0000 (by decide) (by decide) (by decide)

/-- C7: checksum invariance from IPv6 to IPv4.  For byte addresses `s6`, `d6`, any IPv4
addresses `s4`, `d4`, a transport length `len <= 65535`, a protocol number `p < 256` and a
16-bit checksum `c` that is valid for a payload (whose words add up to `payload`) under the
IPv6 pseudo-header `(s6, d6, len, p)`, the value
`csum_tcpudp_remagic(s4, d4, len, p, csum_ipv6_unmagic(s6, d6, len, p, c))` is a 16-bit value
that is valid for the same payload under the IPv4 pseudo-header `(s4, d4, len, p)`. -/
theorem csum_ipv6_to_ipv4_valid (s6 d6 : Mem) (s4 d4 len p c payload : Nat)
    (hs6 : IsBytes s6) (hd6 : IsBytes d6) (hlen : len ≤ 65535) (hp : p < 256)
    (hc : c < 2 ^ 16) (hvalid : csum_valid c (pseudo6_sum s6 d6 len p + payload)) :
    csum_tcpudp_remagic s4 d4 len p (csum_ipv6_unmagic s6 d6 len p c) < 2 ^ 16 ∧
    csum_valid (csum_tcpudp_remagic s4 d4 len p (csum_ipv6_unmagic s6 d6 len p c))
      (pseudo4_sum s4 d4 len p + payload) := by
  have hl32 : len % 2 ^ 32 = len := Nat.mod_eq_of_lt (by omega)
  have hl16 : len % 2 ^ 16 = len := Nat.mod_eq_of_lt (by omega)
  have hlh : len / 2 ^ 16 % 2 ^ 16 = 0 := by omega
  have hp16 : p % 2 ^ 16 = p := Nat.mod_eq_of_lt (by omega)
  have hp8 : p % 2 ^ 8 = p := Nat.mod_eq_of_lt (by omega)
  have hun : csum_ipv6_unmagic s6 d6 len p c =
      csum16_upd (csum16_upd (csum16_upd (csum_unmagic_words d6 8 0 (csum_unmagic_words s6 8 0 c))
        (ntohs p) 0) (ntohs (len / 2 ^ 16 % 2 ^ 16)) 0) (ntohs (len % 2 ^ 16)) 0 := by
    simp only [csum_ipv6_unmagic, and_ffff, Nat.shiftRight_eq_div_pow, hl32, hp16]
  have hre : ∀ x, csum_tcpudp_remagic s4 d4 len p x =
      csum16_upd (csum16_upd (csum16_upd (csum16_upd (csum16_upd (csum16_upd (csum16_upd x 0
        (s4 % 2 ^ 16)) 0 (s4 / 2 ^ 16 % 2 ^ 16)) 0 (d4 % 2 ^ 16)) 0 (d4 / 2 ^ 16 % 2 ^ 16)) 0
        (ntohs p)) 0 0) 0 (ntohs len) := by
    intro x
    simp only [csum_tcpudp_remagic, and_ffff, Nat.shiftRight_eq_div_pow, hl16, hp8, hlh,
      ntohs_zero, Nat.mod_mod]
  rw [hre, hun]
  have hM : ∀ {a b : Nat}, a ≡ b [MOD 0xffff] → (a : ZMod 0xffff) = b :=
    fun h => (ZMod.eq_iff_modEq_nat _).mpr h
  -- the IPv6 side: the result is congruent to `c` plus the pseudo-header words
  have u1 := hM (csum_unmagic_words_mod s6 hs6 8 0 c hc)
  have l1 := csum_unmagic_words_lt s6 8 0 c hc
  generalize csum_unmagic_words s6 8 0 c = c1 at u1 l1
  have u2 := hM (csum_unmagic_words_mod d6 hd6 8 0 c1 l1)
  have l2 := csum_unmagic_words_lt d6 8 0 c1 l1
  generalize csum_unmagic_words d6 8 0 c1 = c2 at u2 l2
  have u3 := hM (csum16_upd_remove c2 (ntohs p) l2 (ntohs_lt _))
  have l3 := csum16_upd_lt c2 (ntohs p) 0
  generalize csum16_upd c2 (ntohs p) 0 = c3 at u3 l3
  have u4 := hM (csum16_upd_remove c3 (ntohs (len / 2 ^ 16 % 2 ^ 16)) l3 (ntohs_lt _))
  have l4 := csum16_upd_lt c3 (ntohs (len / 2 ^ 16 % 2 ^ 16)) 0
  generalize csum16_upd c3 (ntohs (len / 2 ^ 16 % 2 ^ 16)) 0 = c4 at u4 l4
  have u5 := hM (csum16_upd_remove c4 (ntohs (len % 2 ^ 16)) l4 (ntohs_lt _))
  have l5 := csum16_upd_lt c4 (ntohs (len % 2 ^ 16)) 0
  generalize csum16_upd c4 (ntohs (len % 2 ^ 16)) 0 = c5 at u5 l5
  -- the IPv4 side: the result plus the pseudo-header words is congruent to the input
  have a1 := hM (csum16_upd_add c5 (s4 % 2 ^ 16) l5 (Nat.mod_lt _ (by decide)))
  have m1 := csum16_upd_lt c5 0 (s4 % 2 ^ 16)
  generalize csum16_upd c5 0 (s4 % 2 ^ 16) = x1 at a1 m1
  have a2 := hM (csum16_upd_add x1 (s4 / 2 ^ 16 % 2 ^ 16) m1 (Nat.mod_lt _ (by decide)))
  have m2 := csum16_upd_lt x1 0 (s4 / 2 ^ 16 % 2 ^ 16)
  generalize csum16_upd x1 0 (s4 / 2 ^ 16 % 2 ^ 16) = x2 at a2 m2
  have a3 := hM (csum16_upd_add x2 (d4 % 2 ^ 16) m2 (Nat.mod_lt _ (by decide)))
  have m3 := csum16_upd_lt x2 0 (d4 % 2 ^ 16)
  generalize csum16_upd x2 0 (d4 % 2 ^ 16) = x3 at a3 m3
  have a4 := hM (csum16_upd_add x3 (d4 / 2 ^ 16 % 2 ^ 16) m3 (Nat.mod_lt _ (by decide)))
  have m4 := csum16_upd_lt x3 0 (d4 / 2 ^ 16 % 2 ^ 16)
  generalize csum16_upd x3 0 (d4 / 2 ^ 16 % 2 ^ 16) = x4 at a4 m4
  have a5 := hM (csum16_upd_add x4 (ntohs p) m4 (ntohs_lt _))
  have m5 := csum16_upd_lt x4 0 (ntohs p)
  generalize csum16_upd x4 0 (ntohs p) = x5 at a5 m5
  have a6 := hM (csum16_upd_add x5 0 m5 (by decide))
  have m6 := csum16_upd_lt x5 0 0
  generalize csum16_upd x5 0 0 = x6 at a6 m6
  have a7 := hM (csum16_upd_add x6 (ntohs len) m6 (ntohs_lt _))
  have m7 := csum16_upd_lt x6 0 (ntohs len)
  generalize csum16_upd x6 0 (ntohs len) = x7 at a7 m7
  refine ⟨m7, ?_⟩
  have hv := hM (show c + (pseudo6_sum s6 d6 len p + payload) ≡ 0 [MOD 0xffff] from hvalid)
  unfold csum_valid
  show x7 + (pseudo4_sum s4 d4 len p + payload) ≡ 0 [MOD 0xffff]
  apply (ZMod.eq_iff_modEq_nat _).mp
  simp only [pseudo6_sum, pseudo4_sum, Nat.zero_add] at *
  push_cast at *
  linear_combination a1 + a2 + a3 + a4 + a5 + a6 + a7 + u1 + u2 + u3 + u4 + u5 + hv

/-- The checksum change from 2001:db8::1, 2001:db8::2 to 192.0.2.1, 192.0.2.2 for a TCP
segment of 20 bytes whose checksum `0x70a4` is valid under the IPv6 pseudo-header. -/
theorem csum_ipv6_to_ipv4_valid_witness :
    csum_tcpudp_remagic 0x010200c0 0x020200c0 20 6
      (csum_ipv6_unmagic (ofBytes [0x20, 0x01, 0x0d, 0xb8, 0, 0, 0, 0, 0, 0, 0, 0, 0, 0, 0, 1])
        (ofBytes [0x20, 0x01, 0x0d, 0xb8, 0, 0, 0, 0, 0, 0, 0, 0, 0, 0, 0, 2]) 20 6 0x70a4)
      < 2 ^ 16 ∧
    csum_valid (csum_tcpudp_remagic 0x010200c0 0x020200c0 20 6
      (csum_ipv6_unmagic (ofBytes [0x20, 0x01, 0x0d, 0xb8, 0, 0, 0, 0, 0, 0, 0, 0, 0, 0, 0, 1])
        (ofBytes [0x20, 0x01, 0x0d, 0xb8, 0, 0, 0, 0, 0, 0, 0, 0, 0, 0, 0, 2]) 20 6 0x70a4))
      (pseudo4_sum 0x010200c0 0x020200c0 20 6 + 0) :=
  csum_ipv6_to_ipv4_valid
    (ofBytes [0x20, 0x01, 0x0d, 0xb8, 0, 0, 0, 0, 0, 0, 0, 0, 0, 0, 0, 1])
    (ofBytes [0x20, 0x01, 0x0d, 0xb8, 0, 0, 0, 0, 0, 0, 0, 0, 0, 0, 0, 2])
    0x010200c0 0x020200c0 20 6 0x70a4 0
    (isBytes_ofBytes _ (by decide)) (isBytes_ofBytes _ (by decide)) (by decide) (by decide)
    (by decide) (by unfold csum_valid; decide)

/-! ### The sort -/

theorem sort_inner_out_of_range (key : nat46_xlate_rulepair_t → Int) (count : Nat) :
    ∀ (j : Nat) (array : List nat46_xlate_rulepair_t), array.length ≤ j + 1 →
      sort_inner key count j array = array := by
  induction count with
  | zero => intro j array _; rfl
  | succ n ih =>
    intro j array h
    have hn : array[j + 1]? = none := List.getElem?_eq_none (by omega)
    have hl : sort_less key array j = false := by
      unfold sort_less
      rw [hn]
      cases array[j]? <;> rfl
    simp only [sort_inner, hl]
    exact ih (j + 1) array (by omega)

theorem sort_inner_eq_sweep (key : nat46_xlate_rulepair_t → Int) (count : Nat) :
    ∀ (pre l : List nat46_xlate_rulepair_t),
      sort_inner key count pre.length (pre ++ l) = pre ++ sweep key count l := by
  induction count with
  | zero => intro pre l; rfl
  | succ n ih =>
    intro pre l
    match l with
    | [] =>
      rw [sort_inner_out_of_range key (n + 1) pre.length (pre ++ []) (by simp)]
      simp [sweep]
    | [a] =>
      rw [sort_inner_out_of_range key (n + 1) pre.length (pre ++ [a]) (by simp)]
      simp [sweep]
    | a :: b :: t =>
      have h0 : (pre ++ a :: b :: t)[pre.length]? = some a := by
        rw [List.getElem?_append_right (le_refl _)]
        simp
      have h1 : (pre ++ a :: b :: t)[pre.length + 1]? = some b := by
        rw [List.getElem?_append_right (by omega)]
        simp
      have hl : sort_less key (pre ++ a :: b :: t) pre.length = decide (key a < key b) := by
        simp only [sort_less, h0, h1]
      have hs : nat46_swap (pre ++ a :: b :: t) pre.length = (pre ++ [b]) ++ a :: t := by
        simp only [nat46_swap, h0, h1]
        rw [List.set_append_right _ _ (le_refl _), List.set_append_right _ _ (by omega)]
        simp
      simp only [sort_inner, hl]
      by_cases hk : key a < key b
      · simp only [hk, decide_True, if_true, hs, sweep]
        have := ih (pre ++ [b]) (a :: t)
        simp only [List.length_append, List.length_singleton] at this
        rw [this]
        simp
      · simp only [hk, decide_False, if_false, sweep, Bool.false_eq_true]
        have := ih (pre ++ [a]) (b :: t)
        simp only [List.length_append, List.length_singleton, List.append_assoc,
          List.singleton_append] at this
        rw [this]

theorem sweep_perm (key : nat46_xlate_rulepair_t → Int) (n : Nat) :
    ∀ l : List nat46_xlate_rulepair_t, (sweep key n l).Perm l := by
  induction n with
  | zero => intro l; exact List.Perm.refl _
  | succ n ih =>
    intro l
    match l with
    | [] => exact List.Perm.refl _
    | [a] => exact List.Perm.refl _
    | a :: b :: t =>
      simp only [sweep]
      split
      · exact ((ih (a :: t)).cons b).trans (List.Perm.swap a b t)
      · exact (ih (b :: t)).cons a

theorem sweep_append (key : nat46_xlate_rulepair_t → Int) (n : Nat) :
    ∀ (f b : List nat46_xlate_rulepair_t), n + 1 ≤ f.length →
      sweep key n (f ++ b) = sweep key n f ++ b := by
  induction n with
  | zero => intro f b _; rfl
  | succ n ih =>
    intro f b h
    rcases f with _ | ⟨x, _ | ⟨y, t⟩⟩
    · simp at h
    · simp at h
    · have h1 := ih (x :: t) b (by simp at h ⊢; omega)
      have h2 := ih (y :: t) b (by simp at h ⊢; omega)
      simp only [List.cons_append] at h1 h2
      have e1 : sweep key (n + 1) (x :: y :: (t ++ b)) =
          if key x < key y then y :: sweep key n (x :: (t ++ b))
          else x :: sweep key n (y :: (t ++ b)) := rfl
      have e2 : sweep key (n + 1) (x :: y :: t) =
          if key x < key y then y :: sweep key n (x :: t)
          else x :: sweep key n (y :: t) := rfl
      show sweep key (n + 1) (x :: y :: (t ++ b)) = sweep key (n + 1) (x :: y :: t) ++ b
      rw [e1, e2, h1, h2]
      split <;> rfl

theorem sweep_last_min (key : nat46_xlate_rulepair_t → Int) (n : Nat) :
    ∀ l : List nat46_xlate_rulepair_t, l.length = n + 1 →
      ∃ init m, sweep key n l = init ++ [m] ∧ init.length = n ∧ ∀ x ∈ l, key m ≤ key x := by
  induction n with
  | zero =>
    intro l h
    rcases l with _ | ⟨a, _ | ⟨b, t⟩⟩
    · simp at h
    · exact ⟨[], a, rfl, rfl, by simp⟩
    · simp at h
  | succ n ih =>
    intro l h
    rcases l with _ | ⟨a, _ | ⟨b, t⟩⟩
    · simp at h
    · simp at h
    · simp only [sweep]
      by_cases hk : key a < key b
      · obtain ⟨init, m, he, hlen, hmin⟩ := ih (a :: t) (by simp at h ⊢; omega)
        refine ⟨b :: init, m, by simp [hk, he], by simp [hlen], ?_⟩
        intro x hx
        have hma : key m ≤ key a := hmin a (by simp)
        simp only [List.mem_cons] at hx
        rcases hx with rfl | rfl | hx
        · exact hma
        · omega
        · exact hmin x (by simp [hx])
      · obtain ⟨init, m, he, hlen, hmin⟩ := ih (b :: t) (by simp at h ⊢; omega)
        refine ⟨a :: init, m, by simp [hk, he], by simp [hlen], ?_⟩
        intro x hx
        have hmb : key m ≤ key b := hmin b (by simp)
        simp only [List.mem_cons] at hx
        rcases hx with rfl | rfl | hx
        · omega
        · exact hmb
        · exact hmin x (by simp [hx])

theorem sort_outer_perm (key : nat46_xlate_rulepair_t → Int) (nelem count : Nat) :
    ∀ (i : Nat) (array : List nat46_xlate_rulepair_t),
      (sort_outer key nelem count i array).Perm array := by
  induction count with
  | zero => intro i array; exact List.Perm.refl _
  | succ n ih =>
    intro i array
    simp only [sort_outer]
    have h := sort_inner_eq_sweep key (nelem - i - 1) [] array
    simp only [List.length_nil, List.nil_append] at h
    rw [h]
    exact (ih (i + 1) _).trans (sweep_perm key _ array)

theorem sort_outer_sorted (key : nat46_xlate_rulepair_t → Int) (count : Nat) :
    ∀ (i : Nat) (front back : List nat46_xlate_rulepair_t),
      back.length = i → front.length = count + 1 →
      back.Pairwise (fun x y => key y ≤ key x) →
      (∀ x ∈ front, ∀ y ∈ back, key y ≤ key x) →
      (sort_outer key (count + 1 + i) count i (front ++ back)).Pairwise
        (fun x y => key y ≤ key x) := by
  induction count with
  | zero =>
    intro i front back _ hf hb hfb
    rcases front with _ | ⟨x, _ | ⟨y, t⟩⟩
    · simp at hf
    · simp only [sort_outer, List.singleton_append, List.pairwise_cons]
      exact ⟨fun y hy => hfb x (by simp) y hy, hb⟩
    · simp at hf
  | succ n ih =>
    intro i front back hbl hf hb hfb
    simp only [sort_outer]
    have h := sort_inner_eq_sweep key (n + 1 + 1 + i - i - 1) [] (front ++ back)
    simp only [List.length_nil, List.nil_append] at h
    rw [h]
    have hcnt : n + 1 + 1 + i - i - 1 = n + 1 := by omega
    rw [hcnt, sweep_append key (n + 1) front back (by omega)]
    obtain ⟨init, m, he, hlen, hmin⟩ := sweep_last_min key (n + 1) front hf
    have hperm : (init ++ [m]).Perm front := he ▸ sweep_perm key (n + 1) front
    have hm : m ∈ front := hperm.subset (by simp)
    have hinit : ∀ x ∈ init, x ∈ front := fun x hx => hperm.subset (by simp [hx])
    rw [he]
    have hnel : n + 1 + 1 + i = n + 1 + (i + 1) := by omega
    rw [hnel]
    have := ih (i + 1) init (m :: back) (by simp [hbl]) hlen
      (List.pairwise_cons.mpr ⟨fun y hy => hfb m hm y hy, hb⟩)
      (by
        intro x hx y hy
        simp only [List.mem_cons] at hy
        rcases hy with rfl | hy
        · exact hmin x (hinit x hx)
        · exact hfb x (hinit x hx) y hy)
    simpa using this

theorem sort_by_perm (key : nat46_xlate_rulepair_t → Int) (pairs : List nat46_xlate_rulepair_t) :
    (sort_by key pairs).Perm pairs :=
  sort_outer_perm key _ _ _ _

theorem sort_by_sorted (key : nat46_xlate_rulepair_t → Int)
    (pairs : List nat46_xlate_rulepair_t) :
    (sort_by key pairs).Pairwise (fun x y => key y ≤ key x) := by
  match pairs with
  | [] => simp [sort_by, sort_outer]
  | a :: t =>
    have h := sort_outer_sorted key t.length 0 (a :: t) [] rfl (by simp) List.Pairwise.nil
      (by simp)
    simpa [sort_by] using h

/-! ### The IPv6 prefix test -/

theorem byte_eq_of_bits {a b : Nat} (ha : a < 256) (hb : b < 256)
    (h : ∀ j, j < 8 → a.testBit j = b.testBit j) : a = b := by
  apply Nat.eq_of_testBit_eq
  intro i
  by_cases hi : i < 8
  · exact h i hi
  · have h8 : (2 : Nat) ^ 8 ≤ 2 ^ i := Nat.pow_le_pow_right (by decide) (by omega)
    rw [Nat.testBit_lt_two_pow (lt_of_lt_of_le ha h8),
      Nat.testBit_lt_two_pow (lt_of_lt_of_le hb h8)]

theorem testBit_mask (n j : Nat) :
    (0xff <<< n).testBit j = (decide (n ≤ j) && decide (j - n < 8)) := by
  have h : (0xff : Nat) = 2 ^ 8 - 1 := by decide
  rw [Nat.testBit_shiftLeft, h, Nat.testBit_two_pow_sub_one]

theorem masked_eq_iff {a b : Nat} (ha : a < 256) (hb : b < 256) (r : Nat) (hr : r ≤ 8) :
    a &&& (0xff <<< (8 - r)) = b &&& (0xff <<< (8 - r)) ↔
      ∀ j, j < r → a.testBit (7 - j) = b.testBit (7 - j) := by
  constructor
  · intro h j hj
    have := congrArg (fun v => Nat.testBit v (7 - j)) h
    simp only [Nat.testBit_and, testBit_mask] at this
    have h1 : decide (8 - r ≤ 7 - j) = true := decide_eq_true (by omega)
    have h2 : decide (7 - j - (8 - r) < 8) = true := decide_eq_true (by omega)
    rw [h1, h2] at this
    simpa using this
  · intro h
    apply Nat.eq_of_testBit_eq
    intro i
    simp only [Nat.testBit_and, testBit_mask]
    by_cases hi : i < 8
    · by_cases hm : 8 - r ≤ i
      · have := h (7 - i) (by omega)
        have e : 7 - (7 - i) = i := by omega
        rw [e] at this
        rw [this]
      · simp [hm]
    · have h8 : (2 : Nat) ^ 8 ≤ 2 ^ i := Nat.pow_le_pow_right (by decide) (by omega)
      rw [Nat.testBit_lt_two_pow (lt_of_lt_of_le ha h8),
        Nat.testBit_lt_two_pow (lt_of_lt_of_le hb h8)]

/-- The test that `nat46_lpm` (and `xlate_map_v6_to_v4`) applies to one IPv6 prefix of length
`l`, whole bytes by `memcmp` and the partial byte under the mask, holds exactly when the first
`l` bits agree. -/
theorem lpm_v6_test_iff (x pref : Mem) (hx : IsBytes x) (hp : IsBytes pref) (l : Nat) :
    (memcmp_ne x pref (l / 8) = false ∧
      (l % 8 ≠ 0 → x (l / 8) &&& (0xff <<< (8 - l % 8)) = pref (l / 8) &&& (0xff <<< (8 - l % 8))))
      ↔ ∀ k, k < l → getBit x k = getBit pref k := by
  rw [memcmp_ne_eq_false]
  constructor
  · rintro ⟨hb, hm⟩ k hk
    unfold getBit
    by_cases hlt : k / 8 < l / 8
    · rw [hb _ hlt]
    · have hke : k / 8 = l / 8 := by omega
      have hne : l % 8 ≠ 0 := by omega
      have := (masked_eq_iff (hx (l / 8)) (hp (l / 8)) (l % 8) (by omega)).mp (hm hne)
        (k % 8) (by omega)
      rw [hke]
      exact this
  · intro h
    refine ⟨fun i hi => ?_, fun hne => ?_⟩
    · apply byte_eq_of_bits (hx i) (hp i)
      intro j hj
      have := h (8 * i + (7 - j)) (by omega)
      unfold getBit at this
      have e1 : (8 * i + (7 - j)) / 8 = i := by omega
      have e2 : 7 - (8 * i + (7 - j)) % 8 = j := by omega
      rw [e1, e2] at this
      exact this
    · apply (masked_eq_iff (hx (l / 8)) (hp (l / 8)) (l % 8) (by omega)).mpr
      intro j hj
      have := h (8 * (l / 8) + j) (by omega)
      unfold getBit at this
      have e1 : (8 * (l / 8) + j) / 8 = l / 8 := by omega
      have e2 : (8 * (l / 8) + j) % 8 = j := by omega
      rw [e1, e2] at this
      exact this

theorem nat46_lpm_v6_cons (sel : nat46_xlate_rulepair_t → nat46_xlate_rule_t) (x : Mem)
    (hx : IsBytes x) (p : nat46_xlate_rulepair_t) (rest : List nat46_xlate_rulepair_t)
    (hp : IsBytes (sel p).v6_pref) (hl : 0 ≤ (sel p).v6_pref_len ∧ (sel p).v6_pref_len ≤ 128) :
    (covers_v6 (sel p) x → nat46_lpm_v6 sel x (p :: rest) = some p) ∧
    (¬ covers_v6 (sel p) x → nat46_lpm_v6 sel x (p :: rest) = nat46_lpm_v6 sel x rest) := by
  obtain ⟨l, hl'⟩ := Int.eq_ofNat_of_zero_le hl.1
  have hd : (Int.tdiv (sel p).v6_pref_len BITS_PER_BYTE).toNat = l / 8 := by
    rw [hl', BITS_PER_BYTE, Int.tdiv_eq_ediv (by omega) (by decide)]
    omega
  have hm : Int.tmod (sel p).v6_pref_len BITS_PER_BYTE = ((l % 8 : Nat) : Int) := by
    rw [hl', BITS_PER_BYTE, Int.tmod_eq_emod (by omega) (by decide)]
    omega
  have hmask : shl32 U8_MASK (BITS_PER_BYTE - Int.tmod (sel p).v6_pref_len BITS_PER_BYTE)
      = 0xff <<< (8 - l % 8) := by
    rw [hm, BITS_PER_BYTE, shl32_eq _ _ (by omega) (by omega), U8_MASK]
    have e : ((8 : Int) - ((l % 8 : Nat) : Int)).toNat = 8 - l % 8 := by omega
    rw [e]
    apply Nat.mod_eq_of_lt
    have h8 : l % 8 < 8 := Nat.mod_lt _ (by decide)
    generalize l % 8 = r at h8
    interval_cases r <;> decide
  have hcov : covers_v6 (sel p) x ↔ ∀ k, k < l → getBit x k = getBit (sel p).v6_pref k := by
    unfold covers_v6
    rw [hl']
    constructor
    · intro h k hk
      exact h k (by omega)
    · intro h k hk
      exact h k (by omega)
  rw [hcov, ← lpm_v6_test_iff x (sel p).v6_pref hx hp l]
  have hmz : (Int.tmod (sel p).v6_pref_len BITS_PER_BYTE ≠ 0) ↔ l % 8 ≠ 0 := by
    rw [hm]
    omega
  have hunf : nat46_lpm_v6 sel x (p :: rest) =
      if memcmp_ne x (sel p).v6_pref (l / 8) = true then nat46_lpm_v6 sel x rest
      else if Int.tmod (sel p).v6_pref_len BITS_PER_BYTE ≠ 0 then
        if x (l / 8) &&& (0xff <<< (8 - l % 8)) =
            (sel p).v6_pref (l / 8) &&& (0xff <<< (8 - l % 8)) then some p
        else nat46_lpm_v6 sel x rest
      else some p := by
    rw [← hd, ← hmask]
    rfl
  rw [hunf]
  constructor
  · rintro ⟨h1, h2⟩
    rw [if_neg (by simp [h1])]
    by_cases hz : l % 8 ≠ 0
    · rw [if_pos (hmz.mpr hz), if_pos (h2 hz)]
    · rw [if_neg (fun h => hz (hmz.mp h))]
  · intro h
    by_cases h1 : memcmp_ne x (sel p).v6_pref (l / 8) = false
    · have h2 : ¬ (l % 8 ≠ 0 → x (l / 8) &&& (0xff <<< (8 - l % 8)) =
          (sel p).v6_pref (l / 8) &&& (0xff <<< (8 - l % 8))) := fun h2 => h ⟨h1, h2⟩
      have hz : l % 8 ≠ 0 := fun hz => h2 (fun hne => absurd hz hne)
      have h3 : ¬ (x (l / 8) &&& (0xff <<< (8 - l % 8)) =
          (sel p).v6_pref (l / 8) &&& (0xff <<< (8 - l % 8))) := fun h3 => h2 (fun _ => h3)
      rw [if_neg (by simp [h1]), if_pos (hmz.mpr hz), if_neg h3]
    · rw [if_pos (by simpa using h1)]

/-! ### Longest-prefix match -/

theorem nat46_lpm_v6_sorted (sel : nat46_xlate_rulepair_t → nat46_xlate_rule_t) (x : Mem)
    (hx : IsBytes x) :
    ∀ l : List nat46_xlate_rulepair_t,
      (∀ p ∈ l, IsBytes (sel p).v6_pref ∧ 0 ≤ (sel p).v6_pref_len ∧ (sel p).v6_pref_len ≤ 128) →
      l.Pairwise (fun a b => (sel b).v6_pref_len ≤ (sel a).v6_pref_len) →
      (∃ p ∈ l, covers_v6 (sel p) x) →
      ∃ r, nat46_lpm_v6 sel x l = some r ∧ r ∈ l ∧ covers_v6 (sel r) x ∧
        ∀ q ∈ l, covers_v6 (sel q) x → (sel q).v6_pref_len ≤ (sel r).v6_pref_len := by
  intro l
  induction l with
  | nil => rintro _ _ ⟨p, hp, _⟩; simp at hp
  | cons p rest ih =>
    intro hwf hs hex
    have hp := hwf p (by simp)
    have hc := nat46_lpm_v6_cons sel x hx p rest hp.1 hp.2
    rw [List.pairwise_cons] at hs
    by_cases hcov : covers_v6 (sel p) x
    · refine ⟨p, hc.1 hcov, by simp, hcov, ?_⟩
      intro q hq _
      simp only [List.mem_cons] at hq
      rcases hq with rfl | hq
      · exact le_refl _
      · exact hs.1 q hq
    · have hex' : ∃ p ∈ rest, covers_v6 (sel p) x := by
        obtain ⟨q, hq, hqc⟩ := hex
        simp only [List.mem_cons] at hq
        rcases hq with rfl | hq
        · exact absurd hqc hcov
        · exact ⟨q, hq, hqc⟩
      obtain ⟨r, hr, hmem, hrc, hmax⟩ :=
        ih (fun q hq => hwf q (by simp [hq])) hs.2 hex'
      refine ⟨r, by rw [hc.2 hcov]; exact hr, by simp [hmem], hrc, ?_⟩
      intro q hq hqc
      simp only [List.mem_cons] at hq
      rcases hq with rfl | hq
      · exact absurd hqc hcov
      · exact hmax q hq hqc

/-- C5 (the code at the failing input): with the pairs 10.0.0.0/8 and 0.0.0.0/0 (in this
order) and the address 192.0.2.1, the default pair covers the address and is among the pairs,
yet `nat46_lpm(NAT46_IPV4_LOCAL)` over the views built by `nat46_sort_rule_array` returns
NULL: the mask left by the /8 rule is reused for the /0 rule. -/
theorem nat46_lpm_ipv4_misses_default_rule :
    pair_default ∈ instance_two.pairs ∧
    covers_v4 pair_default.local (ofBytes [192, 0, 2, 1]) ∧
    ¬ covers_v4 pair_long.local (ofBytes [192, 0, 2, 1]) ∧
    (nat46_lpm (some (nat46_sort_rule_array instance_two)) NAT46_IPV4_LOCAL
      (some (ofBytes [192, 0, 2, 1]))).isNone = true := by
  refine ⟨by simp [instance_two, instance_of], ?_, ?_, ?_⟩
  · unfold covers_v4; decide
  · unfold covers_v4; decide
  · decide

/-- C6: IPv6 longest-prefix match.  For every instance whose pairs hold byte prefixes of
length 0..128, every IPv6 address `x` and each of the kinds `NAT46_IPV6_LOCAL` and
`NAT46_IPV6_REMOTE`: if some pair `p` of the instance has its prefix of that kind covering
`x`, then `nat46_lpm` over the views built by `nat46_sort_rule_array` returns a pair of the
instance that covers `x` and whose `v6_pref_len` is the largest among all covering pairs. -/
theorem nat46_lpm_ipv6_longest_match (nat46 : nat46_instance_t) (type : nat46_rule_type_t)
    (x : Mem) (p : nat46_xlate_rulepair_t)
    (htype : type = NAT46_IPV6_LOCAL ∨ type = NAT46_IPV6_REMOTE)
    (hx : IsBytes x)
    (hwf : ∀ q ∈ nat46.pairs, IsBytes (rule_of type q).v6_pref ∧
      0 ≤ (rule_of type q).v6_pref_len ∧ (rule_of type q).v6_pref_len ≤ 128)
    (hp : p ∈ nat46.pairs) (hcov : covers_v6 (rule_of type p) x) :
    ∃ r, nat46_lpm (some (nat46_sort_rule_array nat46)) type (some x) = some r ∧
      r ∈ nat46.pairs ∧ covers_v6 (rule_of type r) x ∧
      ∀ q ∈ nat46.pairs, covers_v6 (rule_of type q) x →
        (rule_of type q).v6_pref_len ≤ (rule_of type r).v6_pref_len := by
  have key : ∀ view : List nat46_xlate_rulepair_t, view.Perm nat46.pairs →
      view.Pairwise (fun a b => (rule_of type b).v6_pref_len ≤ (rule_of type a).v6_pref_len) →
      ∃ r, nat46_lpm_v6 (rule_of type) x view = some r ∧
        r ∈ nat46.pairs ∧ covers_v6 (rule_of type r) x ∧
        ∀ q ∈ nat46.pairs, covers_v6 (rule_of type q) x →
          (rule_of type q).v6_pref_len ≤ (rule_of type r).v6_pref_len := by
    intro view hperm hsorted
    obtain ⟨r, hr, hmem, hrc, hmax⟩ := nat46_lpm_v6_sorted (rule_of type) x hx view
      (fun q hq => hwf q (hperm.subset hq)) hsorted ⟨p, hperm.symm.subset hp, hcov⟩
    exact ⟨r, hr, hperm.subset hmem, hrc, fun q hq hqc => hmax q (hperm.symm.subset hq) hqc⟩
  rcases htype with h | h
  · subst h
    exact key _ (sort_by_perm _ _) (sort_by_sorted (fun p => p.local.v6_pref_len) _)
  · subst h
    exact key _ (sort_by_perm _ _) (sort_by_sorted (fun p => p.remote.v6_pref_len) _)

/-- The IPv6 lookup of 2001:db8:1:: among the prefixes 2001:db8:1::/48 and ::/0. -/
theorem nat46_lpm_ipv6_longest_match_witness :
    ∃ r, nat46_lpm (some (nat46_sort_rule_array instance_two)) NAT46_IPV6_LOCAL
        (some (ofBytes [0x20, 0x01, 0x0d, 0xb8, 0x00, 0x01])) = some r ∧
      r ∈ instance_two.pairs ∧
      covers_v6 (rule_of NAT46_IPV6_LOCAL r) (ofBytes [0x20, 0x01, 0x0d, 0xb8, 0x00, 0x01]) ∧
      ∀ q ∈ instance_two.pairs,
        covers_v6 (rule_of NAT46_IPV6_LOCAL q) (ofBytes [0x20, 0x01, 0x0d, 0xb8, 0x00, 0x01]) →
        (rule_of NAT46_IPV6_LOCAL q).v6_pref_len ≤ (rule_of NAT46_IPV6_LOCAL r).v6_pref_len :=
  nat46_lpm_ipv6_longest_match instance_two NAT46_IPV6_LOCAL
    (ofBytes [0x20, 0x01, 0x0d, 0xb8, 0x00, 0x01]) pair_long (Or.inl rfl)
    (isBytes_ofBytes _ (by decide))
    (by
      intro q hq
      simp only [instance_two, instance_of, List.mem_cons, List.mem_singleton,
        List.not_mem_nil, or_false] at hq
      rcases hq with rfl | rfl
      · exact ⟨isBytes_ofBytes [0x20, 0x01, 0x0d, 0xb8, 0x00, 0x01] (by decide),
          by decide, by decide⟩
      · exact ⟨isBytes_ofBytes [] (by simp), by decide, by decide⟩)
    (by simp [instance_two, instance_of])
    (fun _ _ => rfl)

/-! ### Configuration -/

theorem skip_blanks_length (l : List Char) : (skip_blanks l).length ≤ l.length := by
  induction l with
  | nil => simp [skip_blanks]
  | cons c t ih =>
    simp only [skip_blanks]
    split
    · simp only [List.length_cons]; omega
    · exact le_refl _

theorem take_word_length (l : List Char) :
    (take_word l).1.length + (take_word l).2.length = l.length := by
  induction l with
  | nil => simp [take_word]
  | cons c t ih =>
    simp only [take_word]
    split
    · simp
    · simp only [List.length_cons]; omega

theorem get_next_arg_length (t : List Char) :
    (get_next_arg t).2.length ≤ t.length ∧
    ((get_next_arg t).1 ≠ none → (get_next_arg t).2.length < t.length) := by
  have h1 := skip_blanks_length t
  have h2 := take_word_length (skip_blanks t)
  have h3 := skip_blanks_length (take_word (skip_blanks t)).2
  unfold get_next_arg
  refine ⟨by simp only; omega, ?_⟩
  simp only
  intro h
  have hw : (take_word (skip_blanks t)).1 ≠ [] := by
    intro he
    simp [he] at h
  have : 0 < (take_word (skip_blanks t)).1.length := List.length_pos.mpr hw
  omega

theorem try_parse_rule_arg_length (K : kernel_api) (rule : nat46_xlate_rule_t)
    (arg_name tail : List Char) :
    (try_parse_rule_arg K rule arg_name tail).2.2.length ≤ tail.length := by
  have h := (get_next_arg_length tail).1
  unfold try_parse_rule_arg
  simp only
  split
  · exact h
  · repeat' split
    all_goals exact h

/-- The fuel given to the parsing loop does not matter once it exceeds the length of the text
left: the loop has ended by itself before the fuel runs out. -/
theorem config_loop_fuel (K : kernel_api) (fuel : Nat) :
    ∀ (st : config_state) (fuel' : Nat), st.tail.length < fuel → st.tail.length < fuel' →
      config_loop K fuel st = config_loop K fuel' st := by
  induction fuel with
  | zero => intro st fuel' h; omega
  | succ n ih =>
    intro st fuel' h h'
    obtain ⟨m, rfl⟩ : ∃ m, fuel' = m + 1 := ⟨fuel' - 1, by omega⟩
    have ha := get_next_arg_length st.tail
    simp only [config_loop]
    split
    · rfl
    · split
      · rfl
      · rename_i arg_name harg
        have hlt : (get_next_arg st.tail).2.length < st.tail.length :=
          ha.2 (by rw [harg]; simp)
        have hv := (get_next_arg_length (get_next_arg st.tail).2).1
        have hl := try_parse_rule_arg_length K st.apair.local (arg_name.drop 6)
          (get_next_arg st.tail).2
        have hr := try_parse_rule_arg_length K st.apair.remote (arg_name.drop 7)
          (get_next_arg st.tail).2
        split
        · split
          · exact ih _ _ (by simp only; omega) (by simp only; omega)
          · exact ih _ _ (by simp only; omega) (by simp only; omega)
        · split
          · exact ih _ _ (by simp only; omega) (by simp only; omega)
          · split
            · exact ih _ _ (by simp only; omega) (by simp only; omega)
            · exact ih _ _ (by simp only; omega) (by simp only; omega)

/-- C9 (counterexample): on the instance with one default pair, the text
`local.style RFC6052` is rejected (the prefix length 0 is not an RFC6052 length, return value
-1), yet the stored pair has changed: its local style is now RFC6052. -/
theorem set_ipair_config_not_transactional :
    (nat46_set_ipair_config kernel_reject instance_one 0 "local.style RFC6052".toList).1 = -1 ∧
    (nat46_set_ipair_config kernel_reject instance_one 0 "local.style RFC6052".toList).2.pairs
      ≠ instance_one.pairs := by
  refine ⟨by decide, ?_⟩
  intro h
  have h2 := congrArg (List.map (fun p => p.local.style)) h
  revert h2
  decide

/-- C9 (amended): if `nat46_set_ipair_config` returns a non-zero value, then the four sorted
views are exactly what they were, the number of pairs is unchanged and every pair other than
`pairs[ipair]` is unchanged. -/
theorem set_ipair_config_error_keeps_views (K : kernel_api) (nat46 : nat46_instance_t)
    (ipair : Int) (buf : List Char)
    (herr : (nat46_set_ipair_config K nat46 ipair buf).1 ≠ 0) :
    (nat46_set_ipair_config K nat46 ipair buf).2.sorted_ipv4_local_pairs =
      nat46.sorted_ipv4_local_pairs ∧
    (nat46_set_ipair_config K nat46 ipair buf).2.sorted_ipv4_remote_pairs =
      nat46.sorted_ipv4_remote_pairs ∧
    (nat46_set_ipair_config K nat46 ipair buf).2.sorted_ipv6_local_pairs =
      nat46.sorted_ipv6_local_pairs ∧
    (nat46_set_ipair_config K nat46 ipair buf).2.sorted_ipv6_remote_pairs =
      nat46.sorted_ipv6_remote_pairs ∧
    (nat46_set_ipair_config K nat46 ipair buf).2.pairs.length = nat46.pairs.length ∧
    ∀ j : Nat, (j : Int) ≠ ipair →
      (nat46_set_ipair_config K nat46 ipair buf).2.pairs[j]? = nat46.pairs[j]? := by
  unfold nat46_set_ipair_config at herr ⊢
  by_cases hr : ipair < 0 ∨ ipair ≥ nat46.npairs
  · simp [hr]
  · rw [if_neg hr] at herr ⊢
    cases hget : nat46.pairs[ipair.toNat]? with
    | none => simp
    | some apair =>
      simp only [hget] at herr ⊢
      generalize config_loop K (buf.length + 1)
        { debug := nat46.debug, apair := apair, tail := buf, err := 0 } = st at herr ⊢
      by_cases hz : nat46_validate_ipair_config st.apair ≠ 0
      · rw [if_pos hz]
        refine ⟨rfl, rfl, rfl, rfl, by simp, ?_⟩
        intro j hj
        have hne : ipair.toNat ≠ j := by omega
        simp [List.getElem?_set_ne hne]
      · rw [if_neg hz] at herr
        exact absurd rfl herr

/-- The rejected text `local.style RFC6052` applied to the second pair of `instance_two`. -/
theorem set_ipair_config_error_keeps_views_witness :
    (nat46_set_ipair_config kernel_reject instance_two 1
      "local.style RFC6052".toList).2.sorted_ipv4_local_pairs =
      instance_two.sorted_ipv4_local_pairs ∧
    (nat46_set_ipair_config kernel_reject instance_two 1
      "local.style RFC6052".toList).2.sorted_ipv4_remote_pairs =
      instance_two.sorted_ipv4_remote_pairs ∧
    (nat46_set_ipair_config kernel_reject instance_two 1
      "local.style RFC6052".toList).2.sorted_ipv6_local_pairs =
      instance_two.sorted_ipv6_local_pairs ∧
    (nat46_set_ipair_config kernel_reject instance_two 1
      "local.style RFC6052".toList).2.sorted_ipv6_remote_pairs =
      instance_two.sorted_ipv6_remote_pairs ∧
    (nat46_set_ipair_config kernel_reject instance_two 1
      "local.style RFC6052".toList).2.pairs.length = instance_two.pairs.length ∧
    ∀ j : Nat, (j : Int) ≠ 1 →
      (nat46_set_ipair_config kernel_reject instance_two 1
        "local.style RFC6052".toList).2.pairs[j]? = instance_two.pairs[j]? :=
  set_ipair_config_error_keeps_views kernel_reject instance_two 1 "local.style RFC6052".toList
    (by decide)

/-- C10 (the code at the failing inputs): on the instance with one default pair and pair index
0, `try_parse_rule_arg` flags the unknown style value `BOGUS` (1) and the key `local.style`
without a value (-1), and `try_parse_ipv6_prefix` flags an address the kernel parser rejects
(1); `nat46_set_ipair_config` nevertheless returns 0 for each of these texts, because `err` is
overwritten by the result of the validation. -/
theorem set_ipair_config_accepts_malformed (K : kernel_api) :
    (try_parse_rule_arg K pair_default.local "style".toList "BOGUS".toList).1 = 1 ∧
    (nat46_set_ipair_config K instance_one 0 "local.style BOGUS".toList).1 = 0 ∧
    (try_parse_rule_arg K pair_default.local "style".toList "".toList).1 = -1 ∧
    (nat46_set_ipair_config K instance_one 0 "local.style".toList).1 = 0 ∧
    (try_parse_rule_arg kernel_reject pair_default.local "v6".toList "zz".toList).1 = 1 ∧
    (nat46_set_ipair_config kernel_reject instance_one 0 "local.v6 zz".toList).1 = 0 := by
  refine ⟨by rfl, by rfl, by rfl, by rfl, by rfl, by rfl⟩

/-! ### Validation -/

theorem to_int_eq (x : Int) (h0 : -2 ^ 31 ≤ x) (h1 : x < 2 ^ 31) : to_int x = x := by
  unfold to_int
  omega

/-- The validation where no `int` overflows.  For a pair whose two rules have `v4_pref_len`,
`ea_len` and `psid_offset` of absolute value below `2 ^ 29`, `nat46_validate_ipair_config`
returns 0 exactly when both rules meet the invariant of the specification (`rule_invariant`),
and returns -1 otherwise. -/
theorem nat46_validate_ipair_config_iff_of_small (apair : nat46_xlate_rulepair_t)
    (hl : small_fields apair.local) (hr : small_fields apair.remote) :
    (nat46_validate_ipair_config apair = 0 ↔
      rule_invariant apair.local ∧ rule_invariant apair.remote) ∧
    (¬ (rule_invariant apair.local ∧ rule_invariant apair.remote) →
      nat46_validate_ipair_config apair = -1) := by
  have h6052 : ∀ r : nat46_xlate_rule_t, nat46_validate_RFC6052_style r = true ↔
      (r.style = NAT46_XLATE_RFC6052 →
        r.v6_pref_len = 32 ∨ r.v6_pref_len = 40 ∨ r.v6_pref_len = 48 ∨
        r.v6_pref_len = 56 ∨ r.v6_pref_len = 64 ∨ r.v6_pref_len = 96) := by
    intro r
    unfold nat46_validate_RFC6052_style
    by_cases hs : r.style = NAT46_XLATE_RFC6052
    · by_cases hl : (r.v6_pref_len = 32 ∨ r.v6_pref_len = 40 ∨ r.v6_pref_len = 48 ∨
          r.v6_pref_len = 56 ∨ r.v6_pref_len = 64 ∨ r.v6_pref_len = 96)
      · simp [hs, hl]
      · simp only [hs, hl, if_true, not_false_eq_true]
        simp
    · simp [hs]
  have hmap : ∀ r : nat46_xlate_rule_t, small_fields r → (nat46_validate_MAP_style r = true ↔
      (r.style = NAT46_XLATE_MAP →
        r.ea_len ≤ 48 ∧ max 0 (r.ea_len - (32 - r.v4_pref_len)) + r.psid_offset ≤ 16)) := by
    intro r hsm
    obtain ⟨s1, s2, s3, s4, s5, s6⟩ := hsm
    norm_num at s1 s2 s3 s4 s5 s6
    unfold nat46_validate_MAP_style EA_LEN_MAX IPV4_BITS_MAX PSID_LEN_MAX
    rw [to_int_eq (r.v4_pref_len + r.ea_len) (by norm_num; omega) (by norm_num; omega),
      to_int_eq (32 - r.v4_pref_len) (by norm_num; omega) (by norm_num; omega),
      to_int_eq (r.ea_len - (32 - r.v4_pref_len)) (by norm_num; omega) (by norm_num; omega)]
    by_cases hs : r.style = NAT46_XLATE_MAP
    · simp only [hs, if_true, true_implies]
      by_cases he : r.ea_len > 48
      · simp only [he, if_true]
        constructor
        · intro h; cases h
        · intro h; omega
      · simp only [he, if_false]
        by_cases hp : r.v4_pref_len + r.ea_len > 32
        · simp only [hp, if_true]
          have hm : max 0 (r.ea_len - (32 - r.v4_pref_len)) = r.ea_len - (32 - r.v4_pref_len) :=
            max_eq_right (by omega)
          rw [hm, to_int_eq (r.ea_len - (32 - r.v4_pref_len) + r.psid_offset)
            (by norm_num; omega) (by norm_num; omega)]
          by_cases hq : r.ea_len - (32 - r.v4_pref_len) + r.psid_offset > 16
          · simp only [hq, if_true]
            constructor
            · intro h; cases h
            · intro h; omega
          · simp only [hq, if_false, true_iff]
            omega
        · simp only [hp, if_false]
          have hm : max 0 (r.ea_len - (32 - r.v4_pref_len)) = 0 := max_eq_left (by omega)
          rw [hm, to_int_eq (0 + r.psid_offset) (by norm_num; omega) (by norm_num; omega)]
          by_cases hq : 0 + r.psid_offset > 16
          · simp only [hq, if_true]
            constructor
            · intro h; cases h
            · intro h; omega
          · simp only [hq, if_false, true_iff]
            omega
    · simp [hs]
  have hiff : nat46_validate_ipair_config apair = 0 ↔
      rule_invariant apair.local ∧ rule_invariant apair.remote := by
    unfold rule_invariant
    rw [← h6052 apair.local, ← h6052 apair.remote, ← hmap apair.local hl,
      ← hmap apair.remote hr]
    unfold nat46_validate_ipair_config
    cases nat46_validate_RFC6052_style apair.local <;>
      cases nat46_validate_RFC6052_style apair.remote <;>
      cases nat46_validate_MAP_style apair.local <;>
      cases nat46_validate_MAP_style apair.remote <;> simp
  refine ⟨hiff, fun h => ?_⟩
  have hne : nat46_validate_ipair_config apair ≠ 0 := fun h0 => h (hiff.mp h0)
  revert hne
  unfold nat46_validate_ipair_config
  cases nat46_validate_RFC6052_style apair.local <;>
    cases nat46_validate_RFC6052_style apair.remote <;>
    cases nat46_validate_MAP_style apair.local <;>
    cases nat46_validate_MAP_style apair.remote <;> simp

/-- C11 (the code at the failing input): the pair whose local rule is MAP with IPv4 prefix
192.0.2.0/24, `ea-len` 9 (so `psid_len` is 1) and `psid-offset` 2147483647, and whose remote
rule is RFC6052 with a 96-bit prefix, does not meet the invariant, `psid_len + psid_offset`
being 2147483648; `nat46_validate_ipair_config` returns 0 for it, because the `int` sum wraps
to -2147483648.  The configuration text that sets these fields is accepted as well. -/
theorem nat46_validate_accepts_overflowing_psid_offset :
    pair_overflow.local.style = NAT46_XLATE_MAP ∧
    max 0 (pair_overflow.local.ea_len - (32 - pair_overflow.local.v4_pref_len)) +
      pair_overflow.local.psid_offset = 2147483648 ∧
    ¬ rule_invariant pair_overflow.local ∧
    nat46_validate_MAP_style pair_overflow.local = true ∧
    nat46_validate_ipair_config pair_overflow = 0 ∧
    (nat46_set_ipair_config kernel_dec instance_one 0
      "local.style MAP local.v4 192.0.2.0/24 local.ea-len 9 local.psid-offset 2147483647".toList).1
      = 0 ∧
    ((nat46_set_ipair_config kernel_dec instance_one 0
      "local.style MAP local.v4 192.0.2.0/24 local.ea-len 9 local.psid-offset 2147483647".toList
      ).2.pairs.map (fun q => (q.local.v4_pref_len, q.local.ea_len, q.local.psid_offset))) =
      [(24, 9, 2147483647)] := by
  refine ⟨rfl, by decide, ?_, by decide, by decide, by rfl, by rfl⟩
  intro h
  have h2 := (h.2 rfl).2
  revert h2
  decide

/-! ### RFC6052 layout and the NONE style -/

/-- C14: RFC6052 encode layout.  For every rule whose `v6_pref_len` is one of 32, 40, 48, 56,
64, 96, every address `a` and any prior contents of the output buffer, the sixteen bytes
written by `xlate_v4_to_nat64` are those of `rfc6052_layout`: the first `L/8` bytes of
`v6_pref`, the address bytes at the RFC6052 position, a zero byte 8 for `L ≤ 64` and zeros
after the embedded address. -/
theorem xlate_v4_to_nat64_layout (rule : nat46_xlate_rule_t) (a buf6 : Mem)
    (hlen : rule.v6_pref_len = 32 ∨ rule.v6_pref_len = 40 ∨ rule.v6_pref_len = 48 ∨
      rule.v6_pref_len = 56 ∨ rule.v6_pref_len = 64 ∨ rule.v6_pref_len = 96) :
    (List.range 16).map (xlate_v4_to_nat64 rule a buf6) =
      rfc6052_layout rule.v6_pref_len rule.v6_pref a := by
  have hr : List.range 16 = [0, 1, 2, 3, 4, 5, 6, 7, 8, 9, 10, 11, 12, 13, 14, 15] := rfl
  rw [hr]
  rcases hlen with h | h | h | h | h | h <;>
    simp [xlate_v4_to_nat64, rfc6052_layout, h, memcpy, memset, store]

/-- The layout for the prefix 2001:db8::/32 and the address 192.0.2.1. -/
theorem xlate_v4_to_nat64_layout_witness :
    (List.range 16).map (xlate_v4_to_nat64 rule6052 (ofBytes [192, 0, 2, 1]) (ofBytes [])) =
      rfc6052_layout rule6052.v6_pref_len rule6052.v6_pref (ofBytes [192, 0, 2, 1]) :=
  xlate_v4_to_nat64_layout rule6052 (ofBytes [192, 0, 2, 1]) (ofBytes []) (Or.inl rfl)

/-- C15: NONE-style host mapping.  For a rule of style NONE, `xlate_v4_to_v6` succeeds (returns
1, and otherwise 0) exactly when `v6_pref_len = 128`, `v4_pref_len = 32` and the four address
bytes are those of `v4_pref`, and then the sixteen output bytes are those of `v6_pref`;
`xlate_v6_to_v4` succeeds exactly when the lengths are 128 and 32 and the sixteen address
bytes are those of `v6_pref`, and then the four output bytes are those of `v4_pref`. -/
theorem xlate_none_host_mapping (rule : nat46_xlate_rule_t) (a4 a6 buf4 buf6 : Mem)
    (pl4id : Option Nat) (stk : Mem) (hs : rule.style = NAT46_XLATE_NONE) :
    ((xlate_v4_to_v6 rule a4 buf6 pl4id stk).1 = 1 ↔
      rule.v6_pref_len = 128 ∧ rule.v4_pref_len = 32 ∧
        ∀ i, i < 4 → a4 i = u32_bytes rule.v4_pref i) ∧
    ((xlate_v4_to_v6 rule a4 buf6 pl4id stk).1 ≠ 1 →
      (xlate_v4_to_v6 rule a4 buf6 pl4id stk).1 = 0) ∧
    ((xlate_v4_to_v6 rule a4 buf6 pl4id stk).1 = 1 →
      ∀ i, i < 16 → (xlate_v4_to_v6 rule a4 buf6 pl4id stk).2 i = rule.v6_pref i) ∧
    ((xlate_v6_to_v4 rule a6 buf4).1 = 1 ↔
      rule.v6_pref_len = 128 ∧ rule.v4_pref_len = 32 ∧
        ∀ i, i < 16 → a6 i = rule.v6_pref i) ∧
    ((xlate_v6_to_v4 rule a6 buf4).1 ≠ 1 → (xlate_v6_to_v4 rule a6 buf4).1 = 0) ∧
    ((xlate_v6_to_v4 rule a6 buf4).1 = 1 →
      ∀ i, i < 4 → (xlate_v6_to_v4 rule a6 buf4).2 i = u32_bytes rule.v4_pref i) := by
  have e4 : xlate_v4_to_v6 rule a4 buf6 pl4id stk =
      if rule.v6_pref_len = 128 ∧ rule.v4_pref_len = 32 ∧
          memcmp_ne a4 (u32_bytes rule.v4_pref) 4 = false then
        (1, memcpy buf6 0 rule.v6_pref 0 16)
      else (0, buf6) := by
    unfold xlate_v4_to_v6
    rw [hs]
  have e6 : xlate_v6_to_v4 rule a6 buf4 =
      if rule.v6_pref_len = 128 ∧ rule.v4_pref_len = 32 ∧
          memcmp_ne a6 rule.v6_pref 16 = false then
        (1, memcpy buf4 0 (u32_bytes rule.v4_pref) 0 4)
      else (0, buf4) := by
    unfold xlate_v6_to_v4
    rw [hs]
  rw [e4, e6]
  simp only [memcmp_ne_eq_false]
  refine ⟨?_, ?_, ?_, ?_, ?_, ?_⟩
  · split <;> simp_all
  · split <;> simp
  · split
    · intro _ i hi
      simp [memcpy, hi]
    · intro h; simp at h
  · split <;> simp_all
  · split <;> simp
  · split
    · intro _ i hi
      simp [memcpy, hi]
    · intro h; simp at h

/-- The host rule 2001:db8::1/128, 192.0.2.1/32 applied to its own two addresses. -/
theorem xlate_none_host_mapping_witness :
    (xlate_v4_to_v6 rule_host (ofBytes [192, 0, 2, 1]) (ofBytes []) none (ofBytes [])).1 = 1 ∧
    (xlate_v6_to_v4 rule_host rule_host.v6_pref (ofBytes [])).1 = 1 :=
  ⟨((xlate_none_host_mapping rule_host (ofBytes [192, 0, 2, 1]) rule_host.v6_pref (ofBytes [])
      (ofBytes []) none (ofBytes []) rfl).1).mpr
      ⟨rfl, rfl, by intro i hi; interval_cases i <;> decide⟩,
   ((xlate_none_host_mapping rule_host (ofBytes [192, 0, 2, 1]) rule_host.v6_pref (ofBytes [])
      (ofBytes []) none (ofBytes []) rfl).2.2.2.1).mpr ⟨rfl, rfl, fun _ _ => rfl⟩⟩

/-! ### MAP encoding -/

/-- C12 (the code at the failing input): for the MAP rule 2001:db8::/80, 192.0.0.0/20,
`ea-len` 12 (so `v6_pref_len + ea_len = 92 ≤ 128`), the in-domain address 192.0.0.1 and port
0x1840, `xlate_map_v4_to_v6` succeeds, but bit 81 of the output, the second of the twelve
bits that follow the prefix, is set although bit 21 of the address, the second of its low
twelve bits, is clear. -/
theorem map_ea_bits_layout_fails :
    (xlate_map_v4_to_v6 rule_map80 (ofBytes [192, 0, 0, 1]) (ofBytes []) (some 0x4018) 1
      (ofBytes [])).1 = 1 ∧
    covers_v4 rule_map80 (ofBytes [192, 0, 0, 1]) ∧
    getBit (xlate_map_v4_to_v6 rule_map80 (ofBytes [192, 0, 0, 1]) (ofBytes []) (some 0x4018) 1
      (ofBytes [])).2 (80 + 1) = true ∧
    getBit (ofBytes [192, 0, 0, 1]) (20 + 1) = false := by
  refine ⟨by decide, ?_, by decide, by decide⟩
  unfold covers_v4
  decide

theorem ntohl_lt (x : Nat) : ntohl x < 2 ^ 32 := by
  unfold ntohl
  omega

/-- The MAP domain at three further rules, all with the address given and the port `0x1840`
supplied unless said otherwise: the rule 192.0.2.1/24 (host bits not zero, `ea-len` 8) covers
192.0.2.5 and the function returns 0; the rule 0.0.0.0/0 with `ea-len` 32 covers 192.0.2.5 and
the function returns 0, but returns 1 for the address 0.0.0.0; and the rule 192.0.2.0/24 with
`ea-len` 264, whose PSID length 256 is 0 in eight bits, returns 1 without a port. -/
theorem map_domain_refinements :
    covers_v4 (prefix_rule [] 48 [192, 0, 2, 1] 24) (ofBytes [192, 0, 2, 5]) ∧
    (xlate_map_v4_to_v6 { prefix_rule [] 48 [192, 0, 2, 1] 24 with ea_len := 8 }
      (ofBytes [192, 0, 2, 5]) (ofBytes []) (some 0x4018) 1 (ofBytes [])).1 = 0 ∧
    covers_v4 (prefix_rule [] 48 [0, 0, 0, 0] 0) (ofBytes [192, 0, 2, 5]) ∧
    (xlate_map_v4_to_v6 { prefix_rule [] 48 [0, 0, 0, 0] 0 with ea_len := 32 }
      (ofBytes [192, 0, 2, 5]) (ofBytes []) (some 0x4018) 1 (ofBytes [])).1 = 0 ∧
    (xlate_map_v4_to_v6 { prefix_rule [] 48 [0, 0, 0, 0] 0 with ea_len := 32 }
      (ofBytes [0, 0, 0, 0]) (ofBytes []) (some 0x4018) 1 (ofBytes [])).1 = 1 ∧
    (xlate_map_v4_to_v6 { prefix_rule [] 48 [192, 0, 2, 0] 24 with ea_len := 264 }
      (ofBytes [192, 0, 2, 5]) (ofBytes []) none 1 (ofBytes [])).1 = 1 := by
  refine ⟨?_, by decide, ?_, by decide, by decide, by decide⟩
  · unfold covers_v4
    decide
  · unfold covers_v4
    decide

/-! ### ICMPv6 to ICMPv4 -/

theorem rd16_wr16 (m : Mem) (off v : Nat) (hv : v < 2 ^ 16) : rd16 (wr16 m off v) off = v := by
  simp [rd16, wr16, store]
  omega

theorem rd16_lt (m : Mem) (hb : IsBytes m) (off : Nat) : rd16 m off < 2 ^ 16 := by
  have h0 := hb off
  have h1 := hb (off + 1)
  unfold rd16
  omega

theorem update_icmp6_type_code_type (m : Mem) (t c : Nat) :
    update_icmp6_type_code m t c 0 = t % 256 := by
  simp [update_icmp6_type_code, wr16, store]

theorem update_icmp6_type_code_code (m : Mem) (t c : Nat) :
    update_icmp6_type_code m t c 1 = c % 256 := by
  simp [update_icmp6_type_code, wr16, store]

theorem update_icmp6_type_code_rest (m : Mem) (t c i : Nat) (hi : 4 ≤ i) :
    update_icmp6_type_code m t c i = m i := by
  have h0 : i ≠ 0 := by omega
  have h1 : i ≠ 1 := by omega
  have h2 : i ≠ 2 := by omega
  have h3 : i ≠ 3 := by omega
  simp [update_icmp6_type_code, wr16, store, h0, h1, h2, h3]

theorem update_icmp6_type_code_cksum (m : Mem) (t c : Nat) :
    rd16 (update_icmp6_type_code m t c) 2 =
      csum16_upd (rd16 m 2) (rd16 m 0) (t % 256 + c % 256 * 256) := by
  unfold update_icmp6_type_code
  simp only []
  rw [rd16_wr16 _ _ _ (csum16_upd_lt _ _ _)]
  simp [rd16, store]

theorem xlate_embedded6_frame (E : packet_env) (nat46 : nat46_instance_t) (s : icmp6_state)
    (i : Nat) (hi : i < 2 ∨ (4 ≤ i ∧ i < 8)) : (xlate_embedded6 E nat46 s).icmp6h i = s.icmp6h i := by
  have h8 : i < 8 := by omega
  have h2 : i ≠ 2 := by omega
  have h3 : i ≠ 3 := by omega
  simp [xlate_embedded6, ptr_merge, wr16, store, h8, h2, h3]

theorem xlate_embedded6_cksum (E : packet_env) (nat46 : nat46_instance_t) (s t : icmp6_state)
    (hip : s.ip6h = t.ip6h) (htail : s.tailTruncSize = t.tailTruncSize)
    (hck : rd16 s.icmp6h 2 = rd16 t.icmp6h 2) (hrest : ∀ i, 8 ≤ i → s.icmp6h i = t.icmp6h i) :
    rd16 (xlate_embedded6 E nat46 s).icmp6h 2 = rd16 (xlate_embedded6 E nat46 t).icmp6h 2 := by
  have hp : ptr_add s.icmp6h 8 = ptr_add t.icmp6h 8 := by
    funext i
    exact hrest (8 + i) (by omega)
  unfold xlate_embedded6
  simp only [hp, hip, htail, hck]
  simp [rd16, ptr_merge, wr16, store]

theorem xlate_embedded6_cksum_eq (E : packet_env) (nat46 : nat46_instance_t)
    (st : icmp6_state) (m : Mem) (c : Nat) (hc : c < 2 ^ 16) (hck : rd16 m 2 = c)
    (hrest : ∀ i, 8 ≤ i → m i = st.icmp6h i) :
    rd16 (xlate_embedded6 E nat46 { st with icmp6h := m }).icmp6h 2 =
      embedded6_cksum E nat46 st c := by
  unfold embedded6_cksum
  apply xlate_embedded6_cksum
  · rfl
  · rfl
  · show rd16 m 2 = rd16 (wr16 st.icmp6h 2 c) 2
    rw [rd16_wr16 _ _ _ hc, hck]
  · intro i hi
    have h2 : i ≠ 2 := by omega
    have h3 : i ≠ 3 := by omega
    show m i = wr16 st.icmp6h 2 c i
    simp [wr16, store, h2, h3, hrest i hi]

theorem update_then_embedded6 (E : packet_env) (nat46 : nat46_instance_t) (st : icmp6_state)
    (t c : Nat) (ht : t < 256) (hc : c < 256) :
    (xlate_embedded6 E nat46 { st with icmp6h := update_icmp6_type_code st.icmp6h t c }).icmp6h 0
      = t ∧
    (xlate_embedded6 E nat46 { st with icmp6h := update_icmp6_type_code st.icmp6h t c }).icmp6h 1
      = c ∧
    rd16 (xlate_embedded6 E nat46
        { st with icmp6h := update_icmp6_type_code st.icmp6h t c }).icmp6h 2 =
      embedded6_cksum E nat46 st
        (csum16_upd (rd16 st.icmp6h 2) (rd16 st.icmp6h 0) (t + c * 256)) ∧
    (xlate_embedded6 E nat46 { st with icmp6h := update_icmp6_type_code st.icmp6h t c }).ip6h
      = st.ip6h := by
  refine ⟨?_, ?_, ?_, rfl⟩
  · rw [xlate_embedded6_frame _ _ _ 0 (by omega)]
    show update_icmp6_type_code st.icmp6h t c 0 = t
    rw [update_icmp6_type_code_type, Nat.mod_eq_of_lt ht]
  · rw [xlate_embedded6_frame _ _ _ 1 (by omega)]
    show update_icmp6_type_code st.icmp6h t c 1 = c
    rw [update_icmp6_type_code_code, Nat.mod_eq_of_lt hc]
  · apply xlate_embedded6_cksum_eq _ _ _ _ _ (csum16_upd_lt _ _ _)
    · rw [update_icmp6_type_code_cksum, Nat.mod_eq_of_lt ht, Nat.mod_eq_of_lt hc]
    · intro i hi
      exact update_icmp6_type_code_rest _ _ _ _ (by omega)

theorem ntohs_ntohs (x : Nat) (hx : x < 2 ^ 16) : ntohs (ntohs x) = x := by
  unfold ntohs
  have hx2 : x < 65536 := hx
  have hq : x / 256 < 256 := by omega
  have h1 : x / 256 % 256 = x / 256 := Nat.mod_eq_of_lt hq
  rw [h1]
  have h2 : (x % 256 * 256 + x / 256) % 256 = x / 256 := by omega
  have h3 : (x % 256 * 256 + x / 256) / 256 = x % 256 := by omega
  rw [h2, h3]
  omega

theorem rd16_congr (a b : Mem) (off : Nat) (h0 : a off = b off) (h1 : a (off + 1) = b (off + 1)) :
    rd16 a off = rd16 b off := by
  unfold rd16
  rw [h0, h1]

theorem ptr6_4_mapped (p : Nat) (hp : p < 40) (h2 : p ≠ 2) (h3 : p ≠ 3) :
    ptr6_4.getD p (-1) = (paramprob_pointer p : Int) ∧ paramprob_pointer p < 256 := by
  interval_cases p <;> first | omega | exact ⟨rfl, by decide⟩

theorem ptr6_4_unmapped (p : Nat) (hp : p = 2 ∨ p = 3 ∨ p = 40) : ptr6_4.getD p (-1) = -1 := by
  rcases hp with h | h | h <;> rw [h] <;> rfl

/-- The Parameter Problem mapping in terms of the word that the code reads.  Here `p` is the
32-bit word at bytes 4..7 of the ICMP header as `nat46_fixup_icmp6_paramprob` loads it, in host
order (on the little-endian host the byte-swapped pointer field), and the ICMPv4 pointer is
byte 4.  Code 1 gives type 3, code 2; code 0 with `p` one of 0, 1, 4..39 gives type
12, code 0 and the pointer of the table; code 2, every other code, and code 0 with `p` 2, 3 or
at least 40 set `ip6h->nexthdr` to `NEXTHDR_NONE` and leave the message and the tail
truncation size as they were, so the embedded packet is not translated. -/
theorem nat46_fixup_icmp6_paramprob_mapping (E : packet_env) (nat46 : nat46_instance_t)
    (st : icmp6_state) :
    (st.icmp6h 1 = 1 →
      (nat46_fixup_icmp6_paramprob E nat46 st).icmp6h 0 = 3 ∧
      (nat46_fixup_icmp6_paramprob E nat46 st).icmp6h 1 = 2 ∧
      (nat46_fixup_icmp6_paramprob E nat46 st).ip6h = st.ip6h) ∧
    (st.icmp6h 1 = 0 → rd32 st.icmp6h 4 < 40 → rd32 st.icmp6h 4 ≠ 2 → rd32 st.icmp6h 4 ≠ 3 →
      (nat46_fixup_icmp6_paramprob E nat46 st).icmp6h 0 = 12 ∧
      (nat46_fixup_icmp6_paramprob E nat46 st).icmp6h 1 = 0 ∧
      (nat46_fixup_icmp6_paramprob E nat46 st).icmp6h 4 = paramprob_pointer (rd32 st.icmp6h 4) ∧
      (nat46_fixup_icmp6_paramprob E nat46 st).ip6h = st.ip6h) ∧
    (2 ≤ st.icmp6h 1 ∨ (st.icmp6h 1 = 0 ∧
        (rd32 st.icmp6h 4 = 2 ∨ rd32 st.icmp6h 4 = 3 ∨ 40 ≤ rd32 st.icmp6h 4)) →
      (nat46_fixup_icmp6_paramprob E nat46 st).ip6h 6 = NEXTHDR_NONE ∧
      (nat46_fixup_icmp6_paramprob E nat46 st).icmp6h = st.icmp6h ∧
      (nat46_fixup_icmp6_paramprob E nat46 st).tailTruncSize = st.tailTruncSize) := by
  have hlen : ptr6_4.length = 41 := rfl
  refine ⟨fun h => ?_, fun h hp h2 h3 => ?_, fun h => ?_⟩
  · have e : nat46_fixup_icmp6_paramprob E nat46 st = xlate_embedded6 E nat46
        { st with icmp6h := update_icmp6_type_code st.icmp6h 3 2 } := by
      unfold nat46_fixup_icmp6_paramprob
      simp only [h, if_true]
    rw [e]
    have u := update_then_embedded6 E nat46 st 3 2 (by omega) (by omega)
    exact ⟨u.1, u.2.1, u.2.2.2⟩
  · obtain ⟨ht, hlt⟩ := ptr6_4_mapped _ hp h2 h3
    obtain ⟨m, hm⟩ : ∃ m, m = update_icmp6_type_code (store (wr16 st.icmp6h 2
        (csum16_upd (rd16 st.icmp6h 2) (rd32 st.icmp6h 4 &&& 0xffff)
          (to_u16 ((paramprob_pointer (rd32 st.icmp6h 4) : Int) * 2 ^ 8)))) 4
        (0xff &&& paramprob_pointer (rd32 st.icmp6h 4))) 12 0 := ⟨_, rfl⟩
    have e : nat46_fixup_icmp6_paramprob E nat46 st =
        xlate_embedded6 E nat46 { st with icmp6h := m } := by
      rw [hm]
      unfold nat46_fixup_icmp6_paramprob
      have h1 : st.icmp6h 1 ≠ 1 := by omega
      have h41 : rd32 st.icmp6h 4 < 41 := by omega
      have hge : ((paramprob_pointer (rd32 st.icmp6h 4) : Nat) : Int) ≥ 0 := by omega
      have h01 : ¬ ((0 : Nat) = 1) := by decide
      simp only [h, h01, hlen, h41, ht, hge, if_true, if_false, Int.toNat_ofNat]
    have hand : 0xff &&& paramprob_pointer (rd32 st.icmp6h 4) =
        paramprob_pointer (rd32 st.icmp6h 4) := by
      rw [Nat.and_comm]
      exact (Nat.and_pow_two_sub_one_eq_mod _ 8).trans (Nat.mod_eq_of_lt hlt)
    rw [e]
    refine ⟨?_, ?_, ?_, rfl⟩
    · rw [xlate_embedded6_frame _ _ _ 0 (by omega)]
      show m 0 = 12
      rw [hm, update_icmp6_type_code_type]
    · rw [xlate_embedded6_frame _ _ _ 1 (by omega)]
      show m 1 = 0
      rw [hm, update_icmp6_type_code_code]
    · rw [xlate_embedded6_frame _ _ _ 4 (by omega)]
      show m 4 = _
      rw [hm, update_icmp6_type_code_rest _ _ _ 4 (by omega), hand]
      simp [store]
  · have e : nat46_fixup_icmp6_paramprob E nat46 st =
        { st with ip6h := store st.ip6h 6 NEXTHDR_NONE } := by
      unfold nat46_fixup_icmp6_paramprob
      rcases h with h | ⟨h, hp⟩
      · have h1 : st.icmp6h 1 ≠ 1 := by omega
        have h0 : st.icmp6h 1 ≠ 0 := by omega
        simp only [h1, h0, if_false]
      · have h01 : ¬ ((0 : Nat) = 1) := by decide
        simp only [h, h01, if_true, if_false, hlen]
        by_cases h41 : rd32 st.icmp6h 4 < 41
        · have hu := ptr6_4_unmapped (rd32 st.icmp6h 4) (by omega)
          have hneg : ¬ ((-1 : Int) ≥ 0) := by omega
          simp only [h41, hu, hneg, if_true, if_false]
        · simp only [h41, if_false]
    rw [e]
    refine ⟨?_, rfl, rfl⟩
    show store st.ip6h 6 NEXTHDR_NONE 6 = NEXTHDR_NONE
    simp [store]

/-- C18 (the code at the failing input): an ICMPv6 Parameter Problem with code 0 whose pointer
field (bytes 4..7, network byte order) is `00 00 00 06`, the pointer 6 to the Next Header
field.  `nat46_fixup_icmp6_paramprob` loads the field without `ntohl`, so on the little-endian
host it reads `0x06000000`, finds it outside the table and marks the packet for drop
(`nexthdr = NEXTHDR_NONE`, message unchanged), also when reached through `nat46_fixup_icmp6`.
The entry 9 of the table is reached only by the byte-swapped field `06 00 00 00`. -/
theorem nat46_fixup_icmp6_paramprob_drops_wire_pointer :
    [4, 5, 6, 7].map (icmp6_msg [4, 0, 0xab, 0xcd, 0, 0, 0, 6]).icmp6h = [0, 0, 0, 6] ∧
    ntohl (rd32 (icmp6_msg [4, 0, 0xab, 0xcd, 0, 0, 0, 6]).icmp6h 4) = 6 ∧
    rd32 (icmp6_msg [4, 0, 0xab, 0xcd, 0, 0, 0, 6]).icmp6h 4 = 0x06000000 ∧
    (nat46_fixup_icmp6_paramprob env_sum instance_one
      (icmp6_msg [4, 0, 0xab, 0xcd, 0, 0, 0, 6])).ip6h 6 = NEXTHDR_NONE ∧
    (nat46_fixup_icmp6_paramprob env_sum instance_one
      (icmp6_msg [4, 0, 0xab, 0xcd, 0, 0, 0, 6])).icmp6h =
      (icmp6_msg [4, 0, 0xab, 0xcd, 0, 0, 0, 6]).icmp6h ∧
    (nat46_fixup_icmp6 env_sum instance_one
      (icmp6_msg [4, 0, 0xab, 0xcd, 0, 0, 0, 6])).ip6h 6 = NEXTHDR_NONE ∧
    (nat46_fixup_icmp6_paramprob env_sum instance_one
      (icmp6_msg [4, 0, 0xab, 0xcd, 6, 0, 0, 0])).icmp6h 0 = 12 ∧
    (nat46_fixup_icmp6_paramprob env_sum instance_one
      (icmp6_msg [4, 0, 0xab, 0xcd, 6, 0, 0, 0])).icmp6h 4 = 9 := by
  have hd := (nat46_fixup_icmp6_paramprob_mapping env_sum instance_one
    (icmp6_msg [4, 0, 0xab, 0xcd, 0, 0, 0, 6])).2.2
    (Or.inr ⟨rfl, Or.inr (Or.inr (by decide))⟩)
  have hm := (nat46_fixup_icmp6_paramprob_mapping env_sum instance_one
    (icmp6_msg [4, 0, 0xab, 0xcd, 6, 0, 0, 0])).2.1 rfl (by decide) (by decide) (by decide)
  refine ⟨by decide, by decide, by decide, hd.1, hd.2.1, ?_, hm.1, hm.2.2.1.trans (by decide)⟩
  have e : nat46_fixup_icmp6 env_sum instance_one (icmp6_msg [4, 0, 0xab, 0xcd, 0, 0, 0, 6]) =
      nat46_fixup_icmp6_paramprob env_sum instance_one
        (icmp6_msg [4, 0, 0xab, 0xcd, 0, 0, 0, 6]) := by
    unfold nat46_fixup_icmp6
    rfl
  rw [e]
  exact hd.1

/-! ### ICMPv4 to ICMPv6 -/

theorem xlate_pkt_in_err_tail_frame (S : skb_env) (nat46 : nat46_instance_t) (st : icmp4_state)
    (hskb : S.skb_tailroom < 20 → S.icmp_hdr = 20) (i : Nat) (h4 : 4 ≤ i) (h28 : i < 28) :
    (xlate_pkt_in_err_tail S nat46 st).2.pkt i = st.pkt i := by
  unfold xlate_pkt_in_err_tail
  simp only [IPV4HDRSIZE, IPV6HDRSIZE, IPV6V4HDRDELTA]
  split
  · rfl
  · split
    · rfl
    · have h2 : i ≠ 2 := by omega
      have h3 : i ≠ 3 := by omega
      have hn1 : ¬ (28 ≤ i) := by omega
      have hn2 : ¬ (68 ≤ i) := by omega
      by_cases ht : (20 : Int) ≤ S.skb_tailroom
      · simp [ht, wr16, store, memcpy, h2, h3, hn1, hn2]
      · have hh : S.icmp_hdr = 20 := hskb (by omega)
        simp [ht, hh, wr16, store, memcpy, h2, h3, hn1, hn2]

theorem xlate_pkt_in_err_v4_to_v6_frame (S : skb_env) (nat46 : nat46_instance_t)
    (st : icmp4_state) (hskb : S.skb_tailroom < 20 → S.icmp_hdr = 20) (i : Nat) (h4 : 4 ≤ i)
    (h28 : i < 28) : (xlate_pkt_in_err_v4_to_v6 S nat46 st).2.pkt i = st.pkt i := by
  have h37 : i ≠ 20 + 8 + 9 := by omega
  have h48 : i ≠ 20 + 8 + 20 := by omega
  unfold xlate_pkt_in_err_v4_to_v6
  simp only [IPV4HDRSIZE]
  split
  · rw [xlate_pkt_in_err_tail_frame S nat46 _ hskb i h4 h28]
    simp [store, h37]
  · split
    · rw [xlate_pkt_in_err_tail_frame S nat46 _ hskb i h4 h28]
      simp [store, h37]
    · split
      · split
        · rw [xlate_pkt_in_err_tail_frame S nat46 _ hskb i h4 h28]
          simp [store, h37, h48]
        · split
          · rw [xlate_pkt_in_err_tail_frame S nat46 _ hskb i h4 h28]
            simp [store, h37, h48]
          · simp [store, h37]
      · rfl

/-- The ICMPv4 Destination Unreachable mapping, the pointer word taken in host order.  With
the ICMP header at offset 20 of the
packet (type 20, code 21, the 32-bit pointer word 24..27 as the host stores it, the MTU at 26
and 27 read with `ntohs`), `nat46_fixup_icmp_dest_unreach` leaves type 1 code 0 for the codes
0, 1, 5, 6, 7, 8, 11, 12, type 1 code 1 for 9, 10, 13, 15, type 1 code 4 for 3, type 4 code 1
with pointer word 6 for code 2, and type 2 code 0 for code 4 with the MTU raised to 1280 when
it was below and unchanged otherwise; for code 14 and the codes from 16 on it returns 0 with
`iph->protocol` set to `NEXTHDR_NONE` and the bytes of the embedded packet (offset 28 on) as
they were.  The transport header of an skb whose head had to be expanded is assumed to be the
ICMP header. -/
theorem nat46_fixup_icmp_dest_unreach_mapping (S : skb_env) (nat46 : nat46_instance_t)
    (st : icmp4_state) (hskb : S.skb_tailroom < 20 → S.icmp_hdr = 20) :
    (st.pkt 21 = 0 ∨ st.pkt 21 = 1 ∨ st.pkt 21 = 5 ∨ st.pkt 21 = 6 ∨ st.pkt 21 = 7 ∨
        st.pkt 21 = 8 ∨ st.pkt 21 = 11 ∨ st.pkt 21 = 12 →
      (nat46_fixup_icmp_dest_unreach S nat46 st).2.pkt 20 = 1 ∧
      (nat46_fixup_icmp_dest_unreach S nat46 st).2.pkt 21 = 0) ∧
    (st.pkt 21 = 9 ∨ st.pkt 21 = 10 ∨ st.pkt 21 = 13 ∨ st.pkt 21 = 15 →
      (nat46_fixup_icmp_dest_unreach S nat46 st).2.pkt 20 = 1 ∧
      (nat46_fixup_icmp_dest_unreach S nat46 st).2.pkt 21 = 1) ∧
    (st.pkt 21 = 3 →
      (nat46_fixup_icmp_dest_unreach S nat46 st).2.pkt 20 = 1 ∧
      (nat46_fixup_icmp_dest_unreach S nat46 st).2.pkt 21 = 4) ∧
    (st.pkt 21 = 2 →
      (nat46_fixup_icmp_dest_unreach S nat46 st).2.pkt 20 = 4 ∧
      (nat46_fixup_icmp_dest_unreach S nat46 st).2.pkt 21 = 1 ∧
      rd32 (nat46_fixup_icmp_dest_unreach S nat46 st).2.pkt 24 = 6) ∧
    (st.pkt 21 = 4 →
      (nat46_fixup_icmp_dest_unreach S nat46 st).2.pkt 20 = 2 ∧
      (nat46_fixup_icmp_dest_unreach S nat46 st).2.pkt 21 = 0 ∧
      ntohs (rd16 (nat46_fixup_icmp_dest_unreach S nat46 st).2.pkt 26) =
        (if ntohs (rd16 st.pkt 26) < 1280 then 1280 else ntohs (rd16 st.pkt 26))) ∧
    (st.pkt 21 = 14 ∨ 16 ≤ st.pkt 21 →
      (nat46_fixup_icmp_dest_unreach S nat46 st).1 = 0 ∧
      (nat46_fixup_icmp_dest_unreach S nat46 st).2.pkt 9 = NEXTHDR_NONE ∧
      ∀ i, 28 ≤ i → (nat46_fixup_icmp_dest_unreach S nat46 st).2.pkt i = st.pkt i) := by
  have hcode : store st.pkt 20 1 (20 + 1) = st.pkt 21 := by simp [store]
  have key : ∀ (P : Mem) (i : Nat), 4 ≤ i → i < 28 →
      (xlate_pkt_in_err_v4_to_v6 S nat46 { st with pkt := P }).2.pkt i = P i := by
    intro P i h4 h28
    exact xlate_pkt_in_err_v4_to_v6_frame S nat46 _ hskb i h4 h28
  have hset : ∀ c c2 : Nat, st.pkt 21 = c →
      nat46_fixup_icmp_dest_unreach S nat46 st = xlate_pkt_in_err_v4_to_v6 S nat46
        { st with pkt := store (store st.pkt 20 1) 21 c2 } →
      (nat46_fixup_icmp_dest_unreach S nat46 st).2.pkt 20 = 1 ∧
      (nat46_fixup_icmp_dest_unreach S nat46 st).2.pkt 21 = c2 := by
    intro c c2 _ e
    rw [e, key _ 20 (by omega) (by omega), key _ 21 (by omega) (by omega)]
    simp [store]
  refine ⟨fun h => ?_, fun h => ?_, fun h => ?_, fun h => ?_, fun h => ?_, fun h => ?_⟩
  · rcases h with h | h | h | h | h | h | h | h <;>
      exact hset _ 0 h (by
        unfold nat46_fixup_icmp_dest_unreach
        simp only [IPV4HDRSIZE, hcode, h]
        simp)
  · rcases h with h | h | h | h <;>
      exact hset _ 1 h (by
        unfold nat46_fixup_icmp_dest_unreach
        simp only [IPV4HDRSIZE, hcode, h]
        simp)
  · exact hset _ 4 h (by
      unfold nat46_fixup_icmp_dest_unreach
      simp only [IPV4HDRSIZE, hcode, h]
      simp)
  · have e : nat46_fixup_icmp_dest_unreach S nat46 st = xlate_pkt_in_err_v4_to_v6 S nat46
        { st with pkt := store (store (wr32 (store st.pkt 20 1) 24 6) 20 4) 21 1 } := by
      unfold nat46_fixup_icmp_dest_unreach
      simp only [IPV4HDRSIZE, hcode, h]
      simp
    rw [e]
    refine ⟨?_, ?_, ?_⟩
    · rw [key _ 20 (by omega) (by omega)]
      simp [store]
    · rw [key _ 21 (by omega) (by omega)]
      simp [store]
    · unfold rd32
      rw [key _ 24 (by omega) (by omega), key _ (24 + 1) (by omega) (by omega),
        key _ (24 + 2) (by omega) (by omega), key _ (24 + 3) (by omega) (by omega)]
      simp [store, wr32]
  · obtain ⟨P, hP⟩ : ∃ P, P = store (store (store st.pkt 20 1) 20 2) 21 0 := ⟨_, rfl⟩
    have hP26 : rd16 P 26 = rd16 st.pkt 26 := by
      rw [hP]
      simp [rd16, store]
    have e : nat46_fixup_icmp_dest_unreach S nat46 st = xlate_pkt_in_err_v4_to_v6 S nat46
        { st with pkt := if ntohs (rd16 P 26) < 1280 then wr16 P 26 (ntohs 1280) else P } := by
      rw [hP]
      unfold nat46_fixup_icmp_dest_unreach
      simp only [IPV4HDRSIZE, hcode, h]
      simp
    rw [e]
    refine ⟨?_, ?_, ?_⟩
    · rw [key _ 20 (by omega) (by omega), hP]
      split <;> simp [store, wr16]
    · rw [key _ 21 (by omega) (by omega), hP]
      split <;> simp [store, wr16]
    · rw [rd16_congr _ _ 26 (key _ 26 (by omega) (by omega)) (key _ (26 + 1) (by omega)
        (by omega)), hP26]
      by_cases hm : ntohs (rd16 st.pkt 26) < 1280
      · rw [if_pos hm, if_pos hm, rd16_wr16 _ _ _ (ntohs_lt _), ntohs_ntohs _ (by omega)]
      · rw [if_neg hm, if_neg hm, hP26]
  · have e : nat46_fixup_icmp_dest_unreach S nat46 st =
        (0, { st with pkt := store (store st.pkt 20 1) 9 NEXTHDR_NONE }) := by
      unfold nat46_fixup_icmp_dest_unreach
      simp only [IPV4HDRSIZE, hcode]
      have h0 : ¬ (st.pkt 21 = 0 ∨ st.pkt 21 = 1) := by omega
      have h2 : st.pkt 21 ≠ 2 := by omega
      have h3 : st.pkt 21 ≠ 3 := by omega
      have h4 : st.pkt 21 ≠ 4 := by omega
      have h5 : ¬ (st.pkt 21 = 5 ∨ st.pkt 21 = 6 ∨ st.pkt 21 = 7 ∨ st.pkt 21 = 8) := by omega
      have h9 : ¬ (st.pkt 21 = 9 ∨ st.pkt 21 = 10) := by omega
      have h11 : ¬ (st.pkt 21 = 11 ∨ st.pkt 21 = 12) := by omega
      have h13 : ¬ (st.pkt 21 = 13 ∨ st.pkt 21 = 15) := by omega
      simp only [h0, h2, h3, h4, h5, h9, h11, h13, if_false]
    rw [e]
    refine ⟨rfl, by simp [store], ?_⟩
    intro i hi
    have h20 : i ≠ 20 := by omega
    have h9 : i ≠ 9 := by omega
    simp [store, h20, h9]

/-- The example message with code 4 and MTU 576 on an skb whose head is expanded: the result
is Packet Too Big (type 2, code 0) with MTU 1280. -/
theorem nat46_fixup_icmp_dest_unreach_mapping_witness :
    (skb_expand.skb_tailroom < 20 → skb_expand.icmp_hdr = 20) ∧
    (nat46_fixup_icmp_dest_unreach skb_expand instance_one (icmp4_msg 4 2 64)).2.pkt 20 = 2 ∧
    ntohs (rd16 (nat46_fixup_icmp_dest_unreach skb_expand instance_one
      (icmp4_msg 4 2 64)).2.pkt 26) = 1280 :=
  ⟨fun _ => rfl,
    ((nat46_fixup_icmp_dest_unreach_mapping skb_expand instance_one (icmp4_msg 4 2 64)
      (fun _ => rfl)).2.2.2.2.1 rfl).1,
    ((nat46_fixup_icmp_dest_unreach_mapping skb_expand instance_one (icmp4_msg 4 2 64)
      (fun _ => rfl)).2.2.2.2.1 rfl).2.2.trans (by decide)⟩

/-- What `nat46_fixup_icmp_dest_unreach` leaves for code 2: type 4, code 1, and the four bytes
of the pointer field as the host stores the `u32` value 6. -/
theorem nat46_fixup_icmp_dest_unreach_code2 (S : skb_env) (nat46 : nat46_instance_t)
    (st : icmp4_state) (hskb : S.skb_tailroom < 20 → S.icmp_hdr = 20) (h : st.pkt 21 = 2) :
    (nat46_fixup_icmp_dest_unreach S nat46 st).2.pkt 20 = 4 ∧
    (nat46_fixup_icmp_dest_unreach S nat46 st).2.pkt 21 = 1 ∧
    [24, 25, 26, 27].map (nat46_fixup_icmp_dest_unreach S nat46 st).2.pkt = [6, 0, 0, 0] := by
  have hcode : store st.pkt 20 1 (20 + 1) = st.pkt 21 := by simp [store]
  have key : ∀ (P : Mem) (i : Nat), 4 ≤ i → i < 28 →
      (xlate_pkt_in_err_v4_to_v6 S nat46 { st with pkt := P }).2.pkt i = P i := by
    intro P i h4 h28
    exact xlate_pkt_in_err_v4_to_v6_frame S nat46 _ hskb i h4 h28
  have e : nat46_fixup_icmp_dest_unreach S nat46 st = xlate_pkt_in_err_v4_to_v6 S nat46
      { st with pkt := store (store (wr32 (store st.pkt 20 1) 24 6) 20 4) 21 1 } := by
    unfold nat46_fixup_icmp_dest_unreach
    simp only [IPV4HDRSIZE, hcode, h]
    simp
  rw [e]
  simp only [List.map]
  rw [key _ 20 (by omega) (by omega), key _ 21 (by omega) (by omega),
    key _ 24 (by omega) (by omega), key _ 25 (by omega) (by omega),
    key _ 26 (by omega) (by omega), key _ 27 (by omega) (by omega)]
  simp [store, wr32]

/-- C20 (the code at the failing input): for the example Destination Unreachable message with
code 2 (Protocol Unreachable), `nat46_fixup_icmp_dest_unreach` leaves an ICMPv6 Parameter
Problem (type 4, code 1) whose pointer field, the bytes 24..27 of the packet, is
`06 00 00 00`: the code stores the `u32` value 6 without `htonl`, so the pointer on the wire
(network byte order) is `0x06000000` and not 6, the offset of the Next Header field. -/
theorem nat46_fixup_icmp_dest_unreach_pointer_not_6 :
    (icmp4_msg 2 0 0).pkt 20 = 3 ∧ (icmp4_msg 2 0 0).pkt 21 = 2 ∧
    (nat46_fixup_icmp_dest_unreach skb_expand instance_one (icmp4_msg 2 0 0)).2.pkt 20 = 4 ∧
    (nat46_fixup_icmp_dest_unreach skb_expand instance_one (icmp4_msg 2 0 0)).2.pkt 21 = 1 ∧
    [24, 25, 26, 27].map
      (nat46_fixup_icmp_dest_unreach skb_expand instance_one (icmp4_msg 2 0 0)).2.pkt =
      [6, 0, 0, 0] ∧
    ntohl (rd32 (nat46_fixup_icmp_dest_unreach skb_expand instance_one
      (icmp4_msg 2 0 0)).2.pkt 24) = 0x06000000 := by
  have h := nat46_fixup_icmp_dest_unreach_code2 skb_expand instance_one (icmp4_msg 2 0 0)
    (fun _ => rfl) rfl
  have hr := ((nat46_fixup_icmp_dest_unreach_mapping skb_expand instance_one (icmp4_msg 2 0 0)
    (fun _ => rfl)).2.2.2.1 rfl).2.2
  refine ⟨rfl, rfl, h.1, h.2.1, h.2.2, ?_⟩
  rw [hr]
  decide

/-! ### Fragment identification -/

theorem ntohl_ntohs (i : Nat) (hi : i < 2 ^ 16) : ntohl (ntohs i) = i * 2 ^ 16 := by
  unfold ntohl ntohs
  have hi2 : i < 65536 := hi
  have hq : i / 256 < 256 := by omega
  have h1 : i / 256 % 256 = i / 256 := Nat.mod_eq_of_lt hq
  rw [h1]
  have e0 : (i % 256 * 256 + i / 256) % 256 = i / 256 := by omega
  have e1 : (i % 256 * 256 + i / 256) / 2 ^ 8 % 256 = i % 256 := by omega
  have hy : i % 256 * 256 + i / 256 < 65536 := by omega
  have e2 : (i % 256 * 256 + i / 256) / 2 ^ 16 % 256 = 0 := by
    rw [Nat.div_eq_of_lt (by omega)]
  have e3 : (i % 256 * 256 + i / 256) / 2 ^ 24 % 256 = 0 := by
    rw [Nat.div_eq_of_lt (by omega)]
  rw [e0, e1, e2, e3]
  omega

/-- C27: fragment ID folding.  When the high 16-bit word of the identification `v` is zero,
`fold_ipv6_frag_id(v)` is the low 16-bit word of `v`; and for a 16-bit IPv4 ID field `i` the
identification `htonl(ntohs(i))` that the IPv4 input path writes folds back to `i`. -/
theorem fold_ipv6_frag_id_round_trip (v i : Nat) (hv : v >>> 16 = 0) (hi : i < 2 ^ 16) :
    fold_ipv6_frag_id v = v &&& 0xffff ∧ fold_ipv6_frag_id (ntohl (ntohs i)) = i := by
  constructor
  · unfold fold_ipv6_frag_id
    rw [hv]
    simp
  · unfold fold_ipv6_frag_id
    rw [ntohl_ntohs i hi]
    have e1 : (i * 2 ^ 16) >>> 16 = i := by
      rw [Nat.shiftRight_eq_div_pow]
      omega
    have e2 : (i * 2 ^ 16) &&& 0xffff = 0 := by
      rw [and_ffff]
      omega
    rw [e1, e2, Nat.xor_zero, Nat.and_comm, and_ffff]
    exact Nat.mod_eq_of_lt hi

/-- The identification 0x1234 and the IPv4 ID field 0xabcd. -/
theorem fold_ipv6_frag_id_round_trip_witness :
    fold_ipv6_frag_id 0x1234 = 0x1234 &&& 0xffff ∧
    fold_ipv6_frag_id (ntohl (ntohs 0xabcd)) = 0xabcd :=
  fold_ipv6_frag_id_round_trip 0x1234 0xabcd (by decide) (by decide)

/-! ### Nested ICMP errors -/

/-- C23: nested ICMP errors are rejected.  When the embedded IPv4 header (offset 28, protocol
byte at 37) carries ICMP with a type (byte 48) other than Echo and Echo Reply, or a protocol
other than TCP, UDP and ICMP, `xlate_pkt_in_err_v4_to_v6` returns 0 with `*sport` and `*dport`
zero, and no byte of the packet other than the embedded protocol byte is changed: the embedded
addresses and the outer total length are as before. -/
theorem xlate_pkt_in_err_v4_to_v6_rejects (S : skb_env) (nat46 : nat46_instance_t)
    (st : icmp4_state)
    (h : (st.pkt 37 = IPPROTO_ICMP ∧ st.pkt 48 ≠ ICMP_ECHO ∧ st.pkt 48 ≠ ICMP_ECHOREPLY) ∨
      (st.pkt 37 ≠ IPPROTO_TCP ∧ st.pkt 37 ≠ IPPROTO_UDP ∧ st.pkt 37 ≠ IPPROTO_ICMP)) :
    (xlate_pkt_in_err_v4_to_v6 S nat46 st).1 = 0 ∧
    (xlate_pkt_in_err_v4_to_v6 S nat46 st).2.sport = 0 ∧
    (xlate_pkt_in_err_v4_to_v6 S nat46 st).2.dport = 0 ∧
    (∀ i, i ≠ 37 → (xlate_pkt_in_err_v4_to_v6 S nat46 st).2.pkt i = st.pkt i) ∧
    rd16 (xlate_pkt_in_err_v4_to_v6 S nat46 st).2.pkt 2 = rd16 st.pkt 2 ∧
    (∀ i, 40 ≤ i → i < 48 → (xlate_pkt_in_err_v4_to_v6 S nat46 st).2.pkt i = st.pkt i) := by
  have key : (xlate_pkt_in_err_v4_to_v6 S nat46 st).1 = 0 ∧
      (xlate_pkt_in_err_v4_to_v6 S nat46 st).2.sport = 0 ∧
      (xlate_pkt_in_err_v4_to_v6 S nat46 st).2.dport = 0 ∧
      (∀ i, i ≠ 37 → (xlate_pkt_in_err_v4_to_v6 S nat46 st).2.pkt i = st.pkt i) := by
    unfold xlate_pkt_in_err_v4_to_v6
    simp only [IPV4HDRSIZE, IPPROTO_TCP, IPPROTO_UDP, IPPROTO_ICMP, ICMP_ECHO, ICMP_ECHOREPLY,
      NEXTHDR_ICMP] at h ⊢
    rcases h with ⟨hp, h8, h0⟩ | ⟨h6, h17, h1⟩
    · have e48 : store st.pkt (20 + 8 + 9) 58 (20 + 8 + 20) = st.pkt 48 := by simp [store]
      simp only [hp, e48, h8, h0]
      refine ⟨by simp, by simp, by simp, ?_⟩
      intro i hi
      simp [store, hi]
    · simp only [h6, h17, h1]
      simp
  refine ⟨key.1, key.2.1, key.2.2.1, key.2.2.2, ?_, ?_⟩
  · exact rd16_congr _ _ 2 (key.2.2.2 2 (by omega)) (key.2.2.2 3 (by omega))
  · intro i h40 _
    exact key.2.2.2 i (by omega)

/-- The example Time Exceeded message around an ICMP error. -/
theorem xlate_pkt_in_err_v4_to_v6_rejects_witness :
    (xlate_pkt_in_err_v4_to_v6 skb_expand instance_one icmp4_nested).1 = 0 ∧
    (xlate_pkt_in_err_v4_to_v6 skb_expand instance_one icmp4_nested).2.sport = 0 ∧
    (xlate_pkt_in_err_v4_to_v6 skb_expand instance_one icmp4_nested).2.dport = 0 :=
  have h := xlate_pkt_in_err_v4_to_v6_rejects skb_expand instance_one icmp4_nested
    (Or.inl ⟨by decide, by decide, by decide⟩)
  ⟨h.1, h.2.1, h.2.2.1⟩

/-! ### Sorted views -/

theorem sweep_filter (key : nat46_xlate_rulepair_t → Int) (k : Int) (n : Nat) :
    ∀ l : List nat46_xlate_rulepair_t,
      (sweep key n l).filter (fun p => decide (key p = k)) =
        l.filter (fun p => decide (key p = k)) := by
  induction n with
  | zero => intro l; rfl
  | succ n ih =>
    intro l
    rcases l with _ | ⟨a, _ | ⟨b, t⟩⟩
    · rfl
    · rfl
    · have e : sweep key (n + 1) (a :: b :: t) =
          if key a < key b then b :: sweep key n (a :: t) else a :: sweep key n (b :: t) := rfl
      rw [e]
      split
      · rename_i hlt
        rw [List.filter_cons, ih (a :: t)]
        by_cases ha : key a = k
        · have hb : key b ≠ k := by omega
          simp [List.filter_cons, ha, hb]
        · simp [List.filter_cons, ha]
      · rw [List.filter_cons, ih (b :: t)]
        simp [List.filter_cons]

theorem sort_inner_filter (key : nat46_xlate_rulepair_t → Int) (k : Int) (count : Nat)
    (array : List nat46_xlate_rulepair_t) :
    (sort_inner key count 0 array).filter (fun p => decide (key p = k)) =
      array.filter (fun p => decide (key p = k)) := by
  have e := sort_inner_eq_sweep key count [] array
  simp only [List.length_nil, List.nil_append] at e
  rw [e, sweep_filter]

theorem sort_outer_filter (key : nat46_xlate_rulepair_t → Int) (k : Int) (nelem count : Nat) :
    ∀ (i : Nat) (array : List nat46_xlate_rulepair_t),
      (sort_outer key nelem count i array).filter (fun p => decide (key p = k)) =
        array.filter (fun p => decide (key p = k)) := by
  induction count with
  | zero => intro i array; rfl
  | succ count ih =>
    intro i array
    have e : sort_outer key nelem (count + 1) i array =
        sort_outer key nelem count (i + 1) (sort_inner key (nelem - i - 1) 0 array) := rfl
    rw [e, ih, sort_inner_filter]

theorem sort_by_view (key : nat46_xlate_rulepair_t → Int) (pairs : List nat46_xlate_rulepair_t) :
    sorted_view key (sort_by key pairs) pairs :=
  ⟨sort_by_perm key pairs, sort_by_sorted key pairs,
    fun k => sort_outer_filter key k pairs.length (pairs.length - 1) 0 pairs⟩

/-- C29: sorted views.  After `nat46_sort_rule_array` the pair list is as before, and each of
the four views is a permutation of it, in non-increasing order of its key prefix length, and
stable (for every key value the pairs with that key keep their order). -/
theorem nat46_sort_rule_array_views (nat46 : nat46_instance_t) :
    (nat46_sort_rule_array nat46).pairs = nat46.pairs ∧
    sorted_view (fun p => p.local.v4_pref_len)
      (nat46_sort_rule_array nat46).sorted_ipv4_local_pairs nat46.pairs ∧
    sorted_view (fun p => p.remote.v4_pref_len)
      (nat46_sort_rule_array nat46).sorted_ipv4_remote_pairs nat46.pairs ∧
    sorted_view (fun p => p.local.v6_pref_len)
      (nat46_sort_rule_array nat46).sorted_ipv6_local_pairs nat46.pairs ∧
    sorted_view (fun p => p.remote.v6_pref_len)
      (nat46_sort_rule_array nat46).sorted_ipv6_remote_pairs nat46.pairs :=
  ⟨rfl, sort_by_view _ _, sort_by_view _ _, sort_by_view _ _, sort_by_view _ _⟩

/-! ### Lookup soundness -/

theorem testBit_byte (a i j : Nat) (hj : j < 8) :
    (a / 2 ^ (8 * i) % 256).testBit j = a.testBit (8 * i + j) := by
  have e : (256 : Nat) = 2 ^ 8 := rfl
  rw [e, Nat.testBit_mod_two_pow, ← Nat.shiftRight_eq_div_pow, Nat.testBit_shiftRight]
  simp [hj]

theorem testBit_byte_high (a i j : Nat) (hj : 8 ≤ j) :
    (a / 2 ^ (8 * i) % 256).testBit j = false := by
  have e : (256 : Nat) = 2 ^ 8 := rfl
  rw [e, Nat.testBit_mod_two_pow]
  have : ¬ j < 8 := by omega
  simp [this]

theorem testBit_ntohl (a j : Nat) :
    (ntohl a).testBit j = (decide (j < 32) && a.testBit (8 * (3 - j / 8) + j % 8)) := by
  have hb : ∀ x : Nat, x % 256 < 2 ^ 8 := fun x => Nat.mod_lt _ (by decide)
  have e : ntohl a = 2 ^ 8 * (2 ^ 8 * (2 ^ 8 * (a / 2 ^ (8 * 0) % 256) + a / 2 ^ (8 * 1) % 256) +
      a / 2 ^ (8 * 2) % 256) + a / 2 ^ (8 * 3) % 256 := by
    unfold ntohl
    simp only [Nat.mul_zero, Nat.pow_zero, Nat.div_one, Nat.mul_one]
    ring
  rw [e, Nat.testBit_mul_pow_two_add _ (hb _)]
  by_cases h8 : j < 8
  · rw [if_pos h8, testBit_byte _ _ _ h8]
    have e1 : 8 * (3 - j / 8) + j % 8 = 8 * 3 + j := by omega
    have h32 : j < 32 := by omega
    simp [e1, h32]
  · rw [if_neg h8, Nat.testBit_mul_pow_two_add _ (hb _)]
    by_cases h16 : j - 8 < 8
    · rw [if_pos h16, testBit_byte _ _ _ h16]
      have e1 : 8 * (3 - j / 8) + j % 8 = 8 * 2 + (j - 8) := by omega
      have h32 : j < 32 := by omega
      simp [e1, h32]
    · rw [if_neg h16, Nat.testBit_mul_pow_two_add _ (hb _)]
      by_cases h24 : j - 8 - 8 < 8
      · rw [if_pos h24, testBit_byte _ _ _ h24]
        have e1 : 8 * (3 - j / 8) + j % 8 = 8 * 1 + (j - 8 - 8) := by omega
        have h32 : j < 32 := by omega
        simp [e1, h32]
      · rw [if_neg h24]
        by_cases h32 : j < 32
        · have h7 : j - 8 - 8 - 8 < 8 := by omega
          rw [testBit_byte _ _ _ h7]
          have e1 : 8 * (3 - j / 8) + j % 8 = 8 * 0 + (j - 8 - 8 - 8) := by omega
          simp [e1, h32]
        · rw [testBit_byte_high _ _ _ (by omega)]
          simp [h32]

theorem testBit_shl32_mask (k j : Nat) :
    ((0xffffffff <<< k) % 2 ^ 32).testBit j = (decide (k ≤ j) && decide (j < 32)) := by
  have e : (0xffffffff : Nat) = 2 ^ 32 - 1 := rfl
  rw [Nat.testBit_mod_two_pow, Nat.testBit_shiftLeft, e, Nat.testBit_two_pow_sub_one]
  by_cases h1 : k ≤ j <;> by_cases h2 : j < 32 <;> simp [h1, h2]
  all_goals omega

theorem lpm_v4_test_covers (len : Int) (h1 : 1 ≤ len) (h2 : len ≤ 32) (a p : Nat)
    (h : a &&& ntohl (shl32 U32_MASK (IPV4_BITS_MAX - len)) =
      p &&& ntohl (shl32 U32_MASK (IPV4_BITS_MAX - len))) :
    ntohl a / 2 ^ (32 - len).toNat = ntohl p / 2 ^ (32 - len).toNat := by
  obtain ⟨k, hk⟩ : ∃ k : Nat, (32 - len).toNat = k := ⟨_, rfl⟩
  have hk32 : k < 32 := by omega
  unfold IPV4_BITS_MAX at h
  rw [shl32_eq _ _ (by omega) (by omega)] at h
  unfold U32_MASK at h
  rw [hk] at h ⊢
  apply Nat.eq_of_testBit_eq
  intro i
  rw [← Nat.shiftRight_eq_div_pow, ← Nat.shiftRight_eq_div_pow, Nat.testBit_shiftRight,
    Nat.testBit_shiftRight, testBit_ntohl, testBit_ntohl]
  by_cases hlt : k + i < 32
  · have hb := congrArg (fun x => x.testBit (8 * (3 - (k + i) / 8) + (k + i) % 8)) h
    simp only [Nat.testBit_and, testBit_ntohl, testBit_shl32_mask] at hb
    have hs : 8 * (3 - (k + i) / 8) + (k + i) % 8 < 32 := by omega
    have hinv : 8 * (3 - (8 * (3 - (k + i) / 8) + (k + i) % 8) / 8) +
        (8 * (3 - (k + i) / 8) + (k + i) % 8) % 8 = k + i := by omega
    have hki : k ≤ k + i := by omega
    rw [hinv] at hb
    simp only [hs, hlt, hki, decide_True, Bool.and_true, Bool.true_and] at hb
    simp [hlt, hb]
  · simp [hlt]

theorem nat46_lpm_v4_sound (sel : nat46_xlate_rulepair_t → nat46_xlate_rule_t) (x : Mem)
    (r : nat46_xlate_rulepair_t) :
    ∀ (l : List nat46_xlate_rulepair_t) (mask : Nat),
      (∀ q ∈ l, 0 ≤ (sel q).v4_pref_len ∧ (sel q).v4_pref_len ≤ 32) →
      nat46_lpm_v4 sel (ld32 x) mask l = some r → r ∈ l ∧ covers_v4 (sel r) x := by
  intro l
  induction l with
  | nil =>
    intro mask _ h
    simp [nat46_lpm_v4] at h
  | cons q rest ih =>
    intro mask hwf h
    have hq := hwf q (List.mem_cons_self _ _)
    have hrest : ∀ t ∈ rest, 0 ≤ (sel t).v4_pref_len ∧ (sel t).v4_pref_len ≤ 32 :=
      fun t ht => hwf t (List.mem_cons_of_mem _ ht)
    by_cases hz : (sel q).v4_pref_len = 0
    · have e : nat46_lpm_v4 sel (ld32 x) mask (q :: rest) =
          if ld32 x &&& mask = (sel q).v4_pref &&& mask then some q
          else nat46_lpm_v4 sel (ld32 x) mask rest := by
        simp [nat46_lpm_v4, hz]
      rw [e] at h
      split at h
      · have hr : q = r := Option.some.inj h
        subst hr
        refine ⟨List.mem_cons_self _ _, ?_⟩
        unfold covers_v4
        rw [hz]
        have e32 : ((32 : Int) - 0).toNat = 32 := rfl
        rw [e32, Nat.div_eq_of_lt (ntohl_lt _), Nat.div_eq_of_lt (ntohl_lt _)]
      · obtain ⟨hm, hc⟩ := ih mask hrest h
        exact ⟨List.mem_cons_of_mem _ hm, hc⟩
    · have e : nat46_lpm_v4 sel (ld32 x) mask (q :: rest) =
          if ld32 x &&& ntohl (shl32 U32_MASK (IPV4_BITS_MAX - (sel q).v4_pref_len)) =
              (sel q).v4_pref &&& ntohl (shl32 U32_MASK (IPV4_BITS_MAX - (sel q).v4_pref_len))
          then some q
          else nat46_lpm_v4 sel (ld32 x)
            (ntohl (shl32 U32_MASK (IPV4_BITS_MAX - (sel q).v4_pref_len))) rest := by
        simp [nat46_lpm_v4, hz]
      rw [e] at h
      split at h
      · rename_i htest
        have hr : q = r := Option.some.inj h
        subst hr
        exact ⟨List.mem_cons_self _ _,
          lpm_v4_test_covers _ (by omega) hq.2 _ _ htest⟩
      · obtain ⟨hm, hc⟩ := ih _ hrest h
        exact ⟨List.mem_cons_of_mem _ hm, hc⟩

theorem nat46_lpm_v6_sound (sel : nat46_xlate_rulepair_t → nat46_xlate_rule_t) (x : Mem)
    (hx : IsBytes x) (r : nat46_xlate_rulepair_t) :
    ∀ l : List nat46_xlate_rulepair_t,
      (∀ q ∈ l, IsBytes (sel q).v6_pref ∧ 0 ≤ (sel q).v6_pref_len ∧ (sel q).v6_pref_len ≤ 128) →
      nat46_lpm_v6 sel x l = some r → r ∈ l ∧ covers_v6 (sel r) x := by
  intro l
  induction l with
  | nil =>
    intro _ h
    simp [nat46_lpm_v6] at h
  | cons q rest ih =>
    intro hwf h
    have hq := hwf q (List.mem_cons_self _ _)
    have hc := nat46_lpm_v6_cons sel x hx q rest hq.1 hq.2
    by_cases hcov : covers_v6 (sel q) x
    · rw [hc.1 hcov] at h
      have hr : q = r := Option.some.inj h
      subst hr
      exact ⟨List.mem_cons_self _ _, hcov⟩
    · rw [hc.2 hcov] at h
      obtain ⟨hm, hv⟩ := ih (fun t ht => hwf t (List.mem_cons_of_mem _ ht)) h
      exact ⟨List.mem_cons_of_mem _ hm, hv⟩

/-- C30: lookup soundness and no-match.  For an instance whose views were built by
`nat46_sort_rule_array` and whose prefixes of the kind looked up have lengths in range, every
pair returned by `nat46_lpm` is a pair of the instance whose prefix of that kind covers the
address, and `nat46_lpm` returns NULL when no pair's prefix of that kind covers the address,
when there are no pairs, and when the instance or the address pointer is NULL. -/
theorem nat46_lpm_sound (nat46 : nat46_instance_t) (type : nat46_rule_type_t) (x : Mem)
    (hx : IsBytes x) (hwf : ∀ q ∈ nat46.pairs, prefix_in_range type q) :
    (∀ r, nat46_lpm (some (nat46_sort_rule_array nat46)) type (some x) = some r →
      r ∈ nat46.pairs ∧ covers type r x) ∧
    ((∀ q ∈ nat46.pairs, ¬ covers type q x) →
      nat46_lpm (some (nat46_sort_rule_array nat46)) type (some x) = none) ∧
    (nat46.pairs = [] →
      nat46_lpm (some (nat46_sort_rule_array nat46)) type (some x) = none) ∧
    nat46_lpm none type (some x) = none ∧
    nat46_lpm (some (nat46_sort_rule_array nat46)) type none = none := by
  have hsound : ∀ r, nat46_lpm (some (nat46_sort_rule_array nat46)) type (some x) = some r →
      r ∈ nat46.pairs ∧ covers type r x := by
    intro r h
    cases type with
    | NAT46_IPV4_LOCAL =>
      have hv := nat46_lpm_v4_sound (fun p => p.local) x r _ 0
        (fun q hq => hwf q ((sort_by_perm _ _).mem_iff.mp hq)) h
      exact ⟨(sort_by_perm _ _).mem_iff.mp hv.1, hv.2⟩
    | NAT46_IPV4_REMOTE =>
      have hv := nat46_lpm_v4_sound (fun p => p.remote) x r _ 0
        (fun q hq => hwf q ((sort_by_perm _ _).mem_iff.mp hq)) h
      exact ⟨(sort_by_perm _ _).mem_iff.mp hv.1, hv.2⟩
    | NAT46_IPV6_LOCAL =>
      have hv := nat46_lpm_v6_sound (fun p => p.local) x hx r _
        (fun q hq => hwf q ((sort_by_perm _ _).mem_iff.mp hq)) h
      exact ⟨(sort_by_perm _ _).mem_iff.mp hv.1, hv.2⟩
    | NAT46_IPV6_REMOTE =>
      have hv := nat46_lpm_v6_sound (fun p => p.remote) x hx r _
        (fun q hq => hwf q ((sort_by_perm _ _).mem_iff.mp hq)) h
      exact ⟨(sort_by_perm _ _).mem_iff.mp hv.1, hv.2⟩
  have hnone : (∀ q ∈ nat46.pairs, ¬ covers type q x) →
      nat46_lpm (some (nat46_sort_rule_array nat46)) type (some x) = none := by
    intro hno
    cases hr : nat46_lpm (some (nat46_sort_rule_array nat46)) type (some x) with
    | none => rfl
    | some r =>
      obtain ⟨hm, hc⟩ := hsound r hr
      exact absurd hc (hno r hm)
  refine ⟨hsound, hnone, ?_, ?_, ?_⟩
  · intro he
    apply hnone
    intro q hq
    rw [he] at hq
    cases hq
  · rfl
  · cases type <;> rfl

/-- The instance with the pairs 10.0.0.0/8 and 0.0.0.0/0, and the address 10.1.2.3 looked up
among the local IPv4 prefixes. -/
theorem nat46_lpm_sound_witness :
    nat46_lpm (some (nat46_sort_rule_array instance_two)) NAT46_IPV4_LOCAL
        (some (ofBytes [10, 1, 2, 3])) = some pair_long ∧
    pair_long ∈ instance_two.pairs ∧ covers NAT46_IPV4_LOCAL pair_long (ofBytes [10, 1, 2, 3]) :=
  ⟨rfl, (nat46_lpm_sound instance_two NAT46_IPV4_LOCAL (ofBytes [10, 1, 2, 3])
    (isBytes_ofBytes _ (by decide))
    (by
      intro q hq
      simp only [instance_two, instance_of, List.mem_cons, List.mem_singleton,
        List.not_mem_nil, or_false] at hq
      rcases hq with rfl | rfl
      · exact ⟨by decide, by decide⟩
      · exact ⟨by decide, by decide⟩)).1 pair_long rfl⟩

/-! ### CE port set -/

set_option maxRecDepth 20000 in
/-- C24 (the code at the failing input): for the local rule 192.0.2.0/24 with `ea-len` 12 and
`psid-offset` 2 (PSID of 4 bits, `a = 10`) and the source port 0x5400 (PSID 5), the calls from
cursor 0 return 0x5400, 0x5401, ... and the 256th returns 0x54ff, but the 257th returns 0x9400,
the first port of the next excluded-bit pattern, where the port set of `2 ^ 10` values
continues with 0x5500: `port_set_bitmask` is a `uint8_t` and holds 0xff for every `a` above 8.
With `psid-offset` 0 and the source port 0 (PSID 0) every call returns 0, because the cursor 0
is taken for the start case again. -/
theorem nat46_get_ce_port_wraps_early :
    ((ce_port_calls (pair_psid 2) (ntohs 0x5400) 257 0).take 2 = [0x5400, 0x5401] ∧
      (ce_port_calls (pair_psid 2) (ntohs 0x5400) 257 0).getD 255 0 = 0x54ff ∧
      (ce_port_calls (pair_psid 2) (ntohs 0x5400) 257 0).getD 256 0 = 0x9400) ∧
    ce_port_calls (pair_psid 0) 0 3 0 = [0, 0, 0] := by
  refine ⟨⟨?_, ?_, ?_⟩, ?_⟩ <;> decide

/-! ### Outer and embedded address translation -/

/-- C21 (the code at the failing input): the pair with the local MAP rule 2001:db8::/120,
10.0.0.0/8, `ea-len` 24 and the remote RFC6052 rule 64:ff9b::/96 passes validation.  For
`s` = 2001:db8::7 and `d` = 64:ff9b::c633:6407 the outer translation of the TCP header with
(saddr = `d`, daddr = `s`) succeeds with `v4saddr` = 198.51.100.7 and `v4daddr` = 10.7.48.57,
but the embedded translation of the header with (saddr = `s`, daddr = `d`) yields `v4saddr` =
10.7.0.100: the 24 suffix bits of the local rule are read from the 24 bits behind bit 120 of
the address pointer, which are the first payload bytes in one case and the first bytes of the
destination address in the other. -/
theorem pairs_xlate_v6_to_v4_inner_differs :
    nat46_validate_ipair_config pair_120 = 0 ∧
    (pairs_xlate_v6_to_v4_outer instance_120 (tcp6_packet addr_d addr_s) NEXTHDR_TCP none 0 0).ret
      = 1 ∧
    (pairs_xlate_v6_to_v4_outer instance_120 (tcp6_packet addr_d addr_s) NEXTHDR_TCP none 0
      0).v4saddr = ld32 (ofBytes [198, 51, 100, 7]) ∧
    (pairs_xlate_v6_to_v4_outer instance_120 (tcp6_packet addr_d addr_s) NEXTHDR_TCP none 0
      0).v4daddr = ld32 (ofBytes [10, 7, 48, 57]) ∧
    (pairs_xlate_v6_to_v4_inner instance_120 (tcp6_packet addr_s addr_d) 0 0).1 =
      ld32 (ofBytes [10, 7, 0, 100]) ∧
    (pairs_xlate_v6_to_v4_inner instance_120 (tcp6_packet addr_s addr_d) 0 0).2 =
      ld32 (ofBytes [198, 51, 100, 7]) := by
  refine ⟨?_, ?_, ?_, ?_, ?_, ?_⟩ <;> decide

/-! ### IPv6 input -/

/-- C22 (the code at the failing input): for the ICMPv6 Destination Unreachable message with
code 5 the checksum step of `nat46_ipv6_input`, through `nat46_fixup_icmp6`, leaves
`ip6h->nexthdr` = `NEXTHDR_NONE`, yet `nat46_ipv6_input` does not free the skb and hands a
packet to `netif_rx`: an IPv4 packet with protocol 1 (ICMP) whose ICMP header still has type 1
and code 5.  Nothing in `nat46_ipv6_input` reads the mark. -/
theorem nat46_ipv6_input_forwards_dropped_icmp :
    ((ipv6_input_fragment env6 pkt6_unreach5).bind (fun l3 =>
      (ipv6_input_addresses env6 instance_6052 l3).map (fun v4 =>
        (ipv6_input_l4 env6 instance_6052 l3 v4.1 v4.2).1 6))) = some NEXTHDR_NONE ∧
    (nat46_ipv6_input env6 (some instance_6052) pkt6_unreach5).kfree_skb = false ∧
    ((nat46_ipv6_input env6 (some instance_6052) pkt6_unreach5).netif_rx.map
      (fun q => [q 9, q 20, q 21])) = some [1, 1, 5] := by
  refine ⟨?_, ?_, ?_⟩ <;> decide

/-! ### IPv4 input -/

theorem rd32_congr (a b : Mem) (off : Nat) (h : ∀ i, off ≤ i → i < off + 4 → a i = b i) :
    rd32 a off = rd32 b off := by
  unfold rd32
  rw [h off (by omega) (by omega), h (off + 1) (by omega) (by omega),
    h (off + 2) (by omega) (by omega), h (off + 3) (by omega) (by omega)]

theorem rd32_wr32 (m : Mem) (off v : Nat) (hv : v < 2 ^ 32) : rd32 (wr32 m off v) off = v := by
  simp [rd32, wr32, store]
  omega

theorem ip6_update_csum_frame (K : csum_api) (pkt : Mem) (l4 v4saddr v4daddr : Nat)
    (do_atomic_frag : Bool) (i : Nat) (hi : i < l4) :
    ip6_update_csum K pkt l4 v4saddr v4daddr do_atomic_frag i = pkt i := by
  have h2 : i ≠ l4 + 2 := by omega
  have h3 : i ≠ l4 + 2 + 1 := by omega
  have h6 : i ≠ l4 + 6 := by omega
  have h7 : i ≠ l4 + 6 + 1 := by omega
  have h16 : i ≠ l4 + 16 := by omega
  have h17 : i ≠ l4 + 16 + 1 := by omega
  unfold ip6_update_csum
  simp only []
  split
  · simp [wr16, store, h16, h17]
  · split
    · simp [wr16, store, h6, h7]
    · split
      · simp [wr16, store, h2, h3]
      · rfl

theorem frag_identification_lt (apair pairs : nat46_xlate_rulepair_t) (sport id port_num : Nat) :
    (frag_identification apair pairs sport id port_num).1 < 2 ^ 32 := by
  unfold frag_identification
  simp only []
  split
  · split
    · exact ntohl_lt _
    · exact ntohl_lt _
  · exact ntohl_lt _

theorem ipv4_input_emit_identification (E : ipv4_input_env) (nat46 : nat46_instance_t)
    (l3 : ipv4_input_l3) (hf : l3.add_frag_header = true) :
    rd32 (ipv4_input_emit E nat46 l3).1 44 =
      (frag_identification E.apair (nat46.pairs.headD E.apair) l3.sport (rd16 l3.hdr4 4)
        E.port_num).1 := by
  obtain ⟨v, hv⟩ : ∃ v, v = (frag_identification E.apair (nat46.pairs.headD E.apair) l3.sport
      (rd16 l3.hdr4 4) E.port_num).1 := ⟨_, rfl⟩
  have hlt : v < 2 ^ 32 := by rw [hv]; exact frag_identification_lt _ _ _ _ _
  rw [← hv, ← rd32_wr32 (fun _ => 0) 44 v hlt]
  apply rd32_congr
  intro i h44 h48
  have h6 : i ≠ 6 := by omega
  unfold ipv4_input_emit
  simp only [hf, if_true, IPV6HDRSIZE, ← hv]
  rw [store, if_neg h6, ip6_update_csum_frame _ _ _ _ _ _ _ (by omega)]
  simp only [wr32, store]
  by_cases e3 : i = 44 + 3
  · simp [e3]
  · by_cases e2 : i = 44 + 2
    · simp [e2]
    · by_cases e1 : i = 44 + 1
      · simp [e1]
      · have e0 : i = 44 := by omega
        simp [e0]

theorem nat46_ipv4_input_some (E : ipv4_input_env) (nat46 : nat46_instance_t) (hdr4 : Mem)
    (l3 : ipv4_input_l3) (h : ipv4_input_translate E nat46 hdr4 = some l3) :
    (nat46_ipv4_input E (some nat46) hdr4).netif_rx = some (ipv4_input_emit E nat46 l3).1 := by
  unfold nat46_ipv4_input
  simp only [h]

theorem ipv4_input_translate_congr (E F : ipv4_input_env) (nat46 : nat46_instance_t)
    (hdr4 : Mem) (h1 : E.skb_protocol = F.skb_protocol)
    (h2 : E.add_dummy_header = F.add_dummy_header)
    (h3 : E.transport_header = F.transport_header) (h4 : E.S = F.S)
    (h5 : E.skb_headroom = F.skb_headroom) (h6 : E.pskb_expand_head = F.pskb_expand_head) :
    ipv4_input_translate E nat46 hdr4 = ipv4_input_translate F nat46 hdr4 := by
  unfold ipv4_input_translate ip4_input_not_interested
  rw [h1, h2, h3, h4, h5, h6]

/-- C25 (the code at the failing input): in the instance with the pairs `pair_A`, `pair_B`
the fragmented UDP packet to 198.51.100.7 matches `pair_B`, whose local rule is MAP with
`ea-len` 12, and a CE port allocated from that rule for the source port 0x5400 at cursor 0 is
0x5400.  Yet whatever the local `apair` of `nat46_ipv4_input` holds, the identification of the
synthesised Fragment header is `htonl(ntohs(id))` for the IPv4 ID: the local is never
assigned (`pairs_xlate_v4_to_v6_outer` assigns its own parameter), and the port is asked from
`nat46->pairs`, the first pair `pair_A`, which has no PSID. -/
theorem frag_identification_ignores_matched_pair (g : nat46_xlate_rulepair_t) :
    ((nat46_lpm (some instance_AB) NAT46_IPV4_REMOTE (some (ofBytes [198, 51, 100, 7]))).map
      (fun p => (decide (p.local.style = NAT46_XLATE_MAP), p.local.ea_len,
        (nat46_get_ce_port p (ntohs 0x5400) 0).1))) = some (true, 12, 0x5400) ∧
    ((nat46_ipv4_input (env4 false g) (some instance_AB)
        (udp4_packet 0x20 0 0x12 0x34)).netif_rx.map (fun q => (q 6, rd32 q 44))) =
      some (NEXTHDR_FRAGMENT, ntohl (ntohs 0xcdab)) := by
  constructor
  · decide
  · have hg0 : ipv4_input_translate (env4 false g) instance_AB (udp4_packet 0x20 0 0x12 0x34) =
        ipv4_input_translate (env4 false pair_A) instance_AB (udp4_packet 0x20 0 0x12 0x34) :=
      ipv4_input_translate_congr _ _ _ _ rfl rfl rfl rfl rfl rfl
    have hmap : (ipv4_input_translate (env4 false pair_A) instance_AB
        (udp4_packet 0x20 0 0x12 0x34)).map (fun l3 => (l3.add_frag_header, rd16 l3.hdr4 4)) =
        some (true, 0xcdab) := by decide
    obtain ⟨l3, h3, hf, hid⟩ : ∃ l3, ipv4_input_translate (env4 false g) instance_AB
        (udp4_packet 0x20 0 0x12 0x34) = some l3 ∧ l3.add_frag_header = true ∧
        rd16 l3.hdr4 4 = 0xcdab := by
      rw [hg0]
      cases h : ipv4_input_translate (env4 false pair_A) instance_AB
          (udp4_packet 0x20 0 0x12 0x34) with
      | none =>
        rw [h] at hmap
        cases hmap
      | some l3 =>
        rw [h] at hmap
        have e := Option.some.inj hmap
        exact ⟨l3, rfl, congrArg Prod.fst e, congrArg Prod.snd e⟩
    have hce : ∀ sport c, nat46_get_ce_port pair_A sport c = (0, c) := fun _ _ => rfl
    have hident : ∀ sport id, (frag_identification g pair_A sport id 0).1 = ntohl (ntohs id) := by
      intro sport id
      unfold frag_identification
      simp only [hce]
      split <;> rfl
    have e6 : (ipv4_input_emit (env4 false g) instance_AB l3).1 6 = NEXTHDR_FRAGMENT := by
      unfold ipv4_input_emit
      simp [hf, store]
    have e44 := ipv4_input_emit_identification (env4 false g) instance_AB l3 hf
    have hhead : instance_AB.pairs.headD (env4 false g).apair = pair_A := rfl
    rw [hhead] at e44
    have hg : (env4 false g).apair = g := rfl
    have hp : (env4 false g).port_num = 0 := rfl
    rw [hg, hp, hident, hid] at e44
    rw [nat46_ipv4_input_some _ _ _ _ h3]
    show some (_, _) = some _
    rw [e6, e44]

/-! ### Fragment header synthesis -/

theorem or_eq_zero (u v : Nat) : u ||| v = 0 ↔ u = 0 ∧ v = 0 := by
  constructor
  · intro h
    have hb : ∀ i, (u ||| v).testBit i = false := by
      intro i
      rw [h]
      simp
    constructor
    · apply Nat.eq_of_testBit_eq
      intro i
      have := hb i
      rw [Nat.testBit_or, Bool.or_eq_false_iff] at this
      simp [this.1]
    · apply Nat.eq_of_testBit_eq
      intro i
      have := hb i
      rw [Nat.testBit_or, Bool.or_eq_false_iff] at this
      simp [this.2]
  · rintro ⟨rfl, rfl⟩
    rfl

theorem ipv4_frag_flags_iff (frag_off : Nat) (add_dummy_header : Bool) :
    (ipv4_frag_flags frag_off add_dummy_header).2 = true ↔
      ipv4_fragmented frag_off ∨ (add_dummy_header = true ∧ ntohs frag_off &&& IP_DF = 0) := by
  have e : ntohs frag_off &&& 0x3FFF =
      (ntohs frag_off &&& 0x2000) ||| (ntohs frag_off &&& 0x1FFF) :=
    Nat.and_or_distrib_left _ 0x2000 0x1FFF
  unfold ipv4_frag_flags ipv4_fragmented
  by_cases h : ntohs frag_off &&& 0x3FFF = 0
  · have h2 := (or_eq_zero _ _).mp (e ▸ h)
    rw [if_pos h]
    by_cases hd : ntohs frag_off &&& IP_DF = 0
    · simp [hd, h2.1, h2.2]
    · simp [hd, h2.1, h2.2]
  · rw [if_neg h]
    have h2 : ¬ (ntohs frag_off &&& 0x2000 = 0 ∧ ntohs frag_off &&& 0x1FFF = 0) :=
      fun hh => h (e ▸ (or_eq_zero _ _).mpr hh)
    have h3 : ntohs frag_off &&& 0x2000 ≠ 0 ∨ ntohs frag_off &&& 0x1FFF ≠ 0 := by
      by_cases ha : ntohs frag_off &&& 0x2000 = 0
      · exact Or.inr (fun hb => h2 ⟨ha, hb⟩)
      · exact Or.inl ha
    simp [h3]

theorem ipv4_input_translate_flags (E : ipv4_input_env) (nat46 : nat46_instance_t)
    (hdr4 : Mem) (l3 : ipv4_input_l3) (h : ipv4_input_translate E nat46 hdr4 = some l3) :
    l3.add_frag_header = (ipv4_frag_flags (rd16 hdr4 6) E.add_dummy_header).2 := by
  have hite : ∀ (c : Prop) [Decidable c] (x : Option ipv4_input_l3),
      (if c then none else x) = some l3 → x = some l3 := by
    intro c _ x hx
    split at hx
    · cases hx
    · exact hx
  unfold ipv4_input_translate at h
  simp only [] at h
  have e := Option.some.inj (hite _ _ (hite _ _ (hite _ _ h)))
  rw [← e]

/-- C26 (counterexample): with `add_dummy_header` set, the unfragmented UDP packet with DF set
gets no Fragment header: `add_frag_header` stays 0, and the packet handed to `netif_rx` has
next header 17 with the UDP header (source port bytes 0x54, 0x00) right behind the IPv6
header. -/
theorem dummy_header_skipped_with_df :
    ipv4_frag_flags (ntohs 0x4000) true = (true, false) ∧
    ((nat46_ipv4_input (env4 true pair_A) (some instance_AB)
        (udp4_packet 0x40 0 0x12 0x34)).netif_rx.map (fun q => [q 6, q 40, q 41])) =
      some [17, 0x54, 0x00] := by
  constructor <;> decide

/-- C26 (amended): whenever `nat46_ipv4_input` gets as far as building the IPv6 packet, it adds
a Fragment header exactly when the IPv4 packet is fragmented (MF set or fragment offset
non-zero) or `add_dummy_header` is set and the DF flag is clear; the next header of the packet
handed to `netif_rx` is then `NEXTHDR_FRAGMENT`, and the IPv4 protocol otherwise. -/
theorem ipv4_frag_header_iff (E : ipv4_input_env) (nat46 : nat46_instance_t) (hdr4 : Mem)
    (l3 : ipv4_input_l3) (h : ipv4_input_translate E nat46 hdr4 = some l3) :
    (l3.add_frag_header = true ↔
      ipv4_fragmented (rd16 hdr4 6) ∨
        (E.add_dummy_header = true ∧ ntohs (rd16 hdr4 6) &&& IP_DF = 0)) ∧
    (nat46_ipv4_input E (some nat46) hdr4).netif_rx = some (ipv4_input_emit E nat46 l3).1 ∧
    (ipv4_input_emit E nat46 l3).1 6 =
      (if l3.add_frag_header then NEXTHDR_FRAGMENT else l3.hdr4 9) := by
  refine ⟨?_, nat46_ipv4_input_some E nat46 hdr4 l3 h, ?_⟩
  · rw [ipv4_input_translate_flags E nat46 hdr4 l3 h]
    exact ipv4_frag_flags_iff _ _
  · unfold ipv4_input_emit
    simp [store]

/-- The unfragmented example packet with DF clear and `add_dummy_header` set: a Fragment
header is added. -/
theorem ipv4_frag_header_iff_witness :
    (ipv4_input_translate (env4 true pair_A) instance_AB (udp4_packet 0 0 0x12 0x34)).isSome
      = true ∧
    ((nat46_ipv4_input (env4 true pair_A) (some instance_AB)
      (udp4_packet 0 0 0x12 0x34)).netif_rx.map (fun q => q 6)) = some NEXTHDR_FRAGMENT := by
  have hs : (ipv4_input_translate (env4 true pair_A) instance_AB
      (udp4_packet 0 0 0x12 0x34)).isSome = true := by decide
  have h := (Option.some_get hs).symm
  have T := ipv4_frag_header_iff (env4 true pair_A) instance_AB (udp4_packet 0 0 0x12 0x34) _ h
  have hf := T.1.mpr (Or.inr ⟨rfl, by decide⟩)
  refine ⟨hs, ?_⟩
  rw [T.2.1]
  show some ((ipv4_input_emit (env4 true pair_A) instance_AB _).1 6) = some NEXTHDR_FRAGMENT
  rw [T.2.2, hf]
  rfl

/-! ### UDP checksum -/

theorem csum_tcpudp_remagic_lt (saddr daddr len proto csum : Nat) :
    csum_tcpudp_remagic saddr daddr len proto csum < 2 ^ 16 := by
  unfold csum_tcpudp_remagic
  exact csum16_upd_lt _ _ _

theorem not16_lt (x : Nat) : not16 x < 2 ^ 16 := by
  unfold not16
  omega

/-- C28 (counterexample): the unfragmented IPv4 UDP packet whose checksum field is 0 leaves
`nat46_ipv4_input` with the checksum field 0x8c5a (bytes 140, 90): in `ip6_update_csum` a zero
UDP checksum is the case in which the checksum is computed with `csum_partial` and
`csum_ipv6_magic`. -/
theorem udp_zero_checksum_replaced :
    rd16 (udp4_packet 0x40 0 0 0) 26 = 0 ∧
    ((nat46_ipv4_input (env4 false pair_A) (some instance_AB)
        (udp4_packet 0x40 0 0 0)).netif_rx.map (fun q => [q 6, q 46, q 47])) =
      some [17, 140, 90] := by
  constructor <;> decide

/-- C28 (amended): in the UDP branch of `nat46_ipv6_input` (IPv6 to IPv4) a checksum field 0
leaves the packet as it is and a non-zero field `c` becomes `csum_tcpudp_remagic` of
`csum_ipv6_unmagic` of `c`, both with length 0; in the UDP branch of `ip6_update_csum` (IPv4
to IPv6) a checksum field 0 becomes `csum_ipv6_magic` of `csum_partial` over the datagram, and
a non-zero field `c` becomes `csum_ipv6_udp_remagic` of `csum_ipv4_unmagic` of `c`. -/
theorem udp_checksum_step (E : ipv6_input_env) (nat46 : nat46_instance_t) (l3 : ipv6_input_l3)
    (v4saddr v4daddr : Nat) (K : csum_api) (pkt : Mem) (l4 : Nat) (do_atomic_frag : Bool)
    (h6 : l3.check_for_l4 = true) (hp : l3.proto = NEXTHDR_UDP) (h4 : pkt 6 = IPPROTO_UDP) :
    (rd16 l3.ip6h (l3.v6packet_l3size + 6) = 0 →
      (ipv6_input_l4 E nat46 l3 v4saddr v4daddr).1 = l3.ip6h) ∧
    (rd16 l3.ip6h (l3.v6packet_l3size + 6) ≠ 0 →
      rd16 (ipv6_input_l4 E nat46 l3 v4saddr v4daddr).1 (l3.v6packet_l3size + 6) =
        csum_tcpudp_remagic v4saddr v4daddr 0 NEXTHDR_UDP
          (csum_ipv6_unmagic (ptr_add l3.ip6h 8) (ptr_add l3.ip6h 24) 0 NEXTHDR_UDP
            (rd16 l3.ip6h (l3.v6packet_l3size + 6)))) ∧
    (rd16 pkt (l4 + 6) = 0 →
      rd16 (ip6_update_csum K pkt l4 v4saddr v4daddr do_atomic_frag) (l4 + 6) =
        K.csum_ipv6_magic (ptr_add pkt 8) (ptr_add pkt 24)
          (to_u32 ((ntohs (rd16 pkt 4) : Int) - (if do_atomic_frag then 8 else 0))) (pkt 6)
          (K.csum_partial (ptr_add pkt l4)
            (to_u32 ((ntohs (rd16 pkt 4) : Int) - (if do_atomic_frag then 8 else 0))) 0
            % 2 ^ 32) % 2 ^ 16) ∧
    (rd16 pkt (l4 + 6) ≠ 0 →
      rd16 (ip6_update_csum K pkt l4 v4saddr v4daddr do_atomic_frag) (l4 + 6) =
        csum_ipv6_udp_remagic K pkt (csum_ipv4_unmagic v4saddr v4daddr (rd16 pkt (l4 + 6)))) := by
  have hne : NEXTHDR_UDP ≠ NEXTHDR_TCP := by decide
  have hne4 : ¬ (pkt 6 = IPPROTO_TCP) := by
    rw [h4]
    decide
  refine ⟨fun h0 => ?_, fun h0 => ?_, fun h0 => ?_, fun h0 => ?_⟩
  · unfold ipv6_input_l4
    simp only [h6, hp, hne, h0, if_true, if_false, ne_eq, not_true_eq_false]
  · unfold ipv6_input_l4
    simp only [h6, hp, hne, h0, if_true, if_false, ne_eq, not_false_eq_true]
    exact rd16_wr16 _ _ _ (csum_tcpudp_remagic_lt _ _ _ _ _)
  · unfold ip6_update_csum
    simp only [hne4, h4, h0, if_true, if_false]
    exact rd16_wr16 _ _ _ (Nat.mod_lt _ (by decide))
  · unfold ip6_update_csum
    simp only [hne4, h4, h0, if_true, if_false]
    apply rd16_wr16
    unfold csum_ipv6_udp_remagic
    exact not16_lt _

/-- The example IPv6 UDP packet, whose checksum field is 0x3412 as the host loads it, in both
checksum steps. -/
theorem udp_checksum_step_witness :
    rd16 (ipv6_input_l4 env6 instance_6052 l3_udp6 1 2).1 (l3_udp6.v6packet_l3size + 6) =
      csum_tcpudp_remagic 1 2 0 NEXTHDR_UDP
        (csum_ipv6_unmagic (ptr_add l3_udp6.ip6h 8) (ptr_add l3_udp6.ip6h 24) 0 NEXTHDR_UDP
          (rd16 l3_udp6.ip6h (l3_udp6.v6packet_l3size + 6))) ∧
    rd16 (ip6_update_csum csum_sum (ofBytes embedded_udp6) 40 1 2 false) (40 + 6) =
      csum_ipv6_udp_remagic csum_sum (ofBytes embedded_udp6)
        (csum_ipv4_unmagic 1 2 (rd16 (ofBytes embedded_udp6) (40 + 6))) :=
  ⟨(udp_checksum_step env6 instance_6052 l3_udp6 1 2 csum_sum (ofBytes embedded_udp6) 40 false
      rfl rfl rfl).2.1 (by decide),
    (udp_checksum_step env6 instance_6052 l3_udp6 1 2 csum_sum (ofBytes embedded_udp6) 40 false
      rfl rfl rfl).2.2.2 (by decide)⟩

/-! ### Fragment offset and flags -/

theorem frag_off_v4_to_v6_eq (f : Nat) :
    frag_off_v4_to_v6 f = (f / 8192 % 8 + f % 8192 * 8) % 65536 := by
  have h7 : (7 : Nat) = 2 ^ 3 - 1 := by decide
  have h1 : (0x1FFF : Nat) = 2 ^ 13 - 1 := by decide
  unfold frag_off_v4_to_v6
  rw [h7, h1, Nat.and_pow_two_sub_one_eq_mod, Nat.and_pow_two_sub_one_eq_mod,
    Nat.shiftRight_eq_div_pow, Nat.shiftLeft_eq]
  norm_num

theorem frag_off_v6_to_v4_eq (g : Nat) :
    frag_off_v6_to_v4 g = (g % 8 * 8192 + g / 8 % 8192) % 65536 := by
  have h7 : (7 : Nat) = 2 ^ 3 - 1 := by decide
  have h1 : (0x1FFF : Nat) = 2 ^ 13 - 1 := by decide
  unfold frag_off_v6_to_v4
  rw [h7, h1, Nat.and_pow_two_sub_one_eq_mod, Nat.and_pow_two_sub_one_eq_mod,
    Nat.shiftRight_eq_div_pow, Nat.shiftLeft_eq]
  norm_num

/-- C40: fragment offset and flags conversion.  For every 16-bit IPv4 flags-and-offset value
`f` (host order), the IPv6 Fragment header field computed by `nat46_ipv4_input` converts back,
with the expression of `nat46_ipv6_input`, to `f`; for every 16-bit IPv6 field `g` the
conversions in the other order return `g`; the IPv6 M bit (bit 0) of the converted value is
the IPv4 MF bit (bit 13), its DF and reserved bits land in bits 1 and 2, and the 13-bit
fragment offset is preserved in both directions. -/
theorem frag_off_conversion_bijective (f g : Nat) (hf : f < 2 ^ 16) (hg : g < 2 ^ 16) :
    frag_off_v6_to_v4 (frag_off_v4_to_v6 f) = f ∧
    frag_off_v4_to_v6 (frag_off_v6_to_v4 g) = g ∧
    frag_off_v4_to_v6 f % 2 = f / 2 ^ 13 % 2 ∧
    frag_off_v4_to_v6 f / 2 % 4 = f / 2 ^ 14 ∧
    frag_off_v4_to_v6 f / 2 ^ 3 = f % 2 ^ 13 ∧
    frag_off_v6_to_v4 g % 2 ^ 13 = g / 2 ^ 3 := by
  simp only [frag_off_v4_to_v6_eq, frag_off_v6_to_v4_eq]
  obtain ⟨q, r, hq, hr, rfl⟩ : ∃ q r, q < 8 ∧ r < 8192 ∧ f = 8192 * q + r :=
    ⟨f / 8192, f % 8192, by omega, by omega, by omega⟩
  obtain ⟨u, v, hu, hv, rfl⟩ : ∃ u v, u < 8192 ∧ v < 8 ∧ g = 8 * u + v :=
    ⟨g / 8, g % 8, by omega, by omega, by omega⟩
  have a1 : (8192 * q + r) / 8192 = q := by omega
  have a2 : (8192 * q + r) % 8192 = r := by omega
  have a3 : q % 8 = q := by omega
  have a4 : (q + r * 8) % 65536 = q + r * 8 := by omega
  have a5 : (q + r * 8) % 8 = q := by omega
  have a6 : (q + r * 8) / 8 = r := by omega
  have a7 : r % 8192 = r := by omega
  have a8 : (q * 8192 + r) % 65536 = 8192 * q + r := by omega
  have b1 : (8 * u + v) / 8 = u := by omega
  have b2 : (8 * u + v) % 8 = v := by omega
  have b3 : u % 8192 = u := by omega
  have b4 : (v * 8192 + u) % 65536 = v * 8192 + u := by omega
  have b5 : (v * 8192 + u) / 8192 = v := by omega
  have b6 : (v * 8192 + u) % 8192 = u := by omega
  have b7 : (v + u * 8) % 65536 = 8 * u + v := by omega
  have c1 : (8192 * q + r) / 2 ^ 13 = q := by omega
  have c2 : (8192 * q + r) / 2 ^ 14 = q / 2 := by omega
  have c3 : (8192 * q + r) % 2 ^ 13 = r := by omega
  have c4 : (q + r * 8) / 2 ^ 3 = r := by omega
  have c5 : (q + r * 8) / 2 % 4 = q / 2 := by
    clear a1 a2 a3 a4 a5 a6 a7 a8 b1 b2 b3 b4 b5 b6 b7 c1 c2 c3 c4
    interval_cases q <;> omega
  have c6 : (q + r * 8) % 2 = q % 2 := by omega
  have c7 : (8 * u + v) / 2 ^ 3 = u := by omega
  have c8 : (v * 8192 + u) % 2 ^ 13 = u := by omega
  rw [a1, a2, a3, a4, a5, a6, a7, a8, b1, b2, b3, b4, b5, b6, v.mod_eq_of_lt hv, b7, c1, c2, c3,
    c4, c5, c6, c7, c8]
  exact ⟨rfl, rfl, rfl, rfl, rfl, rfl⟩

/-- The conversions at `f = 0x2173` (MF set, offset `0x173`) and `g = 0x0b99`. -/
theorem frag_off_conversion_bijective_witness :
    frag_off_v6_to_v4 (frag_off_v4_to_v6 0x2173) = 0x2173 ∧
    frag_off_v4_to_v6 (frag_off_v6_to_v4 0x0b99) = 0x0b99 ∧
    frag_off_v4_to_v6 0x2173 % 2 = 0x2173 / 2 ^ 13 % 2 ∧
    frag_off_v4_to_v6 0x2173 / 2 % 4 = 0x2173 / 2 ^ 14 ∧
    frag_off_v4_to_v6 0x2173 / 2 ^ 3 = 0x2173 % 2 ^ 13 ∧
    frag_off_v6_to_v4 0x0b99 % 2 ^ 13 = 0x0b99 / 2 ^ 3 :=
  frag_off_conversion_bijective 0x2173 0x0b99 (by decide) (by decide)

/-! ### The RFC6052 scenario -/

/-- C31 (the code at the scenario): with the RFC6052 rule 2001:db8::/32 (IPv4 prefix
192.0.2.0/24), `xlate_v6_to_v4` applied to 2001:db8:c000:0200::1 returns 1 and writes
192.0.2.0, the four bytes that follow the 32-bit prefix; the last byte of the IPv6 address is
not read. -/
theorem rfc6052_scenario_yields_192_0_2_0 :
    (xlate_v6_to_v4 rule_scenario6052 (ofBytes addr_scenario6052) (ofBytes [])).1 = 1 ∧
    [0, 1, 2, 3].map (xlate_v6_to_v4 rule_scenario6052 (ofBytes addr_scenario6052)
      (ofBytes [])).2 = [192, 0, 2, 0] := by
  decide

/-- C31 (amended): for every RFC6052 rule with a 32-bit IPv6 prefix and every IPv6 address
whose first four bytes are those of the prefix, `xlate_v6_to_v4` returns 1 and writes the
bytes 4..7 of the address as the IPv4 address (the rest of the output buffer is left alone).
So 2001:db8:c000:0200::1 gives 192.0.2.0, and 192.0.2.1 comes from 2001:db8:c000:0201::. -/
theorem xlate_v6_to_v4_rfc6052_32 (rule : nat46_xlate_rule_t) (a buf : Mem)
    (hs : rule.style = NAT46_XLATE_RFC6052) (hl : rule.v6_pref_len = 32)
    (hp : ∀ i, i < 4 → a i = rule.v6_pref i) :
    (xlate_v6_to_v4 rule a buf).1 = 1 ∧
    (∀ i, i < 4 → (xlate_v6_to_v4 rule a buf).2 i = a (4 + i)) ∧
    (∀ i, 4 ≤ i → (xlate_v6_to_v4 rule a buf).2 i = buf i) := by
  have hc : memcmp_ne a rule.v6_pref 4 = false := (memcmp_ne_eq_false _ _ _).mpr hp
  have e : xlate_v6_to_v4 rule a buf = (1, memcpy buf 0 a 4 4) := by
    simp [xlate_v6_to_v4, hs, xlate_nat64_to_v4, hl, hc]
  rw [e]
  refine ⟨rfl, fun i hi => ?_, fun i hi => ?_⟩
  · simp [memcpy, hi]
  · have h : ¬ i < 4 := by omega
    simp [memcpy, h]

/-- The amended scenario at the rule 2001:db8::/32 and the address 2001:db8:c000:0201::, whose
bytes 4..7 are 192.0.2.1. -/
theorem xlate_v6_to_v4_rfc6052_32_witness :
    (xlate_v6_to_v4 rule_scenario6052
      (ofBytes [0x20, 0x01, 0x0d, 0xb8, 0xc0, 0x00, 0x02, 0x01]) (ofBytes [])).1 = 1 ∧
    (∀ i, i < 4 → (xlate_v6_to_v4 rule_scenario6052
      (ofBytes [0x20, 0x01, 0x0d, 0xb8, 0xc0, 0x00, 0x02, 0x01]) (ofBytes [])).2 i =
      ofBytes [0x20, 0x01, 0x0d, 0xb8, 0xc0, 0x00, 0x02, 0x01] (4 + i)) ∧
    (∀ i, 4 ≤ i → (xlate_v6_to_v4 rule_scenario6052
      (ofBytes [0x20, 0x01, 0x0d, 0xb8, 0xc0, 0x00, 0x02, 0x01]) (ofBytes [])).2 i =
      ofBytes [] i) :=
  xlate_v6_to_v4_rfc6052_32 rule_scenario6052
    (ofBytes [0x20, 0x01, 0x0d, 0xb8, 0xc0, 0x00, 0x02, 0x01]) (ofBytes []) rfl rfl (by decide)

/-! ### Outer address translation -/

/-- C39: result of the outer IPv6-to-IPv4 address translation.  `pairs_xlate_v6_to_v4_outer`
returns 0 or 1; it returns 1 exactly when `nat46_lpm(NAT46_IPV6_REMOTE, saddr)` finds a pair,
the destination address decodes under the local rule of that pair, and the source address
decodes under its remote rule or the protocol is ICMPv6.  When both addresses decode, the
outputs are the decoded addresses; in the ICMPv6 fallback (the source does not decode) the
reported source is the decoded destination; when no pair is found the function returns 0 and
leaves `*papair`, `*pv4saddr` and `*pv4daddr` as they were. -/
theorem pairs_xlate_v6_to_v4_outer_result (nat46 : nat46_instance_t) (ip6h : Mem) (proto : Nat)
    (papair : Option nat46_xlate_rulepair_t) (v4saddr v4daddr : Nat) :
    ((pairs_xlate_v6_to_v4_outer nat46 ip6h proto papair v4saddr v4daddr).ret = 1 ∨
      (pairs_xlate_v6_to_v4_outer nat46 ip6h proto papair v4saddr v4daddr).ret = 0) ∧
    ((pairs_xlate_v6_to_v4_outer nat46 ip6h proto papair v4saddr v4daddr).ret = 1 ↔
      ∃ apair, nat46_lpm (some nat46) NAT46_IPV6_REMOTE (some (ptr_add ip6h 8)) = some apair ∧
        (xlate_v6_to_v4 apair.local (ptr_add ip6h 24) (u32_bytes v4daddr)).1 ≠ 0 ∧
        ((xlate_v6_to_v4 apair.remote (ptr_add ip6h 8) (u32_bytes v4saddr)).1 ≠ 0 ∨
          proto = NEXTHDR_ICMP)) ∧
    (∀ apair, nat46_lpm (some nat46) NAT46_IPV6_REMOTE (some (ptr_add ip6h 8)) = some apair →
      (xlate_v6_to_v4 apair.local (ptr_add ip6h 24) (u32_bytes v4daddr)).1 ≠ 0 →
      (pairs_xlate_v6_to_v4_outer nat46 ip6h proto papair v4saddr v4daddr).v4daddr =
          ld32 (xlate_v6_to_v4 apair.local (ptr_add ip6h 24) (u32_bytes v4daddr)).2 ∧
      ((xlate_v6_to_v4 apair.remote (ptr_add ip6h 8) (u32_bytes v4saddr)).1 ≠ 0 →
        (pairs_xlate_v6_to_v4_outer nat46 ip6h proto papair v4saddr v4daddr).v4saddr =
          ld32 (xlate_v6_to_v4 apair.remote (ptr_add ip6h 8) (u32_bytes v4saddr)).2) ∧
      ((xlate_v6_to_v4 apair.remote (ptr_add ip6h 8) (u32_bytes v4saddr)).1 = 0 →
        proto = NEXTHDR_ICMP →
        (pairs_xlate_v6_to_v4_outer nat46 ip6h proto papair v4saddr v4daddr).v4saddr =
          (pairs_xlate_v6_to_v4_outer nat46 ip6h proto papair v4saddr v4daddr).v4daddr)) ∧
    (nat46_lpm (some nat46) NAT46_IPV6_REMOTE (some (ptr_add ip6h 8)) = none →
      (pairs_xlate_v6_to_v4_outer nat46 ip6h proto papair v4saddr v4daddr).ret = 0 ∧
      (pairs_xlate_v6_to_v4_outer nat46 ip6h proto papair v4saddr v4daddr).apair = papair ∧
      (pairs_xlate_v6_to_v4_outer nat46 ip6h proto papair v4saddr v4daddr).v4saddr = v4saddr ∧
      (pairs_xlate_v6_to_v4_outer nat46 ip6h proto papair v4saddr v4daddr).v4daddr = v4daddr) := by
  unfold pairs_xlate_v6_to_v4_outer
  cases hl : nat46_lpm (some nat46) NAT46_IPV6_REMOTE (some (ptr_add ip6h 8)) with
  | none => simp
  | some apair =>
    by_cases hd : (xlate_v6_to_v4 apair.local (ptr_add ip6h 24) (u32_bytes v4daddr)).1 = 0 <;>
    by_cases hsrc : (xlate_v6_to_v4 apair.remote (ptr_add ip6h 8) (u32_bytes v4saddr)).1 = 0 <;>
    by_cases hp : proto = NEXTHDR_ICMP <;>
    simp [hd, hsrc, hp]

/-! ### IPv4 pseudo-header removal -/

/-- C36 (the code at the failing input): for the addresses 192.168.1.1 and 200.200.200.200,
whose four 16-bit halves add up to `0x23b51`, and the checksum `0x1234`,
`csum_ipv4_unmagic` returns `0x4d85` while the word-wise removal returns `0x4d87`; the two are
not congruent modulo `0xFFFF`.  The carries of `addr_csum` above bit 15 are cut off by the
16-bit argument of `ntohs`. -/
theorem csum_ipv4_unmagic_drops_carry :
    (ld32 (ofBytes [192, 168, 1, 1]) &&& 0xffff) + (ld32 (ofBytes [192, 168, 1, 1]) >>> 16) +
      (ld32 (ofBytes [200, 200, 200, 200]) &&& 0xffff) +
      (ld32 (ofBytes [200, 200, 200, 200]) >>> 16) = 0x23b51 ∧
    csum_ipv4_unmagic (ld32 (ofBytes [192, 168, 1, 1])) (ld32 (ofBytes [200, 200, 200, 200]))
      0x1234 = 0x4d85 ∧
    unmagic_wordwise (ld32 (ofBytes [192, 168, 1, 1])) (ld32 (ofBytes [200, 200, 200, 200]))
      0x1234 = 0x4d87 ∧
    csum_ipv4_unmagic (ld32 (ofBytes [192, 168, 1, 1])) (ld32 (ofBytes [200, 200, 200, 200]))
      0x1234 % 0xffff ≠
    unmagic_wordwise (ld32 (ofBytes [192, 168, 1, 1])) (ld32 (ofBytes [200, 200, 200, 200]))
      0x1234 % 0xffff := by
  decide

/-! ### Prefix lengths -/

/-- C35 (the code at the failing inputs): with a rule whose `v4_pref_len` is 24,
`try_parse_ipv4_prefix` on `10.0.0.0/40` returns -1 but has already stored 40, and on
`10.0.0.0` with the length text `-1` it stores -1 and returns 0; with `v6_pref_len` 64,
`try_parse_ipv6_prefix` on `2001:db8::/129` returns -1 with 129 stored, and on `2001:db8::`
with the length text `-1` it stores -1 and returns 0.
`try_parse_rule_arg` hands the address of the rule field, so the rule keeps these lengths. -/
theorem try_parse_prefix_stores_out_of_range :
    ( try_parse_ipv4_prefix kernel_dec 0 (some 24) "10.0.0.0/40".toList).1 = -1 ∧
    ( try_parse_ipv4_prefix kernel_dec 0 (some 24) "10.0.0.0/40".toList).2.2 = some 40 ∧
    ( try_parse_ipv4_prefix kernel_dec 0 (some 24) ("10.0.0.0/".toList ++ "-1".toList)).1 = 0 ∧
    ( try_parse_ipv4_prefix kernel_dec 0 (some 24) ("10.0.0.0/".toList ++ "-1".toList)).2.2 = some (-1) ∧
    ( try_parse_ipv6_prefix kernel_dec (ofBytes []) (some 64) "2001:db8::/129".toList).1 = -1 ∧
    ( try_parse_ipv6_prefix kernel_dec (ofBytes []) (some 64) "2001:db8::/129".toList).2.2 =
      some 129 ∧
    ( try_parse_ipv6_prefix kernel_dec (ofBytes []) (some 64) ("2001:db8::/".toList ++ "-1".toList)).1 = 0 ∧
    ( try_parse_ipv6_prefix kernel_dec (ofBytes []) (some 64) ("2001:db8::/".toList ++ "-1".toList)).2.2 =
      some (-1) ∧
    (try_parse_rule_arg kernel_dec rule_map_short "v4".toList "10.0.0.0/40".toList).1 = -1 ∧
    (try_parse_rule_arg kernel_dec rule_map_short "v4".toList
      "10.0.0.0/40".toList).2.1.v4_pref_len = 40 ∧
    (try_parse_rule_arg kernel_dec rule_map_short "v6".toList ("2001:db8::/".toList ++ "-1".toList)).1 = 0 ∧
    (try_parse_rule_arg kernel_dec rule_map_short "v6".toList
      ("2001:db8::/".toList ++ "-1".toList)).2.1.v6_pref_len = -1 := by
  refine ⟨by rfl, by rfl, by rfl, by rfl, by rfl, by rfl, by rfl, by rfl, by rfl, by rfl, by rfl,
    by rfl⟩

/-! ### Type and code rewrite -/

theorem sum_range_split2 (f : Nat → Nat) (k : Nat) :
    ((List.range (k + 2)).map f).sum =
      f 0 + f 1 + ((List.range k).map (fun j => f (j + 2))).sum := by
  have hf : ((f ∘ Nat.succ) ∘ Nat.succ) = fun j => f (j + 2) := by
    funext j
    rfl
  rw [List.range_succ_eq_map, List.map_cons, List.sum_cons, List.map_map,
    List.range_succ_eq_map, List.map_cons, List.sum_cons, List.map_map, hf, ← Nat.add_assoc]
  rfl

/-- C37: the type/code rewrite keeps the ICMP checksum valid.  For every ICMP message of at
least two 16-bit words held in bytes, every pseudo-header sum, and every new type and code
(bytes), if the checksum field is valid before `update_icmp6_type_code` then afterwards the
type and code bytes hold the new values, every byte from offset 4 on is unchanged, and the
checksum field is valid for the modified message. -/
theorem update_icmp6_type_code_valid (m : Mem) (type code nwords pseudo : Nat)
    (hm : IsBytes m) (ht : type < 256) (hc : code < 256) (hn : 2 ≤ nwords)
    (hv : icmp_csum_valid m nwords pseudo) :
    update_icmp6_type_code m type code 0 = type ∧
    update_icmp6_type_code m type code 1 = code ∧
    (∀ i, 4 ≤ i → update_icmp6_type_code m type code i = m i) ∧
    icmp_csum_valid (update_icmp6_type_code m type code) nwords pseudo := by
  have h0 := update_icmp6_type_code_type m type code
  have h1 := update_icmp6_type_code_code m type code
  rw [Nat.mod_eq_of_lt ht] at h0
  rw [Nat.mod_eq_of_lt hc] at h1
  refine ⟨h0, h1, fun i hi => update_icmp6_type_code_rest m type code i hi, ?_⟩
  obtain ⟨k, rfl⟩ : ∃ k, nwords = k + 2 := ⟨nwords - 2, by omega⟩
  unfold icmp_csum_valid at hv ⊢
  rw [sum_range_split2] at hv ⊢
  have hrest : ((List.range k).map (fun j => ld16 (update_icmp6_type_code m type code) (j + 2))) =
      (List.range k).map (fun j => ld16 m (j + 2)) := by
    apply List.map_congr_left
    intro j _
    unfold ld16
    rw [update_icmp6_type_code_rest m type code _ (by omega),
      update_icmp6_type_code_rest m type code _ (by omega)]
  rw [hrest]
  have hw0 : ld16 (update_icmp6_type_code m type code) 0 = type + code * 256 := by
    unfold ld16
    rw [h0, h1]
  have hw1 : ld16 (update_icmp6_type_code m type code) 1 =
      csum16_upd (rd16 m 2) (rd16 m 0) (type + code * 256) := by
    have h := update_icmp6_type_code_cksum m type code
    rw [Nat.mod_eq_of_lt ht, Nat.mod_eq_of_lt hc] at h
    rw [← h]
    rfl
  have ho0 : ld16 m 0 = rd16 m 0 := rfl
  have ho1 : ld16 m 1 = rd16 m 2 := rfl
  rw [hw0, hw1]
  rw [ho0, ho1] at hv
  have hmod := csum16_upd_mod (rd16 m 2) (rd16 m 0) (type + code * 256) (rd16_lt m hm 2)
    (rd16_lt m hm 0) (by omega)
  generalize csum16_upd (rd16 m 2) (rd16 m 0) (type + code * 256) = r at hmod ⊢
  generalize ((List.range k).map (fun j => ld16 m (j + 2))).sum = R at hv ⊢
  omega

/-- The rewrite of an ICMPv6 Echo Request (type 128, checksum `0x7fff` over a zero pseudo-header
sum) into an ICMP Echo (type 8). -/
theorem update_icmp6_type_code_valid_witness :
    update_icmp6_type_code (ofBytes [128, 0, 0x7f, 0xff]) 8 0 0 = 8 ∧
    update_icmp6_type_code (ofBytes [128, 0, 0x7f, 0xff]) 8 0 1 = 0 ∧
    (∀ i, 4 ≤ i → update_icmp6_type_code (ofBytes [128, 0, 0x7f, 0xff]) 8 0 i =
      ofBytes [128, 0, 0x7f, 0xff] i) ∧
    icmp_csum_valid (update_icmp6_type_code (ofBytes [128, 0, 0x7f, 0xff]) 8 0) 2 0 :=
  update_icmp6_type_code_valid (ofBytes [128, 0, 0x7f, 0xff]) 8 0 2 0
    (isBytes_ofBytes _ (by decide)) (by decide) (by decide) (by decide)
    (by unfold icmp_csum_valid; decide)

/-! ### The interface identifier of the MAP styles -/

theorem store_ne (m : Mem) (i v k : Nat) (h : k ≠ i) : store m i v k = m k := by
  simp [store, h]

theorem bitarray_copy_middle_frame (s : Mem) (ls rs : Nat) :
    ∀ (n src dst : Nat) (m : Mem) (k : Nat), (k < dst ∨ dst + n ≤ k) →
      bitarray_copy_middle s ls rs n src dst m k = m k := by
  intro n
  induction n with
  | zero => intro src dst m k _; rfl
  | succ n ih =>
    intro src dst m k hk
    unfold bitarray_copy_middle
    rw [ih (src + 1) (dst + 1) _ k (by omega), store_ne _ _ _ _ (by omega)]

theorem memcpy_out (dst : Mem) (doff : Nat) (src : Mem) (soff n k : Nat)
    (h : k < doff ∨ doff + n ≤ k) : memcpy dst doff src soff n k = dst k := by
  have h2 : ¬ (doff ≤ k ∧ k < doff + n) := by omega
  simp [memcpy, h2]

theorem PREPARE_FIRST_COPY_len (b c n dom : Nat) :
    (PREPARE_FIRST_COPY b c n dom).2.2 = if n ≥ 8 - dom then n - (8 - dom) else 0 := by
  unfold PREPARE_FIRST_COPY
  split <;> rfl

/-- Bytes after the last copied bit are left alone. -/
theorem bitarray_copy_frame_above (s : Mem) (o n : Nat) (d : Mem) (q k : Nat)
    (hk : q + n ≤ 8 * k) : bitarray_copy s o n d q k = d k := by
  unfold bitarray_copy
  by_cases hn : n = 0
  · simp [hn]
  · simp only [hn, if_false, PREPARE_FIRST_COPY_len]
    split_ifs <;> dsimp only at * <;>
    first
    | omega
    | repeat (first
        | exact rfl
        | refine (store_ne _ _ _ _ (by omega)).trans ?_
        | refine (memcpy_out _ _ _ _ _ _ (by omega)).trans ?_
        | refine (bitarray_copy_middle_frame _ _ _ _ _ _ _ _ (by omega)).trans ?_)

/-- What `xlate_map_v4_to_v6` leaves in the second half of the output when the three bit
copies end before bit 64: the interface identifier it stored first. -/
theorem xlate_map_v4_to_v6_iid (rule : nat46_xlate_rule_t) (pipv4 pipv6 : Mem)
    (pl4id : Option Nat) (map_version : Int) (stk : Mem)
    (hret : (xlate_map_v4_to_v6 rule pipv4 pipv6 pl4id map_version stk).1 = 1)
    (h6 : 0 ≤ rule.v6_pref_len) (h4a : 0 ≤ rule.v4_pref_len) (h4b : rule.v4_pref_len ≤ 32)
    (hsum : rule.v6_pref_len + rule.ea_len ≤ 64) :
    [8, 9, 10, 11, 12, 13, 14, 15].map
        (xlate_map_v4_to_v6 rule pipv4 pipv6 pl4id map_version stk).2 =
      if map_version ≠ 0 then
        [0, 0, 0xff &&& (ntohl (ld32 pipv4) >>> 24), 0xff &&& (ntohl (ld32 pipv4) >>> 16),
          0xff &&& (ntohl (ld32 pipv4) >>> 8), 0xff &&& ntohl (ld32 pipv4),
          0xff &&& (((shr (ntohs (pl4id.getD 0))
            (16 - ((to_u8 (rule.ea_len - (32 - rule.v4_pref_len)) : Nat) : Int) - rule.psid_offset)
            &&& shr 0xffff (16 - ((to_u8 (rule.ea_len - (32 - rule.v4_pref_len)) : Nat) : Int)))
            % 2 ^ 16) >>> 8),
          0xff &&& ((shr (ntohs (pl4id.getD 0))
            (16 - ((to_u8 (rule.ea_len - (32 - rule.v4_pref_len)) : Nat) : Int) - rule.psid_offset)
            &&& shr 0xffff (16 - ((to_u8 (rule.ea_len - (32 - rule.v4_pref_len)) : Nat) : Int)))
            % 2 ^ 16)]
      else
        [0, 0xff &&& (ntohl (ld32 pipv4) >>> 24), 0xff &&& (ntohl (ld32 pipv4) >>> 16),
          0xff &&& (ntohl (ld32 pipv4) >>> 8), 0xff &&& ntohl (ld32 pipv4),
          0xff &&& (((shr (ntohs (pl4id.getD 0))
            (16 - ((to_u8 (rule.ea_len - (32 - rule.v4_pref_len)) : Nat) : Int) - rule.psid_offset)
            &&& shr 0xffff (16 - ((to_u8 (rule.ea_len - (32 - rule.v4_pref_len)) : Nat) : Int)))
            % 2 ^ 16) >>> 8),
          0xff &&& ((shr (ntohs (pl4id.getD 0))
            (16 - ((to_u8 (rule.ea_len - (32 - rule.v4_pref_len)) : Nat) : Int) - rule.psid_offset)
            &&& shr 0xffff (16 - ((to_u8 (rule.ea_len - (32 - rule.v4_pref_len)) : Nat) : Int)))
            % 2 ^ 16),
          0] := by
  have u1 : to_u8 (32 - rule.v4_pref_len) = (32 - rule.v4_pref_len).toNat := by
    unfold to_u8; omega
  have frame : ∀ (l4id : Nat) (k : Nat), 8 ≤ k → ¬ rule.ea_len < 32 - rule.v4_pref_len →
      ∀ m : Mem,
      (if to_u8 (rule.ea_len - (32 - rule.v4_pref_len)) ≠ 0 then
        bitarray_copy (u16_bytes l4id stk) rule.psid_offset.toNat
          (to_u8 (rule.ea_len - (32 - rule.v4_pref_len)))
          (if to_u8 (32 - rule.v4_pref_len) ≠ 0 then
            bitarray_copy pipv4 rule.v4_pref_len.toNat (to_u8 (32 - rule.v4_pref_len))
              (bitarray_copy rule.v6_pref 0 rule.v6_pref_len.toNat m 0) rule.v6_pref_len.toNat
          else bitarray_copy rule.v6_pref 0 rule.v6_pref_len.toNat m 0)
          (rule.v6_pref_len + (to_u8 (32 - rule.v4_pref_len) : Nat)).toNat
      else
        (if to_u8 (32 - rule.v4_pref_len) ≠ 0 then
            bitarray_copy pipv4 rule.v4_pref_len.toNat (to_u8 (32 - rule.v4_pref_len))
              (bitarray_copy rule.v6_pref 0 rule.v6_pref_len.toNat m 0) rule.v6_pref_len.toNat
          else bitarray_copy rule.v6_pref 0 rule.v6_pref_len.toNat m 0)) k = m k := by
    intro l4id k hk g2 m
    have u2 : to_u8 (rule.ea_len - (32 - rule.v4_pref_len)) =
        (rule.ea_len - (32 - rule.v4_pref_len)).toNat := by
      unfold to_u8; omega
    have f1 : bitarray_copy rule.v6_pref 0 rule.v6_pref_len.toNat m 0 k = m k :=
      bitarray_copy_frame_above _ _ _ _ _ _ (by omega)
    have f2 : (if to_u8 (32 - rule.v4_pref_len) ≠ 0 then
            bitarray_copy pipv4 rule.v4_pref_len.toNat (to_u8 (32 - rule.v4_pref_len))
              (bitarray_copy rule.v6_pref 0 rule.v6_pref_len.toNat m 0) rule.v6_pref_len.toNat
          else bitarray_copy rule.v6_pref 0 rule.v6_pref_len.toNat m 0) k = m k := by
      split
      · rw [bitarray_copy_frame_above _ _ _ _ _ _ (by omega), f1]
      · exact f1
    split
    · rw [bitarray_copy_frame_above _ _ _ _ _ _ (by omega), f2]
    · exact f2
  rcases pl4id with _ | v <;>
  · unfold xlate_map_v4_to_v6 at hret ⊢
    dsimp only [Option.getD] at hret ⊢
    by_cases g1 : ntohl (ld32 pipv4) &&& shl32 0xffffffff (to_u8 (32 - rule.v4_pref_len)) ≠
        ntohl rule.v4_pref
    · rw [if_pos g1] at hret; exact absurd hret (by simp)
    rw [if_neg g1] at hret ⊢
    by_cases g2 : rule.ea_len < 32 - rule.v4_pref_len
    · rw [if_pos g2] at hret; exact absurd hret (by simp)
    rw [if_neg g2] at hret ⊢
    split at hret
    · exact absurd hret (by simp)
    rename_i g3
    rw [if_neg g3]
    dsimp only
    simp only [List.map, frame _ _ (by decide : 8 ≤ 8) g2, frame _ _ (by decide : 8 ≤ 9) g2,
      frame _ _ (by decide : 8 ≤ 10) g2, frame _ _ (by decide : 8 ≤ 11) g2,
      frame _ _ (by decide : 8 ≤ 12) g2, frame _ _ (by decide : 8 ≤ 13) g2,
      frame _ _ (by decide : 8 ≤ 14) g2, frame _ _ (by decide : 8 ≤ 15) g2]
    split <;> simp [store, memset]

theorem and_ff (y : Nat) : 0xff &&& y = y % 256 := by
  have h : (0xff : Nat) = 2 ^ 8 - 1 := by decide
  rw [Nat.and_comm, h, Nat.and_pow_two_sub_one_eq_mod]

theorem ntohl_ld32 (p : Mem) (hp : IsBytes p) :
    ntohl (ld32 p) = p 0 * 2 ^ 24 + p 1 * 2 ^ 16 + p 2 * 2 ^ 8 + p 3 := by
  have h0 := hp 0
  have h1 := hp 1
  have h2 := hp 2
  have h3 := hp 3
  unfold ntohl ld32
  generalize p 0 = a at *
  generalize p 1 = b at *
  generalize p 2 = c at *
  generalize p 3 = d at *
  have e0 : (a + b * 2 ^ 8 + c * 2 ^ 16 + d * 2 ^ 24) % 256 = a := by omega
  have e1 : (a + b * 2 ^ 8 + c * 2 ^ 16 + d * 2 ^ 24) / 2 ^ 8 % 256 = b := by omega
  have e2 : (a + b * 2 ^ 8 + c * 2 ^ 16 + d * 2 ^ 24) / 2 ^ 16 % 256 = c := by omega
  have e3 : (a + b * 2 ^ 8 + c * 2 ^ 16 + d * 2 ^ 24) / 2 ^ 24 % 256 = d := by omega
  rw [e0, e1, e2, e3]

theorem shr_ffff (l : Nat) (hl : l ≤ 16) : shr 0xffff (16 - (l : Int)) = 2 ^ l - 1 := by
  have h : (16 - (l : Int)).toNat = 16 - l := by omega
  unfold shr
  rw [h]
  interval_cases l <;> decide

theorem map_psid_eq (port l : Nat) (off : Int) (ho : 0 ≤ off) (hs : (l : Int) + off ≤ 16)
    (hp : port < 2 ^ 16) :
    (shr port (16 - (l : Int) - off) &&& shr 0xffff (16 - (l : Int))) % 2 ^ 16 =
      port_psid off.toNat l port := by
  have hl : l ≤ 16 := by omega
  have h : (16 - (l : Int) - off).toNat = 16 - off.toNat - l := by omega
  rw [shr_ffff l hl, Nat.and_pow_two_sub_one_eq_mod]
  unfold shr port_psid
  rw [h, Nat.shiftRight_eq_div_pow]
  apply Nat.mod_eq_of_lt
  calc port / 2 ^ (16 - off.toNat - l) % 2 ^ l ≤ port / 2 ^ (16 - off.toNat - l) :=
        Nat.mod_le _ _
    _ ≤ port := Nat.div_le_self _ _
    _ < 2 ^ 16 := hp

theorem xlate_map_v4_to_v6_ea_len (rule : nat46_xlate_rule_t) (pipv4 pipv6 : Mem)
    (pl4id : Option Nat) (map_version : Int) (stk : Mem)
    (hret : (xlate_map_v4_to_v6 rule pipv4 pipv6 pl4id map_version stk).1 = 1) :
    ¬ rule.ea_len < 32 - rule.v4_pref_len := by
  intro g2
  unfold xlate_map_v4_to_v6 at hret
  dsimp only at hret
  by_cases g1 : ntohl (ld32 pipv4) &&& shl32 0xffffffff (to_u8 (32 - rule.v4_pref_len)) ≠
      ntohl rule.v4_pref
  · rw [if_pos g1] at hret; exact absurd hret (by simp)
  · rw [if_neg g1, if_pos g2] at hret; exact absurd hret (by simp)

/-- C33 (the code at a MAP0 rule): with the MAP0 rule 2001:db8::/32, 192.0.2.0/24, `ea-len` 16,
`psid-offset` 6, the address 192.0.2.5 and the port `0x1840` (PSID `0x10`), `xlate_v4_to_v6`
returns 1 and the bytes 8..15 are `00 C0 00 02 05 00 10 00`: the PSID field is at bytes 13-14
and byte 15 is zero, so bytes 14-15 read `10 00`, not the padded PSID `00 10`. -/
theorem map0_psid_at_bytes_13_14 :
    (xlate_v4_to_v6 rule_map0_iid (ofBytes [192, 0, 2, 5]) (ofBytes []) (some (ntohs 0x1840))
      (ofBytes [])).1 = 1 ∧
    [8, 9, 10, 11, 12, 13, 14, 15].map (xlate_v4_to_v6 rule_map0_iid (ofBytes [192, 0, 2, 5])
      (ofBytes []) (some (ntohs 0x1840)) (ofBytes [])).2 =
      [0x00, 0xC0, 0x00, 0x02, 0x05, 0x00, 0x10, 0x00] := by
  decide

/-- C33 (amended): the MAP0 interface identifier.  For every rule with prefix lengths in range
(`0 <= v6_pref_len`, `0 <= v4_pref_len <= 32`), `v6_pref_len + ea_len <= 64`,
`0 <= psid_offset` and `psid_len + psid_offset <= 16`, every IPv4 address held in bytes and
every port (or none) for which `xlate_map_v4_to_v6` with `map_version` 0 returns 1: byte 8 of
the output is zero, bytes 9..12 are the IPv4 address, bytes 13-14 are the PSID of the port as
a 16-bit big-endian field (zero-left-padded), and byte 15 is zero. -/
theorem map0_iid_layout (rule : nat46_xlate_rule_t) (pipv4 pipv6 : Mem) (pl4id : Option Nat)
    (stk : Mem) (hret : (xlate_map_v4_to_v6 rule pipv4 pipv6 pl4id 0 stk).1 = 1)
    (hb : IsBytes pipv4) (h6 : 0 ≤ rule.v6_pref_len) (h4a : 0 ≤ rule.v4_pref_len)
    (h4b : rule.v4_pref_len ≤ 32) (hsum : rule.v6_pref_len + rule.ea_len ≤ 64)
    (ho : 0 ≤ rule.psid_offset)
    (hs : rule.ea_len - (32 - rule.v4_pref_len) + rule.psid_offset ≤ 16) :
    (xlate_map_v4_to_v6 rule pipv4 pipv6 pl4id 0 stk).2 8 = 0 ∧
    [9, 10, 11, 12].map (xlate_map_v4_to_v6 rule pipv4 pipv6 pl4id 0 stk).2 =
      [pipv4 0, pipv4 1, pipv4 2, pipv4 3] ∧
    (xlate_map_v4_to_v6 rule pipv4 pipv6 pl4id 0 stk).2 13 * 256 +
      (xlate_map_v4_to_v6 rule pipv4 pipv6 pl4id 0 stk).2 14 =
      port_psid rule.psid_offset.toNat (rule.ea_len - (32 - rule.v4_pref_len)).toNat
        (ntohs (pl4id.getD 0)) ∧
    (xlate_map_v4_to_v6 rule pipv4 pipv6 pl4id 0 stk).2 15 = 0 := by
  have hiid := xlate_map_v4_to_v6_iid rule pipv4 pipv6 pl4id 0 stk hret h6 h4a h4b hsum
  have g2 := xlate_map_v4_to_v6_ea_len rule pipv4 pipv6 pl4id 0 stk hret
  have u2 : to_u8 (rule.ea_len - (32 - rule.v4_pref_len)) =
      (rule.ea_len - (32 - rule.v4_pref_len)).toNat := by
    unfold to_u8; omega
  rw [if_neg (by simp), u2, map_psid_eq _ _ _ ho (by omega) (ntohs_lt _), ntohl_ld32 pipv4 hb]
    at hiid
  simp only [List.map, List.cons.injEq, and_true] at hiid
  obtain ⟨h8, h9, h10, h11, h12, h13, h14, h15⟩ := hiid
  have b0 := hb 0
  have b1 := hb 1
  have b2 := hb 2
  have b3 := hb 3
  have hpl : port_psid rule.psid_offset.toNat (rule.ea_len - (32 - rule.v4_pref_len)).toNat
      (ntohs (pl4id.getD 0)) < 2 ^ 16 := by
    unfold port_psid
    calc _ ≤ ntohs (pl4id.getD 0) / 2 ^ _ := Nat.mod_le _ _
      _ ≤ ntohs (pl4id.getD 0) := Nat.div_le_self _ _
      _ < 2 ^ 16 := ntohs_lt _
  rw [and_ff, Nat.shiftRight_eq_div_pow] at h9 h10 h11 h13
  rw [and_ff] at h12 h14
  refine ⟨h8, ?_, ?_, h15⟩
  · simp only [List.map, h9, h10, h11, h12]
    generalize pipv4 0 = a at *
    generalize pipv4 1 = b at *
    generalize pipv4 2 = c at *
    generalize pipv4 3 = d at *
    have e0 : (a * 2 ^ 24 + b * 2 ^ 16 + c * 2 ^ 8 + d) / 2 ^ 24 % 256 = a := by omega
    have e1 : (a * 2 ^ 24 + b * 2 ^ 16 + c * 2 ^ 8 + d) / 2 ^ 16 % 256 = b := by omega
    have e2 : (a * 2 ^ 24 + b * 2 ^ 16 + c * 2 ^ 8 + d) / 2 ^ 8 % 256 = c := by omega
    have e3 : (a * 2 ^ 24 + b * 2 ^ 16 + c * 2 ^ 8 + d) % 256 = d := by omega
    rw [e0, e1, e2, e3]
  · rw [h13, h14]
    generalize port_psid rule.psid_offset.toNat (rule.ea_len - (32 - rule.v4_pref_len)).toNat
      (ntohs (pl4id.getD 0)) = P at *
    omega

/-- The amended MAP0 layout at the rule 2001:db8::/32, 192.0.2.0/24, `ea-len` 16, `psid-offset`
6, the address 192.0.2.5 and the port `0x1840`. -/
theorem map0_iid_layout_witness :
    (xlate_map_v4_to_v6 rule_map0_iid (ofBytes [192, 0, 2, 5]) (ofBytes [])
      (some (ntohs 0x1840)) 0 (ofBytes [])).2 8 = 0 ∧
    [9, 10, 11, 12].map (xlate_map_v4_to_v6 rule_map0_iid (ofBytes [192, 0, 2, 5]) (ofBytes [])
      (some (ntohs 0x1840)) 0 (ofBytes [])).2 =
      [ofBytes [192, 0, 2, 5] 0, ofBytes [192, 0, 2, 5] 1, ofBytes [192, 0, 2, 5] 2,
        ofBytes [192, 0, 2, 5] 3] ∧
    (xlate_map_v4_to_v6 rule_map0_iid (ofBytes [192, 0, 2, 5]) (ofBytes [])
      (some (ntohs 0x1840)) 0 (ofBytes [])).2 13 * 256 +
      (xlate_map_v4_to_v6 rule_map0_iid (ofBytes [192, 0, 2, 5]) (ofBytes [])
        (some (ntohs 0x1840)) 0 (ofBytes [])).2 14 =
      port_psid rule_map0_iid.psid_offset.toNat
        (rule_map0_iid.ea_len - (32 - rule_map0_iid.v4_pref_len)).toNat
        (ntohs ((some (ntohs 0x1840)).getD 0)) ∧
    (xlate_map_v4_to_v6 rule_map0_iid (ofBytes [192, 0, 2, 5]) (ofBytes [])
      (some (ntohs 0x1840)) 0 (ofBytes [])).2 15 = 0 :=
  map0_iid_layout rule_map0_iid (ofBytes [192, 0, 2, 5]) (ofBytes []) (some (ntohs 0x1840))
    (ofBytes []) (by decide) (isBytes_ofBytes _ (by decide)) (by decide) (by decide) (by decide)
    (by decide) (by decide) (by decide)

/-- C32: the MAP interface-identifier scenario.  For every rule with IPv4 prefix 192.0.2.0/24,
`ea-len` 16, `psid-offset` 6 and an IPv6 prefix of length 0..48 (any prefix bytes), a non-zero
`map_version`, the address 192.0.2.5 and the port `0x1840`, `xlate_map_v4_to_v6` returns 1 and
the bytes 8..15 of its output are exactly `00 00 C0 00 02 05 00 10`: sixteen zero bits, the
IPv4 address, and the PSID `0x10` left-padded to sixteen bits.  Prior contents of the output
buffer and the memory behind the port variable do not matter. -/
theorem map_iid_scenario (rule : nat46_xlate_rule_t) (pipv4 pipv6 stk : Mem) (l4id : Nat)
    (map_version : Int) (hv : map_version ≠ 0)
    (h4 : rule.v4_pref = ld32 (ofBytes [192, 0, 2, 0])) (h4l : rule.v4_pref_len = 24)
    (he : rule.ea_len = 16) (ho : rule.psid_offset = 6) (h6a : 0 ≤ rule.v6_pref_len)
    (h6b : rule.v6_pref_len ≤ 48) (ha : ld32 pipv4 = ld32 (ofBytes [192, 0, 2, 5]))
    (hp : ntohs l4id = 0x1840) :
    (xlate_map_v4_to_v6 rule pipv4 pipv6 (some l4id) map_version stk).1 = 1 ∧
    [8, 9, 10, 11, 12, 13, 14, 15].map
        (xlate_map_v4_to_v6 rule pipv4 pipv6 (some l4id) map_version stk).2 =
      [0x00, 0x00, 0xC0, 0x00, 0x02, 0x05, 0x00, 0x10] := by
  have hret : (xlate_map_v4_to_v6 rule pipv4 pipv6 (some l4id) map_version stk).1 = 1 := by
    unfold xlate_map_v4_to_v6
    dsimp only
    rw [h4, h4l, he, ha]
    rw [if_neg (by decide), if_neg (by decide), if_neg (by simp)]
  refine ⟨hret, ?_⟩
  rw [xlate_map_v4_to_v6_iid rule pipv4 pipv6 (some l4id) map_version stk hret h6a
    (by omega) (by omega) (by omega), if_pos hv, Option.getD_some, hp, h4l, he, ho, ha]
  decide

/-- The scenario at the MAP rule 2001:db8::/48. -/
theorem map_iid_scenario_witness :
    (xlate_map_v4_to_v6 rule_map_iid (ofBytes [192, 0, 2, 5]) (ofBytes []) (some (ntohs 0x1840))
      1 (ofBytes [])).1 = 1 ∧
    [8, 9, 10, 11, 12, 13, 14, 15].map (xlate_map_v4_to_v6 rule_map_iid (ofBytes [192, 0, 2, 5])
      (ofBytes []) (some (ntohs 0x1840)) 1 (ofBytes [])).2 =
      [0x00, 0x00, 0xC0, 0x00, 0x02, 0x05, 0x00, 0x10] :=
  map_iid_scenario rule_map_iid (ofBytes [192, 0, 2, 5]) (ofBytes []) (ofBytes [])
    (ntohs 0x1840) 1 (by decide) rfl rfl rfl rfl (by decide) (by decide) rfl (by decide)

/-! ### The port set of a CE -/

theorem testBit_high {a t : Nat} (ha : a < 256) (ht : 8 ≤ t) : a.testBit t = false := by
  have h8 : (2 : Nat) ^ 8 ≤ 2 ^ t := Nat.pow_le_pow_right (by decide) ht
  exact Nat.testBit_lt_two_pow (lt_of_lt_of_le ha h8)

theorem reverse_mask_testBit (m t : Nat) (hm1 : 1 ≤ m) (hm : m ≤ 8) :
    (reverse_mask m).testBit t = decide (8 - m ≤ t ∧ t < 8) := by
  by_cases ht : t < 8
  · interval_cases m <;> interval_cases t <;> rfl
  · have hlt : reverse_mask m < 256 := by interval_cases m <;> decide
    rw [testBit_high hlt (by omega)]
    simp [ht]

theorem reverse_mask_xor_testBit (m t : Nat) (hm : m ≤ 8) :
    (reverse_mask_xor m).testBit t = decide (t < 8 - m) := by
  by_cases ht : t < 8
  · interval_cases m <;> interval_cases t <;> rfl
  · have hlt : reverse_mask_xor m < 256 := by interval_cases m <;> decide
    rw [testBit_high hlt (by omega)]
    simp
    omega

/-- Two bytes that agree on the bits of a mask are equal under the mask. -/
theorem masked_agree (M c c' : Nat)
    (hb : ∀ t, M.testBit t = true → c.testBit t = c'.testBit t) : c &&& M = c' &&& M := by
  apply Nat.eq_of_testBit_eq
  intro t
  rw [Nat.testBit_and, Nat.testBit_and]
  cases hM : M.testBit t with
  | false => simp
  | true => rw [hb t hM]

/-- The byte made of the eight bits of `s` from bit `8 * i + ls` on, as the unaligned branch
of `bitarray_copy` assembles it. -/
theorem window_testBit (s : Mem) (hs : IsBytes s) (i ls rs t : Nat) (hrs : ls + rs = 8)
    (hls : ls ≤ 7) (ht : t < 8) :
    (((s i <<< ls) % 256) ||| (s (i + 1) >>> rs)).testBit t =
      getBit s (8 * i + ls + (7 - t)) := by
  obtain rfl : rs = 8 - ls := by omega
  have h256 : (256 : Nat) = 2 ^ 8 := by decide
  rw [Nat.testBit_or, h256, Nat.testBit_mod_two_pow, Nat.testBit_shiftLeft,
    Nat.testBit_shiftRight]
  unfold getBit
  by_cases h : ls ≤ t
  · have e1 : (8 * i + ls + (7 - t)) / 8 = i := by omega
    have e2 : 7 - (8 * i + ls + (7 - t)) % 8 = t - ls := by omega
    rw [e1, e2, testBit_high (hs (i + 1)) (by omega)]
    simp [ht, h]
  · have e1 : (8 * i + ls + (7 - t)) / 8 = i + 1 := by omega
    have e2 : 7 - (8 * i + ls + (7 - t)) % 8 = 8 - ls + t := by omega
    rw [e1, e2]
    simp [h]

theorem window_lt (s : Mem) (hs : IsBytes s) (i ls rs : Nat) :
    ((s i <<< ls) % 256) ||| (s (i + 1) >>> rs) < 256 := by
  have h1 : (s i <<< ls) % 256 < 2 ^ 8 := Nat.mod_lt _ (Nat.succ_pos 255)
  have h2 : s (i + 1) >>> rs < 2 ^ 8 := by
    rw [Nat.shiftRight_eq_div_pow]
    exact lt_of_le_of_lt (Nat.div_le_self _ _) (hs (i + 1))
  exact Nat.or_lt_two_pow h1 h2

theorem reverse_mask_xor_bit (m t : Nat) (hm : m ≤ 8)
    (ht : (reverse_mask_xor m).testBit t = true) : t < 8 - m := by
  rw [reverse_mask_xor_testBit m t hm] at ht
  simpa using ht

theorem reverse_mask_bit (m t : Nat) (hm1 : 1 ≤ m) (hm : m ≤ 8)
    (ht : (reverse_mask m).testBit t = true) : 8 - m ≤ t ∧ t < 8 := by
  rw [reverse_mask_testBit m t hm1 hm] at ht
  simpa using ht

theorem getBit_byte (s : Mem) (i j : Nat) (hj : j < 8) :
    getBit s (8 * i + (7 - j)) = (s i).testBit j := by
  unfold getBit
  have e1 : (8 * i + (7 - j)) / 8 = i := by omega
  have e2 : 7 - (8 * i + (7 - j)) % 8 = j := by omega
  rw [e1, e2]

theorem byte_agree (s s' : Mem) (hs : IsBytes s) (hs' : IsBytes s') (o n : Nat)
    (h : ∀ k, o ≤ k → k < o + n → getBit s k = getBit s' k) (i : Nat) (h1 : o ≤ 8 * i) (h2 : 8 * i + 8 ≤ o + n) : s i = s' i := by
  apply byte_eq_of_bits (hs i) (hs' i)
  intro j hj
  rw [← getBit_byte s i j hj, ← getBit_byte s' i j hj]
  exact h _ (by omega) (by omega)

theorem byte_masked_agree (s s' : Mem) (o n : Nat)
    (h : ∀ k, o ≤ k → k < o + n → getBit s k = getBit s' k) (M i : Nat)
    (hM : ∀ t, M.testBit t = true → t < 8 ∧ o ≤ 8 * i + (7 - t) ∧ 8 * i + (7 - t) < o + n) :
    s i &&& M = s' i &&& M := by
  apply masked_agree
  intro t ht
  obtain ⟨h8, h1, h2⟩ := hM t ht
  rw [← getBit_byte s i t h8, ← getBit_byte s' i t h8]
  exact h _ h1 h2

theorem window_masked_agree (s s' : Mem) (hs : IsBytes s) (hs' : IsBytes s') (o n : Nat)
    (h : ∀ k, o ≤ k → k < o + n → getBit s k = getBit s' k) (M i ls rs : Nat) (hrs : ls + rs = 8)
    (hls : ls ≤ 7)
    (hM : ∀ t, M.testBit t = true →
      t < 8 ∧ o ≤ 8 * i + ls + (7 - t) ∧ 8 * i + ls + (7 - t) < o + n) :
    (((s i <<< ls) % 256) ||| (s (i + 1) >>> rs)) &&& M =
      (((s' i <<< ls) % 256) ||| (s' (i + 1) >>> rs)) &&& M := by
  apply masked_agree
  intro t ht
  obtain ⟨h8, h1, h2⟩ := hM t ht
  rw [window_testBit s hs i ls rs t hrs hls h8, window_testBit s' hs' i ls rs t hrs hls h8]
  exact h _ h1 h2

theorem window_agree (s s' : Mem) (hs : IsBytes s) (hs' : IsBytes s') (o n : Nat)
    (h : ∀ k, o ≤ k → k < o + n → getBit s k = getBit s' k) (i ls rs : Nat) (hrs : ls + rs = 8)
    (hls : ls ≤ 7) (h1 : o ≤ 8 * i + ls) (h2 : 8 * i + ls + 8 ≤ o + n) :
    ((s i <<< ls) % 256) ||| (s (i + 1) >>> rs) =
      ((s' i <<< ls) % 256) ||| (s' (i + 1) >>> rs) := by
  apply byte_eq_of_bits (window_lt s hs i ls rs) (window_lt s' hs' i ls rs)
  intro t ht
  rw [window_testBit s hs i ls rs t hrs hls ht, window_testBit s' hs' i ls rs t hrs hls ht]
  exact h _ (by omega) (by omega)

theorem shr_masked_agree (s s' : Mem) (o n : Nat)
    (h : ∀ k, o ≤ k → k < o + n → getBit s k = getBit s' k) (M i rs : Nat)
    (hM : ∀ t, M.testBit t = true →
      t + rs < 8 ∧ o ≤ 8 * i + (7 - (t + rs)) ∧ 8 * i + (7 - (t + rs)) < o + n) :
    (s i >>> rs) &&& M = (s' i >>> rs) &&& M := by
  apply masked_agree
  intro t ht
  obtain ⟨h8, h1, h2⟩ := hM t ht
  rw [Nat.testBit_shiftRight, Nat.testBit_shiftRight, Nat.add_comm rs t,
    ← getBit_byte s i (t + rs) h8, ← getBit_byte s' i (t + rs) h8]
  exact h _ h1 h2

theorem memcpy_src_congr (m : Mem) (dst : Nat) (s s' : Mem) (src l : Nat)
    (h : ∀ i, i < l → s (src + i) = s' (src + i)) : memcpy m dst s src l = memcpy m dst s' src l := by
  funext k
  unfold memcpy
  split
  · exact h _ (by omega)
  · rfl

theorem bitarray_copy_middle_congr (s s' : Mem) (ls rs : Nat) :
    ∀ (l src dst : Nat) (m : Mem),
      (∀ i, i < l → ((s (src + i) <<< ls) % 256) ||| (s (src + i + 1) >>> rs) =
        ((s' (src + i) <<< ls) % 256) ||| (s' (src + i + 1) >>> rs)) →
      bitarray_copy_middle s ls rs l src dst m = bitarray_copy_middle s' ls rs l src dst m := by
  intro l
  induction l with
  | zero => intro src dst m _; rfl
  | succ l ih =>
    intro src dst m hw
    unfold bitarray_copy_middle
    have h0 := hw 0 (by omega)
    rw [Nat.add_zero] at h0
    rw [h0]
    apply ih
    intro i hi
    have := hw (i + 1) (by omega)
    have e : src + (i + 1) = src + 1 + i := by omega
    rw [e] at this
    exact this

theorem PREPARE_FIRST_COPY_congr (b c c' n dom : Nat)
    (h1 : n ≥ 8 - dom → c = c')
    (h2 : ¬ n ≥ 8 - dom → c &&& reverse_mask (dom + n) = c' &&& reverse_mask (dom + n)) :
    PREPARE_FIRST_COPY b c n dom = PREPARE_FIRST_COPY b c' n dom := by
  unfold PREPARE_FIRST_COPY
  split
  · rw [h1 ‹_›]
  · rw [h2 ‹_›]

theorem bitarray_copy_aligned_tail (s s' m : Mem) (src dst len : Nat)
    (hb : ∀ i, i < len / 8 → s (src + i) = s' (src + i))
    (hl : len % 8 ≠ 0 → reverse_mask (len % 8) &&& s (src + len / 8) =
      reverse_mask (len % 8) &&& s' (src + len / 8)) :
    (if len % 8 ≠ 0 then
      store (if len / 8 ≠ 0 then memcpy m dst s src (len / 8) else m) (dst + len / 8)
        (((if len / 8 ≠ 0 then memcpy m dst s src (len / 8) else m) (dst + len / 8) &&&
            reverse_mask_xor (len % 8)) |||
          (reverse_mask (len % 8) &&& s (src + len / 8)))
    else if len / 8 ≠ 0 then memcpy m dst s src (len / 8) else m) =
    (if len % 8 ≠ 0 then
      store (if len / 8 ≠ 0 then memcpy m dst s' src (len / 8) else m) (dst + len / 8)
        (((if len / 8 ≠ 0 then memcpy m dst s' src (len / 8) else m) (dst + len / 8) &&&
            reverse_mask_xor (len % 8)) |||
          (reverse_mask (len % 8) &&& s' (src + len / 8)))
    else if len / 8 ≠ 0 then memcpy m dst s' src (len / 8) else m) := by
  rw [memcpy_src_congr m dst s s' src (len / 8) hb]
  by_cases h : len % 8 ≠ 0
  · rw [if_pos h, if_pos h, hl h]
  · rw [if_neg h, if_neg h]

theorem bitarray_copy_unaligned_tail (s s' m : Mem) (ls rs src dst len : Nat)
    (hw : ∀ i, i < len / 8 → ((s (src + i) <<< ls) % 256) ||| (s (src + i + 1) >>> rs) =
      ((s' (src + i) <<< ls) % 256) ||| (s' (src + i + 1) >>> rs))
    (hl : len % 8 ≠ 0 →
      (((s (src + len / 8) <<< ls) % 256) ||| (s (src + len / 8 + 1) >>> rs)) &&&
          reverse_mask (len % 8) =
        (((s' (src + len / 8) <<< ls) % 256) ||| (s' (src + len / 8 + 1) >>> rs)) &&&
          reverse_mask (len % 8)) :
    (if len % 8 ≠ 0 then
      store (bitarray_copy_middle s ls rs (len / 8) src dst m) (dst + len / 8)
        ((bitarray_copy_middle s ls rs (len / 8) src dst m (dst + len / 8) &&&
            reverse_mask_xor (len % 8)) |||
          ((((s (src + len / 8) <<< ls) % 256) ||| (s (src + len / 8 + 1) >>> rs)) &&&
            reverse_mask (len % 8)))
    else bitarray_copy_middle s ls rs (len / 8) src dst m) =
    (if len % 8 ≠ 0 then
      store (bitarray_copy_middle s' ls rs (len / 8) src dst m) (dst + len / 8)
        ((bitarray_copy_middle s' ls rs (len / 8) src dst m (dst + len / 8) &&&
            reverse_mask_xor (len % 8)) |||
          ((((s' (src + len / 8) <<< ls) % 256) ||| (s' (src + len / 8 + 1) >>> rs)) &&&
            reverse_mask (len % 8)))
    else bitarray_copy_middle s' ls rs (len / 8) src dst m) := by
  rw [bitarray_copy_middle_congr s s' ls rs (len / 8) src dst m hw]
  by_cases h : len % 8 ≠ 0
  · rw [if_pos h, if_pos h, hl h]
  · rw [if_neg h, if_neg h]

/-- The bit copy reads only the source bits it is asked to copy: two sources held in bytes
that agree on the bits `o .. o + n - 1` give the same result. -/
theorem bitarray_copy_congr (s s' : Mem) (hs : IsBytes s) (hs' : IsBytes s') (o n : Nat)
    (h : ∀ k, o ≤ k → k < o + n → getBit s k = getBit s' k) (d : Mem) (q : Nat) :
    bitarray_copy s o n d q = bitarray_copy s' o n d q := by
  unfold bitarray_copy
  by_cases hn : n = 0
  · simp [hn]
  simp only [hn, if_false]
  by_cases hal : o % 8 = q % 8
  · simp only [hal, if_true]
    by_cases h0 : q % 8 ≠ 0
    · simp only [h0, ne_eq, not_false_eq_true, if_true]
      have hP : PREPARE_FIRST_COPY (d (q / 8)) (reverse_mask_xor (q % 8) &&& s (o / 8)) n (q % 8) =
          PREPARE_FIRST_COPY (d (q / 8)) (reverse_mask_xor (q % 8) &&& s' (o / 8)) n (q % 8) := by
        apply PREPARE_FIRST_COPY_congr
        · intro hge
          rw [Nat.and_comm, Nat.and_comm _ (s' _)]
          apply byte_masked_agree s s' o n h
          intro t ht
          have := reverse_mask_xor_bit _ _ (by omega) ht
          omega
        · intro hge
          rw [Nat.and_comm (reverse_mask_xor _), Nat.and_comm (reverse_mask_xor _), Nat.and_assoc,
            Nat.and_assoc]
          apply byte_masked_agree s s' o n h
          intro t ht
          rw [Nat.testBit_and, Bool.and_eq_true] at ht
          have h1 := reverse_mask_xor_bit _ _ (by omega) ht.1
          have h2 := reverse_mask_bit _ _ (by omega) (by omega) ht.2
          omega
      rw [hP]
      simp only [PREPARE_FIRST_COPY_len]
      by_cases hge : n ≥ 8 - q % 8
      · simp only [if_pos hge]
        apply bitarray_copy_aligned_tail
        · intro i hi
          apply byte_agree s s' hs hs' o n h <;> omega
        · intro hne
          rw [Nat.and_comm, Nat.and_comm _ (s' _)]
          apply byte_masked_agree s s' o n h
          intro t ht
          have h2 := reverse_mask_bit _ _ (by omega) (by omega) ht
          omega
      · simp only [if_neg hge]
        simp
    · simp only [h0, if_false]
      apply bitarray_copy_aligned_tail
      · intro i hi
        apply byte_agree s s' hs hs' o n h <;> omega
      · intro hne
        rw [Nat.and_comm, Nat.and_comm _ (s' _)]
        apply byte_masked_agree s s' o n h
        intro t ht
        have h2 := reverse_mask_bit _ _ (by omega) (by omega) ht
        omega
  · simp only [hal, if_false]
    by_cases hgt : o % 8 > q % 8
    · simp only [hgt, if_true]
      have hP : PREPARE_FIRST_COPY (d (q / 8))
            ((s (o / 8) <<< (o % 8 - q % 8) % 256 ||| s (o / 8 + 1) >>> (8 - (o % 8 - q % 8))) &&&
              reverse_mask_xor (q % 8)) n (q % 8) =
          PREPARE_FIRST_COPY (d (q / 8))
            ((s' (o / 8) <<< (o % 8 - q % 8) % 256 ||| s' (o / 8 + 1) >>> (8 - (o % 8 - q % 8))) &&&
              reverse_mask_xor (q % 8)) n (q % 8) := by
        apply PREPARE_FIRST_COPY_congr
        · intro hge
          apply window_masked_agree s s' hs hs' o n h _ _ _ _ (by omega) (by omega)
          intro t ht
          have := reverse_mask_xor_bit _ _ (by omega) ht
          omega
        · intro hge
          rw [Nat.and_assoc, Nat.and_assoc]
          apply window_masked_agree s s' hs hs' o n h _ _ _ _ (by omega) (by omega)
          intro t ht
          rw [Nat.testBit_and, Bool.and_eq_true] at ht
          have h1 := reverse_mask_xor_bit _ _ (by omega) ht.1
          have h2 := reverse_mask_bit _ _ (by omega) (by omega) ht.2
          omega
      rw [hP]
      simp only [PREPARE_FIRST_COPY_len]
      by_cases hge : n ≥ 8 - q % 8
      · simp only [if_pos hge]
        apply bitarray_copy_unaligned_tail
        · intro i hi
          apply window_agree s s' hs hs' o n h _ _ _ (by omega) (by omega) <;> omega
        · intro hne
          apply window_masked_agree s s' hs hs' o n h _ _ _ _ (by omega) (by omega)
          intro t ht
          have h2 := reverse_mask_bit _ _ (by omega) (by omega) ht
          omega
      · simp only [if_neg hge]
        simp [bitarray_copy_middle]
    · simp only [hgt, if_false]
      have hP : PREPARE_FIRST_COPY (d (q / 8))
            (s (o / 8) >>> (q % 8 - o % 8) &&& reverse_mask_xor (q % 8)) n (q % 8) =
          PREPARE_FIRST_COPY (d (q / 8))
            (s' (o / 8) >>> (q % 8 - o % 8) &&& reverse_mask_xor (q % 8)) n (q % 8) := by
        apply PREPARE_FIRST_COPY_congr
        · intro hge
          apply shr_masked_agree s s' o n h
          intro t ht
          have := reverse_mask_xor_bit _ _ (by omega) ht
          omega
        · intro hge
          rw [Nat.and_assoc, Nat.and_assoc]
          apply shr_masked_agree s s' o n h
          intro t ht
          rw [Nat.testBit_and, Bool.and_eq_true] at ht
          have h1 := reverse_mask_xor_bit _ _ (by omega) ht.1
          have h2 := reverse_mask_bit _ _ (by omega) (by omega) ht.2
          omega
      rw [hP]
      simp only [PREPARE_FIRST_COPY_len]
      by_cases hge : n ≥ 8 - q % 8
      · simp only [if_pos hge]
        apply bitarray_copy_unaligned_tail
        · intro i hi
          apply window_agree s s' hs hs' o n h _ _ _ (by omega) (by omega) <;> omega
        · intro hne
          apply window_masked_agree s s' hs hs' o n h _ _ _ _ (by omega) (by omega)
          intro t ht
          have h2 := reverse_mask_bit _ _ (by omega) (by omega) ht
          omega
      · simp only [if_neg hge]
        simp [bitarray_copy_middle]

theorem and_mod_256 (a M : Nat) (ha : a < 256) : a &&& (M % 256) = a &&& M := by
  apply Nat.eq_of_testBit_eq
  intro t
  have h256 : (256 : Nat) = 2 ^ 8 := by decide
  rw [Nat.testBit_and, Nat.testBit_and, h256, Nat.testBit_mod_two_pow]
  by_cases ht : t < 8
  · simp [ht]
  · rw [testBit_high ha (by omega)]
    simp

/-- The two results of `xlate_map_v6_to_v4`: success, with the suffix bits copied behind the
IPv4 prefix, exactly when the first `v6_pref_len` bits are those of the rule and the rule has
enough EA bits. -/
theorem xlate_map_v6_to_v4_cases (rule : nat46_xlate_rule_t) (x buf : Mem) (hx : IsBytes x)
    (hp : IsBytes rule.v6_pref) (h6 : 0 ≤ rule.v6_pref_len) :
    (((∀ k, k < rule.v6_pref_len.toNat → getBit x k = getBit rule.v6_pref k) ∧
        rule.ea_len ≥ 32 - rule.v4_pref_len) →
      xlate_map_v6_to_v4 rule x buf =
        (1, if to_u8 (32 - rule.v4_pref_len) ≠ 0 then
            bitarray_copy x rule.v6_pref_len.toNat (to_u8 (32 - rule.v4_pref_len))
              (memcpy buf 0 (u32_bytes rule.v4_pref) 0 4) rule.v4_pref_len.toNat
          else memcpy buf 0 (u32_bytes rule.v4_pref) 0 4)) ∧
    (¬ ((∀ k, k < rule.v6_pref_len.toNat → getBit x k = getBit rule.v6_pref k) ∧
        rule.ea_len ≥ 32 - rule.v4_pref_len) →
      xlate_map_v6_to_v4 rule x buf = (0, buf)) := by
  obtain ⟨l, hl⟩ := Int.eq_ofNat_of_zero_le h6
  have hd : (Int.tdiv rule.v6_pref_len 8).toNat = l / 8 := by
    rw [hl]
    exact_mod_cast rfl
  have hm : Int.tmod rule.v6_pref_len 8 = ((l % 8 : Nat) : Int) := by
    rw [hl]
    exact_mod_cast rfl
  have hl2 : rule.v6_pref_len.toNat = l := by rw [hl]; rfl
  have hsub : (8 - ((l % 8 : Nat) : Int)).toNat = 8 - l % 8 := by omega
  have hne : (((l % 8 : Nat) : Int) ≠ 0) ↔ l % 8 ≠ 0 := by omega
  have htest := lpm_v6_test_iff x rule.v6_pref hx hp l
  rw [← and_mod_256 _ _ (hx (l / 8)), ← and_mod_256 (rule.v6_pref (l / 8)) _ (hp (l / 8))] at htest
  unfold xlate_map_v6_to_v4
  simp only [hd, hm, hsub, hl2]
  have hbad : (if ((l % 8 : Nat) : Int) ≠ 0 then
        decide (x (l / 8) &&& (0xff <<< (8 - l % 8)) % 256 ≠
          rule.v6_pref (l / 8) &&& (0xff <<< (8 - l % 8)) % 256)
      else false) = true ↔
      (l % 8 ≠ 0 ∧ x (l / 8) &&& (0xff <<< (8 - l % 8)) % 256 ≠
        rule.v6_pref (l / 8) &&& (0xff <<< (8 - l % 8)) % 256) := by
    by_cases h8 : l % 8 = 0
    · rw [if_neg (by omega)]
      simp [h8]
    · rw [if_pos (by omega)]
      simp [h8]
  constructor
  · rintro ⟨hbits, hea⟩
    obtain ⟨hc, hmask⟩ := htest.mpr hbits
    rw [if_neg (by rw [hc]; simp),
      if_neg (fun hb => (hbad.mp hb).2 (hmask (hbad.mp hb).1)), if_neg (by omega)]
  · intro hnot
    by_cases hc : memcmp_ne x rule.v6_pref (l / 8) = true
    · rw [if_pos hc]
    rw [if_neg hc]
    have hc' : memcmp_ne x rule.v6_pref (l / 8) = false := by simpa using hc
    by_cases hb : (if ((l % 8 : Nat) : Int) ≠ 0 then
        decide (x (l / 8) &&& (0xff <<< (8 - l % 8)) % 256 ≠
          rule.v6_pref (l / 8) &&& (0xff <<< (8 - l % 8)) % 256)
      else false) = true
    · rw [if_pos hb]
    rw [if_neg hb]
    have hbits : ∀ k, k < l → getBit x k = getBit rule.v6_pref k :=
      htest.mp ⟨hc', fun h8 => by
        by_contra hne
        exact hb (hbad.mpr ⟨h8, hne⟩)⟩
    have hea : rule.ea_len < 32 - rule.v4_pref_len := by
      by_contra hge
      exact hnot ⟨hbits, by omega⟩
    rw [if_pos hea]

/-- C34: MAP decoding ignores the PSID.  For every rule with prefix lengths in range
(`0 <= v6_pref_len`, `0 <= v4_pref_len <= 32`) whose IPv6 prefix is held in bytes, and any two
IPv6 addresses (held in bytes) that agree on their first `v6_pref_len + (32 - v4_pref_len)`
bits, `xlate_map_v6_to_v4` gives the same return value and the same output; the return value
is 0 or 1, and it is 1 exactly when the first `v6_pref_len` bits of the address equal those of
`v6_pref` and `ea_len >= 32 - v4_pref_len`.  The function does not look at the style, so this
covers MAP and MAP0; the bits after the IPv4 suffix, the PSID among them, are not read. -/
theorem xlate_map_v6_to_v4_ignores_psid (rule : nat46_xlate_rule_t) (x y buf : Mem)
    (hx : IsBytes x) (hy : IsBytes y) (hp : IsBytes rule.v6_pref)
    (h6 : 0 ≤ rule.v6_pref_len) (h4a : 0 ≤ rule.v4_pref_len) (h4b : rule.v4_pref_len ≤ 32)
    (hxy : ∀ k, k < rule.v6_pref_len.toNat + (32 - rule.v4_pref_len).toNat →
      getBit x k = getBit y k) :
    xlate_map_v6_to_v4 rule x buf = xlate_map_v6_to_v4 rule y buf ∧
    ((xlate_map_v6_to_v4 rule x buf).1 = 1 ∨ (xlate_map_v6_to_v4 rule x buf).1 = 0) ∧
    ((xlate_map_v6_to_v4 rule x buf).1 = 1 ↔
      (∀ k, k < rule.v6_pref_len.toNat → getBit x k = getBit rule.v6_pref k) ∧
      rule.ea_len ≥ 32 - rule.v4_pref_len) := by
  have cx := xlate_map_v6_to_v4_cases rule x buf hx hp h6
  have cy := xlate_map_v6_to_v4_cases rule y buf hy hp h6
  have u1 : to_u8 (32 - rule.v4_pref_len) = (32 - rule.v4_pref_len).toNat := by
    unfold to_u8
    omega
  by_cases hc : (∀ k, k < rule.v6_pref_len.toNat → getBit x k = getBit rule.v6_pref k) ∧
      rule.ea_len ≥ 32 - rule.v4_pref_len
  · have hcy : (∀ k, k < rule.v6_pref_len.toNat → getBit y k = getBit rule.v6_pref k) ∧
        rule.ea_len ≥ 32 - rule.v4_pref_len :=
      ⟨fun k hk => (hxy k (by omega)).symm.trans (hc.1 k hk), hc.2⟩
    rw [cx.1 hc, cy.1 hcy]
    refine ⟨?_, Or.inl rfl, fun _ => hc, fun _ => rfl⟩
    rw [bitarray_copy_congr x y hx hy rule.v6_pref_len.toNat (to_u8 (32 - rule.v4_pref_len))
      (fun k _ h2 => hxy k (by omega))]
  · have hcy : ¬ ((∀ k, k < rule.v6_pref_len.toNat → getBit y k = getBit rule.v6_pref k) ∧
        rule.ea_len ≥ 32 - rule.v4_pref_len) :=
      fun h => hc ⟨fun k hk => (hxy k (by omega)).trans (h.1 k hk), h.2⟩
    rw [cx.2 hc, cy.2 hcy]
    refine ⟨rfl, Or.inr rfl, fun h => ?_, fun h => absurd h hc⟩
    exact absurd h (by simp)

/-- The decoding at the MAP rule 2001:db8::/80, 192.0.0.0/20, `ea-len` 12, for two addresses
that differ only after bit 92 (in the bytes 12..15). -/
theorem xlate_map_v6_to_v4_ignores_psid_witness :
    xlate_map_v6_to_v4 rule_map80
        (ofBytes [0x20, 0x01, 0x0d, 0xb8, 0, 0, 0, 0, 0, 0, 0x12, 0x30, 0, 0, 0, 0x10])
        (ofBytes []) =
      xlate_map_v6_to_v4 rule_map80
        (ofBytes [0x20, 0x01, 0x0d, 0xb8, 0, 0, 0, 0, 0, 0, 0x12, 0x3f, 0xff, 0, 0, 0x25])
        (ofBytes []) ∧
    ((xlate_map_v6_to_v4 rule_map80
        (ofBytes [0x20, 0x01, 0x0d, 0xb8, 0, 0, 0, 0, 0, 0, 0x12, 0x30, 0, 0, 0, 0x10])
        (ofBytes [])).1 = 1 ∨
      (xlate_map_v6_to_v4 rule_map80
        (ofBytes [0x20, 0x01, 0x0d, 0xb8, 0, 0, 0, 0, 0, 0, 0x12, 0x30, 0, 0, 0, 0x10])
        (ofBytes [])).1 = 0) ∧
    ((xlate_map_v6_to_v4 rule_map80
        (ofBytes [0x20, 0x01, 0x0d, 0xb8, 0, 0, 0, 0, 0, 0, 0x12, 0x30, 0, 0, 0, 0x10])
        (ofBytes [])).1 = 1 ↔
      (∀ k, k < rule_map80.v6_pref_len.toNat →
        getBit (ofBytes [0x20, 0x01, 0x0d, 0xb8, 0, 0, 0, 0, 0, 0, 0x12, 0x30, 0, 0, 0, 0x10]) k =
          getBit rule_map80.v6_pref k) ∧
      rule_map80.ea_len ≥ 32 - rule_map80.v4_pref_len) :=
  xlate_map_v6_to_v4_ignores_psid rule_map80
    (ofBytes [0x20, 0x01, 0x0d, 0xb8, 0, 0, 0, 0, 0, 0, 0x12, 0x30, 0, 0, 0, 0x10])
    (ofBytes [0x20, 0x01, 0x0d, 0xb8, 0, 0, 0, 0, 0, 0, 0x12, 0x3f, 0xff, 0, 0, 0x25])
    (ofBytes []) (isBytes_ofBytes _ (by decide)) (isBytes_ofBytes _ (by decide))
    (isBytes_ofBytes _ (by decide)) (by decide) (by decide) (by decide) (by decide)

end Nat46
